import Mathlib

/-!
# Transfer-plan verification of `gossip` (gather_plan.hpp, scatter_plan.hpp)

A shallow embedding of `gather_plan_t` and `scatter_plan_t`: default-plan
synthesis, derivation of `num_steps`, and `verify_plan`, together with the
properties of the validity verdict.

Conventions of the embedding

* device identifiers, sizes and counters are natural numbers; every place where
  the C++ arithmetic is modular is written with an explicit `%`;
* `size_t` has 64 bits and `int` has 32 bits;
* a C++ function that can throw or run into undefined behaviour returns
  `Except Exn _`; `Exn.undefined_behaviour` marks `front()`/`back()` of an empty
  vector and an index outside a vector.
-/

namespace gossip

/-! ## Integer types -/

/-- The unsigned integer types that a declaration can name. -/
inductive UIntType where
  | uint8_t
  | uint16_t
  | uint32_t
  | uint64_t
  deriving DecidableEq, Repr

/-- Width in bits. -/
def UIntType.bits : UIntType → Nat
  | .uint8_t => 8
  | .uint16_t => 16
  | .uint32_t => 32
  | .uint64_t => 64

/-- The integer type declarations of the headers that `gather_plan.hpp` and
`scatter_plan.hpp` include but that are not part of the available sources: the
type `gpu_id_t` of device identifiers (unsigned, its all-ones value is the
sentinel) and the type of the member `num_steps` of `transfer_plan_t`. They are
parameters of the embedding. -/
structure Types where
  gpu_id_t : UIntType
  num_steps_t : UIntType
  deriving DecidableEq, Repr

/-- Number of values of `size_t`. -/
def SIZE_RANGE : Nat := 2 ^ 64

/-- The value `size() - 1` as stored in `num_steps` by
`this->num_steps = this->transfer_sequences[0].size()-1;`: the subtraction is done
in `size_t` (subtracting 1 is adding `SIZE_RANGE - 1` modulo `SIZE_RANGE`, so that
`0 - 1` is the largest value), the result is converted to the type of `num_steps`. -/
def derive_num_steps (T : Types) (size : Nat) : Nat :=
  (((SIZE_RANGE - 1) + size) % SIZE_RANGE) % 2 ^ T.num_steps_t.bits

/-- The value `this->num_steps+1` as compared with a `size()`: an operand
narrower than `int` is promoted to `int` (no wrap-around), an operand of 32 or 64
bits is incremented modulo its range. -/
def num_steps_plus_one (T : Types) (num_steps : Nat) : Nat :=
  if T.num_steps_t.bits < 32 then num_steps + 1
  else (num_steps + 1) % 2 ^ T.num_steps_t.bits

/-! ## Outcomes -/

/-- What ends a call abnormally: `std::invalid_argument` with its message, or
undefined behaviour. -/
inductive Exn where
  | invalid_argument (what : String)
  | undefined_behaviour
  deriving DecidableEq, Repr

/-- The pattern `if (throw_exceptions) throw std::invalid_argument(what); else return false;` -/
def reject (throw_exceptions : Bool) (what : String) : Except Exn Bool :=
  if throw_exceptions then Except.error (Exn.invalid_argument what) else Except.ok false

/-- Equality of outcomes is decidable. -/
instance instDecidableEqOutcome {ε α : Type} [DecidableEq ε] [DecidableEq α] :
    DecidableEq (Except ε α)
  | Except.ok a, Except.ok b =>
    if h : a = b then isTrue (by rw [h]) else isFalse (fun h2 => h (Except.ok.inj h2))
  | Except.error a, Except.error b =>
    if h : a = b then isTrue (by rw [h]) else isFalse (fun h2 => h (Except.error.inj h2))
  | Except.ok _, Except.error _ => isFalse (fun h => by cases h)
  | Except.error _, Except.ok _ => isFalse (fun h => by cases h)

/-! ## The plan data -/

/-- The data members of `transfer_plan_t` that the two specializations use. -/
structure transfer_plan_t where
  num_gpus : Nat
  num_steps : Nat
  num_chunks : Nat
  transfer_sequences : List (List Nat)
  transfer_sizes : List Nat
  synchronized : Bool
  valid : Bool
  deriving DecidableEq, Repr

/-- Modelled from the spec: the two-argument constructor of the base class
`transfer_plan_t` (transfer_plan.hpp is not part of the available sources). It
stores the device count and the sequences it is given; `num_chunks` is 1 ("default
1 when sizes are uniform/unspecified"), no sizes, not synchronized, and the flag
`valid` starts out true ("plans with `num_gpus < 2` are trivially valid": for them
`initialize` does nothing). The spec does not give the initial `num_steps`; 0 is
used and no statement below depends on it. -/
def transfer_plan_t.base (num_gpus : Nat) (transfer_sequences : List (List Nat)) :
    transfer_plan_t :=
  { num_gpus := num_gpus
    num_steps := 0
    num_chunks := 1
    transfer_sequences := transfer_sequences
    transfer_sizes := []
    synchronized := false
    valid := true }

/-- Modelled from the spec: the four-argument constructor of the base class
`transfer_plan_t` (transfer_plan.hpp is not part of the available sources): as
`transfer_plan_t.base`, with the supplied `num_chunks` and `transfer_sizes`
stored. -/
def transfer_plan_t.base_chunked (num_gpus : Nat) (transfer_sequences : List (List Nat))
    (num_chunks : Nat) (transfer_sizes : List Nat) : transfer_plan_t :=
  { num_gpus := num_gpus
    num_steps := 0
    num_chunks := num_chunks
    transfer_sequences := transfer_sequences
    transfer_sizes := transfer_sizes
    synchronized := false
    valid := true }

/-! ## `verify_plan`

The bodies of `gather_plan_t::verify_plan` and `scatter_plan_t::verify_plan` are
the same text up to the exchange of `front()` and `back()` and one message. The
loops are written once, over the accessor of the fixed endpoint (`fixed`) and of
the free endpoint (`free`); an accessor returns `none` on an empty sequence. -/

/-- The accessor `sequence.front()`. -/
def front (sequence : List Nat) : Option Nat := sequence.head?

/-- The accessor `sequence.back()`. -/
def back (sequence : List Nat) : Option Nat := sequence.getLast?

/-- The loop
`for (const auto& sequence : transfer_sequences) if (sequence.size() != num_steps+1) ...`:
true when no sequence is rejected. -/
def lengths_ok (T : Types) (num_steps : Nat) (transfer_sequences : List (List Nat)) : Bool :=
  transfer_sequences.all (fun sequence => sequence.length == num_steps_plus_one T num_steps)

/-- The loop
`for (const auto& sequence : transfer_sequences) if (sequence.back() != target) ...`
(`front()` and `source` for Scatter): `none` when the loop runs to its end, otherwise
the outcome that ends `verify_plan`. -/
def endpoint_loop (throw_exceptions : Bool) (fixed : List Nat → Option Nat) (anchor : Nat)
    (what : String) : List (List Nat) → Option (Except Exn Bool)
  | [] => none
  | sequence :: rest =>
    match fixed sequence with
    | none => some (Except.error Exn.undefined_behaviour)
    | some e =>
      if e ≠ anchor then some (reject throw_exceptions what)
      else endpoint_loop throw_exceptions fixed anchor what rest

/-- The statement `completeness[i] += v` on a `std::vector<size_t>`: undefined for an
index outside the vector, addition modulo the range of `size_t`. -/
def add_at (completeness : List Nat) (i v : Nat) : Option (List Nat) :=
  if i < completeness.length then
    some (completeness.set i ((completeness.getD i 0 + v) % SIZE_RANGE))
  else none

/-- The loop
`for (const auto& sequence : transfer_sequences) completeness[sequence.front()] += 1;`
(`back()` for Scatter); `none` is undefined behaviour. -/
def count_loop (free : List Nat → Option Nat) :
    List (List Nat) → List Nat → Option (List Nat)
  | [], completeness => some completeness
  | sequence :: rest, completeness =>
    match free sequence with
    | none => none
    | some d =>
      match add_at completeness d 1 with
      | none => none
      | some c => count_loop free rest c

/-- The loop
`for (size_t i = 0; i < transfer_sequences.size(); ++i) completeness[transfer_sequences[i].front()] += transfer_sizes[i];`
(`back()` for Scatter), the two vectors walked in step; `none` is undefined behaviour
(also `transfer_sizes[i]` for an `i` outside `transfer_sizes`). -/
def size_loop (free : List Nat → Option Nat) :
    List (List Nat) → List Nat → List Nat → Option (List Nat)
  | [], _, completeness => some completeness
  | _ :: _, [], _ => none
  | sequence :: rest, size :: sizes, completeness =>
    match free sequence with
    | none => none
    | some d =>
      match add_at completeness d size with
      | none => none
      | some c => size_loop free rest sizes c

/-- The loop
`for (gpu_id_t src = 0; src < num_gpus; ++src) if (completeness[src] != num_chunks) ...`:
true when no device is rejected. -/
def complete_ok (num_gpus num_chunks : Nat) (completeness : List Nat) : Bool :=
  (List.range num_gpus).all (fun src => completeness.getD src 0 == num_chunks)

/-- The body of `verify_plan`, for the error policy `throw_exceptions`, the accessors
of the fixed and of the free endpoint, the anchor device and the message of the
endpoint check. -/
def verify_plan_body (T : Types) (throw_exceptions : Bool)
    (fixed free : List Nat → Option Nat) (anchor : Nat) (what_endpoint : String)
    (p : transfer_plan_t) : Except Exn Bool :=
  if p.num_steps < 1 then
    reject throw_exceptions "planned sequence must be at least of length 2."
  else if !(lengths_ok T p.num_steps p.transfer_sequences) then
    reject throw_exceptions "planned sequences must have same lengths."
  else
    match endpoint_loop throw_exceptions fixed anchor what_endpoint p.transfer_sequences with
    | some r => r
    | none =>
      let completeness := List.replicate p.num_gpus 0
      if p.num_chunks ≤ 1 then
        match count_loop free p.transfer_sequences completeness with
        | none => Except.error Exn.undefined_behaviour
        | some c =>
          if complete_ok p.num_gpus p.num_chunks c then Except.ok true
          else reject throw_exceptions "transfer plan is incomplete."
      else if p.transfer_sequences.length ≠ p.transfer_sizes.length then
        reject throw_exceptions "number of sequences must match number of sizes."
      else
        match size_loop free p.transfer_sequences p.transfer_sizes completeness with
        | none => Except.error Exn.undefined_behaviour
        | some c =>
          if complete_ok p.num_gpus p.num_chunks c then Except.ok true
          else reject throw_exceptions "transfer plan is incomplete."

/-- The part of `initialize` after the default plan is loaded: derive `num_steps`
from `transfer_sequences[0]`, clear `synchronized`, store the verdict of
`verify_plan` in `valid`. -/
def derive_and_verify (T : Types) (verify : transfer_plan_t → Except Exn Bool)
    (p : transfer_plan_t) : Except Exn transfer_plan_t :=
  match p.transfer_sequences with
  | [] => Except.error Exn.undefined_behaviour
  | first :: _ =>
    let q := { p with num_steps := derive_num_steps T first.length, synchronized := false }
    match verify q with
    | Except.ok v => Except.ok { q with valid := v }
    | Except.error e => Except.error e

/-! ## Gather -/

/-- A Gather plan: the base data and the `target`. -/
structure gather_plan_t extends transfer_plan_t where
  target : Nat
  deriving DecidableEq, Repr

namespace gather_plan_t

/-- The default plan: `num_steps = 1`, `num_chunks = 1`, and for each `src` in
`[0, num_gpus)` the sequence `{src, target}`. -/
def load_default_plan (target : Nat) (p : transfer_plan_t) : transfer_plan_t :=
  { p with
    num_steps := 1
    num_chunks := 1
    transfer_sequences := (List.range p.num_gpus).map (fun src => [src, target]) }

/-- The method `verify_plan` of `gather_plan_t`: the fixed endpoint is `back()`, the
free endpoint is `front()`. -/
def verify_plan (T : Types) (throw_exceptions : Bool) (target : Nat)
    (p : transfer_plan_t) : Except Exn Bool :=
  verify_plan_body T throw_exceptions back front target
    "all sequences must have same target." p

/-- The method of `gather_plan_t` that its constructors run (`initialize` in the source,
a reserved word here). -/
def initialise (T : Types) (throw_exceptions : Bool) (target : Nat)
    (p : transfer_plan_t) : Except Exn transfer_plan_t :=
  if p.num_gpus ≥ 2 then
    derive_and_verify T (verify_plan T throw_exceptions target)
      (if p.transfer_sequences.isEmpty then load_default_plan target p else p)
  else Except.ok p

/-- The constructor `gather_plan_t(target_, num_gpus_, transfer_sequences_ = {})`. -/
def create (T : Types) (throw_exceptions : Bool) (target num_gpus : Nat)
    (transfer_sequences : List (List Nat)) : Except Exn gather_plan_t :=
  match initialise T throw_exceptions target
      (transfer_plan_t.base num_gpus transfer_sequences) with
  | Except.ok p => Except.ok { p with target := target }
  | Except.error e => Except.error e

/-- The constructor
`gather_plan_t(target_, num_gpus_, transfer_sequences_, num_chunks_, transfer_sizes_)`. -/
def create_chunked (T : Types) (throw_exceptions : Bool) (target num_gpus : Nat)
    (transfer_sequences : List (List Nat)) (num_chunks : Nat) (transfer_sizes : List Nat) :
    Except Exn gather_plan_t :=
  match initialise T throw_exceptions target
      (transfer_plan_t.base_chunked num_gpus transfer_sequences num_chunks transfer_sizes) with
  | Except.ok p => Except.ok { p with target := target }
  | Except.error e => Except.error e

end gather_plan_t

/-! ## Scatter -/

/-- A Scatter plan: the base data and the `source`. -/
structure scatter_plan_t extends transfer_plan_t where
  source : Nat
  deriving DecidableEq, Repr

namespace scatter_plan_t

/-- The default plan: `num_steps = 1`, `num_chunks = 1`, and for each `trg` in
`[0, num_gpus)` the sequence `{source, trg}`. -/
def load_default_plan (source : Nat) (p : transfer_plan_t) : transfer_plan_t :=
  { p with
    num_steps := 1
    num_chunks := 1
    transfer_sequences := (List.range p.num_gpus).map (fun trg => [source, trg]) }

/-- The method `verify_plan` of `scatter_plan_t`: the fixed endpoint is `front()`,
the free endpoint is `back()`. -/
def verify_plan (T : Types) (throw_exceptions : Bool) (source : Nat)
    (p : transfer_plan_t) : Except Exn Bool :=
  verify_plan_body T throw_exceptions front back source
    "all sequences must have same source." p

/-- The method of `scatter_plan_t` that its constructors run (`initialize` in the source,
a reserved word here). -/
def initialise (T : Types) (throw_exceptions : Bool) (source : Nat)
    (p : transfer_plan_t) : Except Exn transfer_plan_t :=
  if p.num_gpus ≥ 2 then
    derive_and_verify T (verify_plan T throw_exceptions source)
      (if p.transfer_sequences.isEmpty then load_default_plan source p else p)
  else Except.ok p

/-- The constructor `scatter_plan_t(source_, num_gpus_, transfer_sequences_ = {})`. -/
def create (T : Types) (throw_exceptions : Bool) (source num_gpus : Nat)
    (transfer_sequences : List (List Nat)) : Except Exn scatter_plan_t :=
  match initialise T throw_exceptions source
      (transfer_plan_t.base num_gpus transfer_sequences) with
  | Except.ok p => Except.ok { p with source := source }
  | Except.error e => Except.error e

/-- The constructor
`scatter_plan_t(source_, num_gpus_, transfer_sequences_, num_chunks_, transfer_sizes_)`. -/
def create_chunked (T : Types) (throw_exceptions : Bool) (source num_gpus : Nat)
    (transfer_sequences : List (List Nat)) (num_chunks : Nat) (transfer_sizes : List Nat) :
    Except Exn scatter_plan_t :=
  match initialise T throw_exceptions source
      (transfer_plan_t.base_chunked num_gpus transfer_sequences num_chunks transfer_sizes) with
  | Except.ok p => Except.ok { p with source := source }
  | Except.error e => Except.error e

end scatter_plan_t

/-! ## Vocabulary of the statements -/

/-- The exact total weight that the sequences with free endpoint `d` carry: the sum
of `transfer_sizes[i]` over the `i` with `free transfer_sequences[i] = d`. -/
def exact_total (free : List Nat → Option Nat) (d : Nat)
    (transfer_sequences : List (List Nat)) (transfer_sizes : List Nat) : Nat :=
  (((transfer_sequences.zip transfer_sizes).filter
    (fun x => decide (free x.1 = some d))).map Prod.snd).sum

/-- The number of sequences with free endpoint `d`. -/
def endpoint_count (free : List Nat → Option Nat) (d : Nat)
    (transfer_sequences : List (List Nat)) : Nat :=
  transfer_sequences.countP (fun s => decide (free s = some d))

/-- Construction is rejected with the message `what`: in fail-fast mode the
constructor raises `std::invalid_argument(what)`, in silent mode it returns a plan
whose flag `valid` is false. -/
def rejected {α : Type} (valid : α → Bool) (throw_exceptions : Bool) (what : String)
    (r : Except Exn α) : Prop :=
  (throw_exceptions = true → r = Except.error (Exn.invalid_argument what)) ∧
  (throw_exceptions = false → ∃ g, r = Except.ok g ∧ valid g = false)

/-- The plan on which `verify_plan` runs: the data stored by the base constructor
(or the default plan), with `num_steps` derived from the first sequence. -/
def staged (T : Types) (num_gpus : Nat) (transfer_sequences : List (List Nat))
    (num_chunks : Nat) (transfer_sizes : List Nat) (first : List Nat) : transfer_plan_t :=
  { num_gpus := num_gpus
    num_steps := derive_num_steps T first.length
    num_chunks := num_chunks
    transfer_sequences := transfer_sequences
    transfer_sizes := transfer_sizes
    synchronized := false
    valid := true }

/-- The five failures of the error taxonomy, in the order of the checks of
`verify_plan`. -/
inductive Failure where
  | TooShortPlan
  | MalformedSequenceLength
  | EndpointMismatch
  | SizeCountMismatch
  | IncompletePlan
  deriving DecidableEq, Repr

/-- The message that `verify_plan` raises for a failure; the message of the endpoint
check is the one thing that differs between Gather and Scatter. -/
def Failure.what (what_endpoint : String) : Failure → String
  | Failure.TooShortPlan => "planned sequence must be at least of length 2."
  | Failure.MalformedSequenceLength => "planned sequences must have same lengths."
  | Failure.EndpointMismatch => what_endpoint
  | Failure.SizeCountMismatch => "number of sequences must match number of sizes."
  | Failure.IncompletePlan => "transfer plan is incomplete."

/-- The weight that the completeness check attributes to device `d`: the number of
sequences with free endpoint `d` when `num_chunks ≤ 1`, the total of their sizes
otherwise. -/
def device_total (free : List Nat → Option Nat) (d : Nat) (p : transfer_plan_t) : Nat :=
  if p.num_chunks ≤ 1 then endpoint_count free d p.transfer_sequences
  else exact_total free d p.transfer_sequences p.transfer_sizes

/-- The first check of `verify_plan` that fails, read off the code without its loops and
in the order of the code: `num_steps < 1`; a sequence whose `size()` differs from
`num_steps+1` as the code computes it; a fixed endpoint that differs from the anchor;
inside `else` of `num_chunks <= 1`, a number of sizes that differs from the number of
sequences; a device whose counter of `completeness`, a `size_t`, differs from
`num_chunks`. `none` when no check fails. It is a reading of the code, not of the spec:
see `spec_first_violated_check`. -/
def first_violated_check (T : Types) (fixed free : List Nat → Option Nat) (anchor : Nat)
    (p : transfer_plan_t) : Option Failure :=
  if p.num_steps < 1 then some Failure.TooShortPlan
  else if p.transfer_sequences.any
      (fun s => decide (s.length ≠ num_steps_plus_one T p.num_steps)) then
    some Failure.MalformedSequenceLength
  else if p.transfer_sequences.any (fun s => decide (fixed s ≠ some anchor)) then
    some Failure.EndpointMismatch
  else if 1 < p.num_chunks ∧ p.transfer_sequences.length ≠ p.transfer_sizes.length then
    some Failure.SizeCountMismatch
  else if (List.range p.num_gpus).any
      (fun d => decide (device_total free d p % SIZE_RANGE ≠ p.num_chunks)) then
    some Failure.IncompletePlan
  else none

/-- Following the spec's words, not the code: the first violated invariant among the
invariants 1 to 5 of the spec's data model, in the order `num_steps < 1`, sequence
length mismatch, endpoint mismatch, size-count mismatch, incompleteness. A length is
compared with `num_steps + 1` and a total with `num_chunks` as exact numbers, and the
number of sizes is compared with the number of sequences whenever sizes are supplied
(`transfer_sizes` is not empty). -/
def spec_first_violated_check (fixed free : List Nat → Option Nat) (anchor : Nat)
    (p : transfer_plan_t) : Option Failure :=
  if p.num_steps < 1 then some Failure.TooShortPlan
  else if p.transfer_sequences.any (fun s => decide (s.length ≠ p.num_steps + 1)) then
    some Failure.MalformedSequenceLength
  else if p.transfer_sequences.any (fun s => decide (fixed s ≠ some anchor)) then
    some Failure.EndpointMismatch
  else if p.transfer_sizes ≠ [] ∧ p.transfer_sequences.length ≠ p.transfer_sizes.length then
    some Failure.SizeCountMismatch
  else if (List.range p.num_gpus).any
      (fun d => decide (device_total free d p ≠ p.num_chunks)) then
    some Failure.IncompletePlan
  else none

/-- The validity verdict of a construction: the flag `valid` of the plan it returns,
`false` when it raises `std::invalid_argument`; `none` marks undefined behaviour. -/
def verdict {α : Type} (valid : α → Bool) : Except Exn α → Option Bool
  | Except.ok g => some (valid g)
  | Except.error (Exn.invalid_argument _) => some false
  | Except.error Exn.undefined_behaviour => none

/-- Whether the free endpoint of a sequence exists and is a device of the plan. -/
def free_in_range (free : List Nat → Option Nat) (num_gpus : Nat) (s : List Nat) : Bool :=
  match free s with
  | none => false
  | some e => decide (e < num_gpus)

/-- The verdict of `verify_plan` (`none` for undefined behaviour) computed from
properties of the plan that do not depend on the order of its sequences. It is the
verdict of the code for accessors that are undefined on the empty sequence only. -/
def order_free_verdict (T : Types) (fixed free : List Nat → Option Nat) (anchor : Nat)
    (p : transfer_plan_t) : Option Bool :=
  if p.num_steps < 1 then some false
  else if p.transfer_sequences.any
      (fun s => decide (s.length ≠ num_steps_plus_one T p.num_steps)) then some false
  else if p.transfer_sequences.any (fun s => decide (fixed s = none)) then none
  else if p.transfer_sequences.any (fun s => decide (fixed s ≠ some anchor)) then some false
  else if 1 < p.num_chunks ∧ p.transfer_sequences.length ≠ p.transfer_sizes.length then
    some false
  else if p.transfer_sequences.any (fun s => !(free_in_range free p.num_gpus s)) then none
  else some (!((List.range p.num_gpus).any
    (fun d => decide (device_total free d p % SIZE_RANGE ≠ p.num_chunks))))

/-- An outcome of `verify_plan` with the message `old` replaced by `new`. -/
def rename_message (old new : String) : Except Exn Bool → Except Exn Bool
  | Except.error (Exn.invalid_argument w) =>
    Except.error (Exn.invalid_argument (if w = old then new else w))
  | Except.error Exn.undefined_behaviour => Except.error Exn.undefined_behaviour
  | Except.ok b => Except.ok b

/-- A plan with every transfer sequence reversed. -/
def reversed (p : transfer_plan_t) : transfer_plan_t :=
  { p with transfer_sequences := p.transfer_sequences.map List.reverse }

/-- Two sequences of equal length, equal first element and equal last element. -/
def same_ends (s s2 : List Nat) : Prop :=
  s.length = s2.length ∧ front s = front s2 ∧ back s = back s2

/-! ## `trim_plan`

The helper `trim_plan` has the same text in both classes; its call in the constructor
pipeline is commented out. -/

/-- The value `gpu_id_t(-1)`: all bits set. -/
def gpu_id_sentinel (T : Types) : Nat := 2 ^ T.gpu_id_t.bits - 1

/-- The call `sequence.resize(n)`: the first `n` elements, filled up with zeros when `n`
exceeds the size. -/
def resize (sequence : List Nat) (n : Nat) : List Nat :=
  sequence.take n ++ List.replicate (n - sequence.length) 0

/-- The inner loop of `trim_plan`, `for (auto it = sequence.rbegin(); it < sequence.rend(); ++it)`,
on the elements from `it` to `rend()` (the sequence read from the back) and the current
value of the local `target`: the argument of `sequence.resize(...)` when the loop
reaches it, `none` when the loop runs to its end. For `it` at `x` followed by `rest`,
`sequence.rend() - it` is `rest.length + 1`. -/
def trim_scan (sentinel : Nat) : List Nat → Nat → Option Nat
  | [], _ => none
  | x :: rest, target =>
    if target = sentinel then trim_scan sentinel rest x
    else if target ≠ x then some ((rest.length + 1) + 1)
    else trim_scan sentinel rest target

/-- The body of the outer loop of `trim_plan` on one sequence: `target` starts as
`gpu_id_t(-1)`. -/
def trim_sequence (T : Types) (sequence : List Nat) : List Nat :=
  match trim_scan (gpu_id_sentinel T) sequence.reverse (gpu_id_sentinel T) with
  | none => sequence
  | some n => resize sequence n

/-- The method `trim_plan`: every transfer sequence is trimmed in place. -/
def trim_plan (T : Types) (p : transfer_plan_t) : transfer_plan_t :=
  { p with transfer_sequences := p.transfer_sequences.map (trim_sequence T) }

/-! ## Properties of the loops -/

theorem add_at_some {c c2 : List Nat} {i v : Nat} (h : add_at c i v = some c2) :
    i < c.length ∧ c2.length = c.length ∧
      ∀ d, c2.getD d 0 = if d = i then (c.getD i 0 + v) % SIZE_RANGE else c.getD d 0 := by
  unfold add_at at h
  split at h
  · rename_i hi
    injection h with h
    subst h
    refine ⟨hi, by simp, ?_⟩
    intro d
    by_cases hd : d = i
    · subst hd
      simp [List.getD_eq_getElem?_getD, List.getElem?_set, hi]
    · have hd2 : ¬ i = d := fun e => hd e.symm
      simp [List.getD_eq_getElem?_getD, List.getElem?_set, hd, hd2]
  · cases h

/-- The statement `completeness[i] += v` is defined for an index inside the vector. -/
theorem add_at_of_lt (c : List Nat) {i : Nat} (v : Nat) (hi : i < c.length) :
    ∃ c2, add_at c i v = some c2 := by
  unfold add_at
  simp [hi]

theorem exact_total_nil_left (free : List Nat → Option Nat) (d : Nat) (sizes : List Nat) :
    exact_total free d [] sizes = 0 := by
  simp [exact_total]

theorem exact_total_cons (free : List Nat → Option Nat) (d : Nat) (s : List Nat)
    (rest : List (List Nat)) (w : Nat) (ws : List Nat) :
    exact_total free d (s :: rest) (w :: ws)
      = (if free s = some d then w else 0) + exact_total free d rest ws := by
  unfold exact_total
  by_cases h : free s = some d
  · simp [List.filter_cons, h]
  · simp [List.filter_cons, h]

/-- What the loop over the sizes leaves in `completeness`: every entry has grown by
the exact total of its device, modulo the range of `size_t`. -/
theorem size_loop_some (free : List Nat → Option Nat) :
    ∀ (seqs : List (List Nat)) (sizes c c2 : List Nat),
      size_loop free seqs sizes c = some c2 →
      (∀ d, c.getD d 0 < SIZE_RANGE) →
      c2.length = c.length ∧ (∀ d, c2.getD d 0 < SIZE_RANGE) ∧
      (∀ s ∈ seqs, ∃ e, free s = some e ∧ e < c.length) ∧
      seqs.length ≤ sizes.length ∧
      ∀ d, c2.getD d 0 = (c.getD d 0 + exact_total free d seqs sizes) % SIZE_RANGE := by
  intro seqs
  induction seqs with
  | nil =>
    intro sizes c c2 h hc
    simp only [size_loop] at h
    injection h with h
    subst h
    refine ⟨rfl, hc, by simp, by simp, ?_⟩
    intro d
    rw [exact_total_nil_left, Nat.add_zero, Nat.mod_eq_of_lt (hc d)]
  | cons s rest ih =>
    intro sizes c c2 h hc
    cases sizes with
    | nil => simp [size_loop] at h
    | cons w ws =>
      simp only [size_loop] at h
      cases hf : free s with
      | none => simp [hf] at h
      | some e =>
        simp only [hf] at h
        cases ha : add_at c e w with
        | none => simp [ha] at h
        | some c1 =>
          simp only [ha] at h
          obtain ⟨he, hlen, hget⟩ := add_at_some ha
          have hc1 : ∀ d, c1.getD d 0 < SIZE_RANGE := by
            intro d
            rw [hget d]
            split
            · exact Nat.mod_lt _ (by unfold SIZE_RANGE; positivity)
            · exact hc d
          obtain ⟨h1, h2, h3, h4, h5⟩ := ih ws c1 c2 h hc1
          refine ⟨h1.trans hlen, h2, ?_, by simpa using h4, ?_⟩
          · intro t ht
            rcases List.mem_cons.mp ht with rfl | ht
            · exact ⟨e, hf, he⟩
            · obtain ⟨e2, h6, h7⟩ := h3 t ht
              exact ⟨e2, h6, hlen ▸ h7⟩
          · intro d
            rw [h5 d, hget d, exact_total_cons, hf]
            by_cases hd : d = e
            · subst hd
              simp only [if_true]
              rw [Nat.mod_add_mod, Nat.add_assoc]
            · have hd2 : ¬ (some e = some d) := fun h => hd (Option.some.inj h).symm
              simp only [hd, hd2, if_false, Nat.zero_add]

/-- The loop over the sizes runs to its end when every free endpoint is a device of
the plan and every sequence has its size. -/
theorem size_loop_defined (free : List Nat → Option Nat) :
    ∀ (seqs : List (List Nat)) (sizes c : List Nat),
      (∀ s ∈ seqs, ∃ e, free s = some e ∧ e < c.length) →
      seqs.length ≤ sizes.length →
      ∃ c2, size_loop free seqs sizes c = some c2 := by
  intro seqs
  induction seqs with
  | nil => intro sizes c _ _; exact ⟨c, by simp [size_loop]⟩
  | cons s rest ih =>
    intro sizes c hs hl
    cases sizes with
    | nil => simp at hl
    | cons w ws =>
      obtain ⟨e, hf, he⟩ := hs s (List.mem_cons_self _ _)
      obtain ⟨c1, ha⟩ := add_at_of_lt c w he
      obtain ⟨_, hlen, _⟩ := add_at_some ha
      have hs2 : ∀ t ∈ rest, ∃ e, free t = some e ∧ e < c1.length := by
        intro t ht
        obtain ⟨e2, h6, h7⟩ := hs t (List.mem_cons_of_mem _ ht)
        exact ⟨e2, h6, hlen ▸ h7⟩
      obtain ⟨c2, h2⟩ := ih ws c1 hs2 (by simpa using hl)
      exact ⟨c2, by simp [size_loop, hf, ha, h2]⟩

/-- The counting loop is the loop over the sizes with every size 1. -/
theorem count_loop_eq_size_loop (free : List Nat → Option Nat) :
    ∀ (seqs : List (List Nat)) (c : List Nat),
      count_loop free seqs c = size_loop free seqs (List.replicate seqs.length 1) c := by
  intro seqs
  induction seqs with
  | nil => intro c; simp [count_loop, size_loop]
  | cons s rest ih =>
    intro c
    simp only [count_loop, List.length_cons, List.replicate_succ, size_loop]
    cases free s with
    | none => rfl
    | some e =>
      simp only
      cases add_at c e 1 with
      | none => rfl
      | some c1 => simp only; exact ih c1

/-- With every size 1 the exact total of a device is the number of its sequences. -/
theorem exact_total_ones (free : List Nat → Option Nat) (d : Nat) :
    ∀ seqs : List (List Nat),
      exact_total free d seqs (List.replicate seqs.length 1) = endpoint_count free d seqs := by
  intro seqs
  induction seqs with
  | nil => simp [exact_total, endpoint_count]
  | cons s rest ih =>
    rw [List.length_cons, List.replicate_succ, exact_total_cons, ih]
    unfold endpoint_count
    rw [List.countP_cons]
    by_cases h : free s = some d
    · simp [h, Nat.add_comm]
    · simp [h]

theorem reject_ne_ok_true (te : Bool) (what : String) : reject te what ≠ Except.ok true := by
  cases te <;> simp [reject]

/-- The endpoint loop runs to its end exactly when every sequence has the anchor as
its fixed endpoint. -/
theorem endpoint_loop_none_iff (te : Bool) (fixed : List Nat → Option Nat) (a : Nat)
    (what : String) (seqs : List (List Nat)) :
    endpoint_loop te fixed a what seqs = none ↔ ∀ s ∈ seqs, fixed s = some a := by
  induction seqs with
  | nil => simp [endpoint_loop]
  | cons s rest ih =>
    simp only [endpoint_loop, List.mem_cons, forall_eq_or_imp]
    cases hf : fixed s with
    | none => simp
    | some e =>
      by_cases he : e = a
      · simp [he, ih]
      · simp [he]

/-- The endpoint loop rejects when every sequence has a fixed endpoint and one of them
is not the anchor. -/
theorem endpoint_loop_reject (te : Bool) (fixed : List Nat → Option Nat) (a : Nat)
    (what : String) (seqs : List (List Nat))
    (hdef : ∀ s ∈ seqs, ∃ e, fixed s = some e) (hbad : ∃ s ∈ seqs, fixed s ≠ some a) :
    endpoint_loop te fixed a what seqs = some (reject te what) := by
  induction seqs with
  | nil => simp at hbad
  | cons s rest ih =>
    obtain ⟨e, hf⟩ := hdef s (List.mem_cons_self _ _)
    simp only [endpoint_loop, hf]
    by_cases he : e = a
    · subst he
      simp only [ne_eq, not_true_eq_false, if_false]
      apply ih (fun t ht => hdef t (List.mem_cons_of_mem _ ht))
      obtain ⟨t, ht, hne⟩ := hbad
      rcases List.mem_cons.mp ht with rfl | ht
      · exact absurd hf hne
      · exact ⟨t, ht, hne⟩
    · simp [he]

theorem lengths_ok_iff (T : Types) (num_steps : Nat) (seqs : List (List Nat)) :
    lengths_ok T num_steps seqs = true ↔
      ∀ s ∈ seqs, s.length = num_steps_plus_one T num_steps := by
  simp [lengths_ok, List.all_eq_true]

theorem complete_ok_iff (n chunks : Nat) (c : List Nat) :
    complete_ok n chunks c = true ↔ ∀ d < n, c.getD d 0 = chunks := by
  simp [complete_ok, List.all_eq_true]

theorem getD_replicate_zero (n d : Nat) : (List.replicate n 0).getD d 0 = 0 := by
  by_cases h : d < n
  · simp [List.getD_eq_getElem?_getD, List.getElem?_replicate, h]
  · simp [List.getD_eq_getElem?_getD, List.getElem?_replicate, h]

theorem size_range_pos : 0 < SIZE_RANGE := by
  unfold SIZE_RANGE; positivity

/-- The completeness vector after the loop over the sizes, started from zeros. -/
theorem size_loop_zero (free : List Nat → Option Nat) (n : Nat) (seqs : List (List Nat))
    (sizes c : List Nat) (h : size_loop free seqs sizes (List.replicate n 0) = some c) :
    (∀ s ∈ seqs, ∃ e, free s = some e ∧ e < n) ∧
      ∀ d, c.getD d 0 = exact_total free d seqs sizes % SIZE_RANGE := by
  have h0 : ∀ d, (List.replicate n 0).getD d 0 < SIZE_RANGE := by
    intro d; rw [getD_replicate_zero]; exact size_range_pos
  obtain ⟨_, _, h3, _, h5⟩ := size_loop_some free seqs sizes _ c h h0
  refine ⟨by simpa using h3, ?_⟩
  intro d
  rw [h5 d, getD_replicate_zero, Nat.zero_add]

/-- The completeness vector after the counting loop, started from zeros. -/
theorem count_loop_zero (free : List Nat → Option Nat) (n : Nat) (seqs : List (List Nat))
    (c : List Nat) (h : count_loop free seqs (List.replicate n 0) = some c) :
    (∀ s ∈ seqs, ∃ e, free s = some e ∧ e < n) ∧
      ∀ d, c.getD d 0 = endpoint_count free d seqs % SIZE_RANGE := by
  rw [count_loop_eq_size_loop] at h
  obtain ⟨h1, h2⟩ := size_loop_zero free n seqs _ c h
  refine ⟨h1, ?_⟩
  intro d
  rw [h2 d, exact_total_ones]

theorem count_loop_defined (free : List Nat → Option Nat) (n : Nat) (seqs : List (List Nat))
    (hs : ∀ s ∈ seqs, ∃ e, free s = some e ∧ e < n) :
    ∃ c, count_loop free seqs (List.replicate n 0) = some c := by
  rw [count_loop_eq_size_loop]
  exact size_loop_defined free seqs _ _ (by simpa using hs) (by simp)

/-- What a verdict `true` of `verify_plan` guarantees. -/
theorem verify_plan_body_true (T : Types) (te : Bool) (fixed free : List Nat → Option Nat)
    (a : Nat) (what : String) (p : transfer_plan_t)
    (h : verify_plan_body T te fixed free a what p = Except.ok true) :
    1 ≤ p.num_steps ∧
    (∀ s ∈ p.transfer_sequences, s.length = num_steps_plus_one T p.num_steps) ∧
    (∀ s ∈ p.transfer_sequences, fixed s = some a) ∧
    (∀ s ∈ p.transfer_sequences, ∃ e, free s = some e ∧ e < p.num_gpus) ∧
    (p.num_chunks ≤ 1 →
      ∀ d < p.num_gpus,
        endpoint_count free d p.transfer_sequences % SIZE_RANGE = p.num_chunks) ∧
    (1 < p.num_chunks →
      p.transfer_sequences.length = p.transfer_sizes.length ∧
      ∀ d < p.num_gpus,
        exact_total free d p.transfer_sequences p.transfer_sizes % SIZE_RANGE
          = p.num_chunks) := by
  unfold verify_plan_body at h
  split at h
  · exact absurd h (reject_ne_ok_true _ _)
  rename_i h1
  split at h
  · exact absurd h (reject_ne_ok_true _ _)
  rename_i h2
  split at h
  · rename_i r hr
    -- the endpoint loop ended the call: its outcome is not `true`
    exfalso
    clear h1 h2
    revert hr
    generalize p.transfer_sequences = seqs
    induction seqs with
    | nil => simp [endpoint_loop]
    | cons s rest ih =>
      simp only [endpoint_loop]
      cases fixed s with
      | none => intro hr; simp at hr; subst hr; cases h
      | some e =>
        simp only
        split
        · intro hr; simp at hr; subst hr; exact absurd h (reject_ne_ok_true _ _)
        · exact ih
  rename_i h3
  have h2b : lengths_ok T p.num_steps p.transfer_sequences = true := by
    simpa using h2
  refine ⟨by omega, (lengths_ok_iff _ _ _).mp h2b, (endpoint_loop_none_iff _ _ _ _ _).mp h3, ?_⟩
  simp only at h
  split at h
  · rename_i hch
    split at h
    · cases h
    rename_i c hc
    obtain ⟨hs, hget⟩ := count_loop_zero free _ _ c hc
    split at h
    · rename_i hok
      refine ⟨hs, ?_, fun hgt => absurd hch (by omega)⟩
      intro _ d hd
      rw [← hget d]
      exact (complete_ok_iff _ _ _).mp hok d hd
    · exact absurd h (reject_ne_ok_true _ _)
  · rename_i hch
    split at h
    · exact absurd h (reject_ne_ok_true _ _)
    rename_i hlen
    split at h
    · cases h
    rename_i c hc
    obtain ⟨hs, hget⟩ := size_loop_zero free _ _ _ c hc
    split at h
    · rename_i hok
      refine ⟨hs, fun hle => absurd hle hch, fun _ => ⟨by simpa using hlen, ?_⟩⟩
      intro d hd
      rw [← hget d]
      exact (complete_ok_iff _ _ _).mp hok d hd
    · exact absurd h (reject_ne_ok_true _ _)

/-- The checks that make `verify_plan` return `true`. -/
theorem verify_plan_body_of (T : Types) (te : Bool) (fixed free : List Nat → Option Nat)
    (a : Nat) (what : String) (p : transfer_plan_t)
    (h1 : 1 ≤ p.num_steps)
    (h2 : ∀ s ∈ p.transfer_sequences, s.length = num_steps_plus_one T p.num_steps)
    (h3 : ∀ s ∈ p.transfer_sequences, fixed s = some a)
    (h4 : ∀ s ∈ p.transfer_sequences, ∃ e, free s = some e ∧ e < p.num_gpus)
    (h5 : p.num_chunks ≤ 1 →
      ∀ d < p.num_gpus,
        endpoint_count free d p.transfer_sequences % SIZE_RANGE = p.num_chunks)
    (h6 : 1 < p.num_chunks →
      p.transfer_sequences.length = p.transfer_sizes.length ∧
      ∀ d < p.num_gpus,
        exact_total free d p.transfer_sequences p.transfer_sizes % SIZE_RANGE
          = p.num_chunks) :
    verify_plan_body T te fixed free a what p = Except.ok true := by
  unfold verify_plan_body
  have h1b : ¬ p.num_steps < 1 := by omega
  have h2b := (lengths_ok_iff _ _ _).mpr h2
  have h3b := (endpoint_loop_none_iff te _ _ what _).mpr h3
  simp only [h1b, h2b, h3b, if_false, Bool.not_true, Bool.false_eq_true]
  by_cases hch : p.num_chunks ≤ 1
  · obtain ⟨c, hc⟩ := count_loop_defined free p.num_gpus _ h4
    have hget := (count_loop_zero free _ _ c hc).2
    have hok : complete_ok p.num_gpus p.num_chunks c = true := by
      rw [complete_ok_iff]
      intro d hd
      rw [hget d]
      exact h5 hch d hd
    simp [hch, hc, hok]
  · obtain ⟨hlen, htot⟩ := h6 (by omega)
    obtain ⟨c, hc⟩ := size_loop_defined free p.transfer_sequences p.transfer_sizes
      (List.replicate p.num_gpus 0) (by simpa using h4) (by omega)
    have hget := (size_loop_zero free _ _ _ c hc).2
    have hok : complete_ok p.num_gpus p.num_chunks c = true := by
      rw [complete_ok_iff]
      intro d hd
      rw [hget d]
      exact htot d hd
    simp [hch, hc, hok, hlen]

/-! ## Arithmetic of `num_steps` -/

theorem bits_le (t : UIntType) : 8 ≤ t.bits ∧ t.bits ≤ 64 := by
  cases t <;> simp [UIntType.bits]

theorem derive_num_steps_lt (T : Types) (size : Nat) :
    derive_num_steps T size < 2 ^ T.num_steps_t.bits := by
  unfold derive_num_steps
  exact Nat.mod_lt _ (by positivity)

/-- Within the range of the type of `num_steps` the derived value is `size - 1`. -/
theorem derive_num_steps_fit (T : Types) (size : Nat) (h1 : 1 ≤ size)
    (h2 : size < 2 ^ T.num_steps_t.bits) : derive_num_steps T size = size - 1 := by
  obtain ⟨g, s⟩ := T
  cases s <;> simp only [derive_num_steps, UIntType.bits, SIZE_RANGE] at h2 ⊢ <;> omega

/-- Below the range of the type of `num_steps`, `num_steps + 1` does not wrap. -/
theorem num_steps_plus_one_fit (T : Types) (k : Nat) (h : k + 1 < 2 ^ T.num_steps_t.bits) :
    num_steps_plus_one T k = k + 1 := by
  obtain ⟨g, s⟩ := T
  cases s <;> simp only [num_steps_plus_one, UIntType.bits] at h ⊢ <;> simp <;> omega

theorem derive_num_steps_two (T : Types) : derive_num_steps T 2 = 1 := by
  obtain ⟨g, s⟩ := T
  cases s <;> simp [derive_num_steps, UIntType.bits, SIZE_RANGE]

theorem num_steps_plus_one_one (T : Types) : num_steps_plus_one T 1 = 2 := by
  obtain ⟨g, s⟩ := T
  cases s <;> simp [num_steps_plus_one, UIntType.bits]

/-- An empty first sequence derives the largest value of the type of `num_steps`. -/
theorem derive_num_steps_zero (T : Types) :
    derive_num_steps T 0 = 2 ^ T.num_steps_t.bits - 1 := by
  obtain ⟨g, s⟩ := T
  cases s <;> simp [derive_num_steps, UIntType.bits, SIZE_RANGE]

theorem derive_num_steps_one (T : Types) : derive_num_steps T 1 = 0 := by
  obtain ⟨g, s⟩ := T
  cases s <;> simp [derive_num_steps, UIntType.bits, SIZE_RANGE]

/-! ## Shape of a construction -/

theorem range_map_cons (n : Nat) (hn : 2 ≤ n) (f : Nat → List Nat) :
    ∃ rest, (List.range n).map f = f 0 :: rest := by
  obtain ⟨m, rfl⟩ : ∃ m, n = m + 1 := ⟨n - 1, by omega⟩
  rw [List.range_succ_eq_map]
  exact ⟨_, rfl⟩

/-- The second half of the constructor pipeline on a plan with a first sequence: the
verdict of `verify_plan` on the staged plan becomes the flag `valid`. -/
theorem derive_and_verify_cons (T : Types) (verify : transfer_plan_t → Except Exn Bool)
    (p : transfer_plan_t) (n C : Nat) (S : List (List Nat)) (sizes first : List Nat)
    (rest : List (List Nat))
    (h1 : p.num_gpus = n) (h2 : p.transfer_sequences = S) (h3 : p.num_chunks = C)
    (h4 : p.transfer_sizes = sizes) (h5 : p.valid = true) (hS : S = first :: rest) :
    derive_and_verify T verify p =
      match verify (staged T n S C sizes first) with
      | Except.ok v => Except.ok { staged T n S C sizes first with valid := v }
      | Except.error e => Except.error e := by
  cases p with
  | mk ng ns nc ts sz sy va =>
    simp only at h1 h2 h3 h4 h5
    subst h1 h2 h3 h4 h5
    subst hS
    rfl

/-- A Gather constructor with `num_gpus ≥ 2`, as the verdict of `verify_plan` on the
staged plan (the supplied sequences, or the default plan when none is supplied). -/
theorem gather_create_chunked_eq (T : Types) (te : Bool) (a n : Nat)
    (seqs : List (List Nat)) (chunks : Nat) (sizes : List Nat) (hn : 2 ≤ n) :
    ∃ first rest,
      (if seqs.isEmpty then (List.range n).map (fun src => [src, a]) else seqs)
        = first :: rest ∧
      gather_plan_t.create_chunked T te a n seqs chunks sizes =
        match gather_plan_t.verify_plan T te a
            (staged T n (if seqs.isEmpty then (List.range n).map (fun src => [src, a]) else seqs)
              (if seqs.isEmpty then 1 else chunks) sizes first) with
        | Except.ok v =>
          Except.ok
            { staged T n (if seqs.isEmpty then (List.range n).map (fun src => [src, a]) else seqs)
                (if seqs.isEmpty then 1 else chunks) sizes first with
              valid := v, target := a }
        | Except.error e => Except.error e := by
  have hS : ∃ first rest,
      (if seqs.isEmpty then (List.range n).map (fun src => [src, a]) else seqs)
        = first :: rest := by
    cases seqs with
    | nil =>
      obtain ⟨rest, hr⟩ := range_map_cons n hn (fun src => [src, a])
      exact ⟨_, rest, by simpa using hr⟩
    | cons first rest => exact ⟨first, rest, by simp⟩
  obtain ⟨first, rest, hS⟩ := hS
  refine ⟨first, rest, hS, ?_⟩
  unfold gather_plan_t.create_chunked gather_plan_t.initialise
  rw [if_pos (show (transfer_plan_t.base_chunked n seqs chunks sizes).num_gpus ≥ 2 from hn)]
  have key := derive_and_verify_cons T (gather_plan_t.verify_plan T te a)
    (if (transfer_plan_t.base_chunked n seqs chunks sizes).transfer_sequences.isEmpty then
      gather_plan_t.load_default_plan a (transfer_plan_t.base_chunked n seqs chunks sizes)
      else transfer_plan_t.base_chunked n seqs chunks sizes)
    n (if seqs.isEmpty then 1 else chunks)
    (if seqs.isEmpty then (List.range n).map (fun src => [src, a]) else seqs) sizes first rest
    (by cases seqs <;> rfl) (by cases seqs <;> rfl) (by cases seqs <;> rfl)
    (by cases seqs <;> rfl) (by cases seqs <;> rfl) hS
  rw [key]
  generalize gather_plan_t.verify_plan T te a _ = r
  cases r <;> rfl

/-- The two-argument Gather constructor is the four-argument one with one chunk and no
sizes. -/
theorem gather_create_eq (T : Types) (te : Bool) (a n : Nat)
    (seqs : List (List Nat)) :
    gather_plan_t.create T te a n seqs = gather_plan_t.create_chunked T te a n seqs 1 [] :=
  rfl

/-- The members of a Gather plan that a constructor returns, for `num_gpus ≥ 2`. -/
theorem gather_create_chunked_ok (T : Types) (te : Bool) (a n : Nat)
    (seqs : List (List Nat)) (chunks : Nat) (sizes : List Nat) (g : gather_plan_t)
    (hn : 2 ≤ n)
    (h : gather_plan_t.create_chunked T te a n seqs chunks sizes = Except.ok g) :
    ∃ first rest,
      (if seqs.isEmpty then (List.range n).map (fun src => [src, a]) else seqs)
        = first :: rest ∧
      g.num_gpus = n ∧ g.num_steps = derive_num_steps T first.length ∧
      g.num_chunks = (if seqs.isEmpty then 1 else chunks) ∧
      g.transfer_sequences
        = (if seqs.isEmpty then (List.range n).map (fun src => [src, a]) else seqs) ∧
      g.transfer_sizes = sizes ∧ g.target = a ∧
      gather_plan_t.verify_plan T te a
        (staged T n (if seqs.isEmpty then (List.range n).map (fun src => [src, a]) else seqs)
          (if seqs.isEmpty then 1 else chunks) sizes first) = Except.ok g.valid := by
  obtain ⟨first, rest, hS, heq⟩ := gather_create_chunked_eq T te a n seqs chunks sizes hn
  rw [heq] at h
  split at h
  · rename_i v hv
    injection h with h
    subst h
    exact ⟨first, rest, hS, rfl, rfl, rfl, rfl, rfl, rfl, hv⟩
  · cases h

/-- A verdict `reject` of `verify_plan` makes the construction rejected. -/
theorem gather_create_chunked_rejected (T : Types) (te : Bool) (a n : Nat)
    (seqs : List (List Nat)) (chunks : Nat) (sizes : List Nat) (hn : 2 ≤ n)
    (first : List Nat) (rest : List (List Nat))
    (hS : (if seqs.isEmpty then (List.range n).map (fun src => [src, a]) else seqs)
      = first :: rest)
    (what : String)
    (hv : gather_plan_t.verify_plan T te a
        (staged T n (if seqs.isEmpty then (List.range n).map (fun src => [src, a]) else seqs)
          (if seqs.isEmpty then 1 else chunks) sizes first) = reject te what) :
    rejected (fun g : gather_plan_t => g.valid) te what
      (gather_plan_t.create_chunked T te a n seqs chunks sizes) := by
  obtain ⟨f, r, hS2, heq⟩ := gather_create_chunked_eq T te a n seqs chunks sizes hn
  have hf : f = first := by
    rw [hS] at hS2
    injection hS2 with h1 _
    exact h1.symm
  subst hf
  rw [heq, hv]
  constructor
  · intro hte
    subst hte
    rfl
  · intro hte
    subst hte
    exact ⟨_, rfl, rfl⟩

/-- A verdict `true` of `verify_plan` makes the construction return a valid plan. -/
theorem gather_create_chunked_accepted (T : Types) (te : Bool) (a n : Nat)
    (seqs : List (List Nat)) (chunks : Nat) (sizes : List Nat) (hn : 2 ≤ n)
    (first : List Nat) (rest : List (List Nat))
    (hS : (if seqs.isEmpty then (List.range n).map (fun src => [src, a]) else seqs)
      = first :: rest)
    (hv : gather_plan_t.verify_plan T te a
        (staged T n (if seqs.isEmpty then (List.range n).map (fun src => [src, a]) else seqs)
          (if seqs.isEmpty then 1 else chunks) sizes first) = Except.ok true) :
    ∃ g, gather_plan_t.create_chunked T te a n seqs chunks sizes = Except.ok g ∧
      g.valid = true ∧ g.num_gpus = n ∧ g.num_steps = derive_num_steps T first.length ∧
      g.num_chunks = (if seqs.isEmpty then 1 else chunks) ∧
      g.transfer_sequences
        = (if seqs.isEmpty then (List.range n).map (fun src => [src, a]) else seqs) ∧
      g.transfer_sizes = sizes ∧ g.target = a := by
  obtain ⟨f, r, hS2, heq⟩ := gather_create_chunked_eq T te a n seqs chunks sizes hn
  have hf : f = first := by
    rw [hS] at hS2
    injection hS2 with h1 _
    exact h1.symm
  subst hf
  rw [heq, hv]
  exact ⟨_, rfl, rfl, rfl, rfl, rfl, rfl, rfl, rfl⟩

/-- A Scatter constructor with `num_gpus ≥ 2`, as the verdict of `verify_plan` on the
staged plan (the supplied sequences, or the default plan when none is supplied). -/
theorem scatter_create_chunked_eq (T : Types) (te : Bool) (a n : Nat)
    (seqs : List (List Nat)) (chunks : Nat) (sizes : List Nat) (hn : 2 ≤ n) :
    ∃ first rest,
      (if seqs.isEmpty then (List.range n).map (fun trg => [a, trg]) else seqs)
        = first :: rest ∧
      scatter_plan_t.create_chunked T te a n seqs chunks sizes =
        match scatter_plan_t.verify_plan T te a
            (staged T n (if seqs.isEmpty then (List.range n).map (fun trg => [a, trg]) else seqs)
              (if seqs.isEmpty then 1 else chunks) sizes first) with
        | Except.ok v =>
          Except.ok
            { staged T n (if seqs.isEmpty then (List.range n).map (fun trg => [a, trg]) else seqs)
                (if seqs.isEmpty then 1 else chunks) sizes first with
              valid := v, source := a }
        | Except.error e => Except.error e := by
  have hS : ∃ first rest,
      (if seqs.isEmpty then (List.range n).map (fun trg => [a, trg]) else seqs)
        = first :: rest := by
    cases seqs with
    | nil =>
      obtain ⟨rest, hr⟩ := range_map_cons n hn (fun trg => [a, trg])
      exact ⟨_, rest, by simpa using hr⟩
    | cons first rest => exact ⟨first, rest, by simp⟩
  obtain ⟨first, rest, hS⟩ := hS
  refine ⟨first, rest, hS, ?_⟩
  unfold scatter_plan_t.create_chunked scatter_plan_t.initialise
  rw [if_pos (show (transfer_plan_t.base_chunked n seqs chunks sizes).num_gpus ≥ 2 from hn)]
  have key := derive_and_verify_cons T (scatter_plan_t.verify_plan T te a)
    (if (transfer_plan_t.base_chunked n seqs chunks sizes).transfer_sequences.isEmpty then
      scatter_plan_t.load_default_plan a (transfer_plan_t.base_chunked n seqs chunks sizes)
      else transfer_plan_t.base_chunked n seqs chunks sizes)
    n (if seqs.isEmpty then 1 else chunks)
    (if seqs.isEmpty then (List.range n).map (fun trg => [a, trg]) else seqs) sizes first rest
    (by cases seqs <;> rfl) (by cases seqs <;> rfl) (by cases seqs <;> rfl)
    (by cases seqs <;> rfl) (by cases seqs <;> rfl) hS
  rw [key]
  generalize scatter_plan_t.verify_plan T te a _ = r
  cases r <;> rfl

/-- The two-argument Scatter constructor is the four-argument one with one chunk and no
sizes. -/
theorem scatter_create_eq (T : Types) (te : Bool) (a n : Nat)
    (seqs : List (List Nat)) :
    scatter_plan_t.create T te a n seqs = scatter_plan_t.create_chunked T te a n seqs 1 [] :=
  rfl

/-- The members of a Scatter plan that a constructor returns, for `num_gpus ≥ 2`. -/
theorem scatter_create_chunked_ok (T : Types) (te : Bool) (a n : Nat)
    (seqs : List (List Nat)) (chunks : Nat) (sizes : List Nat) (g : scatter_plan_t)
    (hn : 2 ≤ n)
    (h : scatter_plan_t.create_chunked T te a n seqs chunks sizes = Except.ok g) :
    ∃ first rest,
      (if seqs.isEmpty then (List.range n).map (fun trg => [a, trg]) else seqs)
        = first :: rest ∧
      g.num_gpus = n ∧ g.num_steps = derive_num_steps T first.length ∧
      g.num_chunks = (if seqs.isEmpty then 1 else chunks) ∧
      g.transfer_sequences
        = (if seqs.isEmpty then (List.range n).map (fun trg => [a, trg]) else seqs) ∧
      g.transfer_sizes = sizes ∧ g.source = a ∧
      scatter_plan_t.verify_plan T te a
        (staged T n (if seqs.isEmpty then (List.range n).map (fun trg => [a, trg]) else seqs)
          (if seqs.isEmpty then 1 else chunks) sizes first) = Except.ok g.valid := by
  obtain ⟨first, rest, hS, heq⟩ := scatter_create_chunked_eq T te a n seqs chunks sizes hn
  rw [heq] at h
  split at h
  · rename_i v hv
    injection h with h
    subst h
    exact ⟨first, rest, hS, rfl, rfl, rfl, rfl, rfl, rfl, hv⟩
  · cases h

/-- A verdict `reject` of `verify_plan` makes the construction rejected. -/
theorem scatter_create_chunked_rejected (T : Types) (te : Bool) (a n : Nat)
    (seqs : List (List Nat)) (chunks : Nat) (sizes : List Nat) (hn : 2 ≤ n)
    (first : List Nat) (rest : List (List Nat))
    (hS : (if seqs.isEmpty then (List.range n).map (fun trg => [a, trg]) else seqs)
      = first :: rest)
    (what : String)
    (hv : scatter_plan_t.verify_plan T te a
        (staged T n (if seqs.isEmpty then (List.range n).map (fun trg => [a, trg]) else seqs)
          (if seqs.isEmpty then 1 else chunks) sizes first) = reject te what) :
    rejected (fun g : scatter_plan_t => g.valid) te what
      (scatter_plan_t.create_chunked T te a n seqs chunks sizes) := by
  obtain ⟨f, r, hS2, heq⟩ := scatter_create_chunked_eq T te a n seqs chunks sizes hn
  have hf : f = first := by
    rw [hS] at hS2
    injection hS2 with h1 _
    exact h1.symm
  subst hf
  rw [heq, hv]
  constructor
  · intro hte
    subst hte
    rfl
  · intro hte
    subst hte
    exact ⟨_, rfl, rfl⟩

/-- A verdict `true` of `verify_plan` makes the construction return a valid plan. -/
theorem scatter_create_chunked_accepted (T : Types) (te : Bool) (a n : Nat)
    (seqs : List (List Nat)) (chunks : Nat) (sizes : List Nat) (hn : 2 ≤ n)
    (first : List Nat) (rest : List (List Nat))
    (hS : (if seqs.isEmpty then (List.range n).map (fun trg => [a, trg]) else seqs)
      = first :: rest)
    (hv : scatter_plan_t.verify_plan T te a
        (staged T n (if seqs.isEmpty then (List.range n).map (fun trg => [a, trg]) else seqs)
          (if seqs.isEmpty then 1 else chunks) sizes first) = Except.ok true) :
    ∃ g, scatter_plan_t.create_chunked T te a n seqs chunks sizes = Except.ok g ∧
      g.valid = true ∧ g.num_gpus = n ∧ g.num_steps = derive_num_steps T first.length ∧
      g.num_chunks = (if seqs.isEmpty then 1 else chunks) ∧
      g.transfer_sequences
        = (if seqs.isEmpty then (List.range n).map (fun trg => [a, trg]) else seqs) ∧
      g.transfer_sizes = sizes ∧ g.source = a := by
  obtain ⟨f, r, hS2, heq⟩ := scatter_create_chunked_eq T te a n seqs chunks sizes hn
  have hf : f = first := by
    rw [hS] at hS2
    injection hS2 with h1 _
    exact h1.symm
  subst hf
  rw [heq, hv]
  exact ⟨_, rfl, rfl, rfl, rfl, rfl, rfl, rfl, rfl⟩

/-! ## The default plan -/

theorem endpoint_count_range (free : List Nat → Option Nat) (f : Nat → List Nat)
    (hfree : ∀ i, free (f i) = some i) (d : Nat) :
    ∀ n, endpoint_count free d ((List.range n).map f) = if d < n then 1 else 0 := by
  intro n
  induction n with
  | zero => simp [endpoint_count]
  | succ m ih =>
    unfold endpoint_count at ih ⊢
    rw [List.range_succ, List.map_append, List.countP_append, ih]
    simp only [List.map_cons, List.map_nil, List.countP_cons, List.countP_nil, hfree]
    by_cases h1 : d < m
    · have h2 : ¬ m = d := by omega
      have h3 : d < m + 1 := by omega
      simp [h1, h2, h3]
    · by_cases h2 : m = d
      · subst h2
        simp
      · have h3 : ¬ d < m + 1 := by omega
        simp [h1, h2, h3]

/-- The default plan passes `verify_plan`. -/
theorem verify_default (T : Types) (te : Bool) (fixed free : List Nat → Option Nat)
    (a : Nat) (what : String) (n : Nat) (sizes : List Nat) (f : Nat → List Nat)
    (hlen : ∀ i, (f i).length = 2) (hfixed : ∀ i, fixed (f i) = some a)
    (hfree : ∀ i, free (f i) = some i) :
    verify_plan_body T te fixed free a what
      (staged T n ((List.range n).map f) 1 sizes (f 0)) = Except.ok true := by
  have hsteps : (staged T n ((List.range n).map f) 1 sizes (f 0)).num_steps = 1 := by
    simp only [staged, hlen, derive_num_steps_two]
  apply verify_plan_body_of
  · rw [hsteps]
  · intro s hs
    rw [hsteps, num_steps_plus_one_one]
    simp only [staged, List.mem_map] at hs
    obtain ⟨i, _, rfl⟩ := hs
    exact hlen i
  · intro s hs
    simp only [staged, List.mem_map] at hs
    obtain ⟨i, _, rfl⟩ := hs
    exact hfixed i
  · intro s hs
    simp only [staged, List.mem_map, List.mem_range] at hs
    obtain ⟨i, hi, rfl⟩ := hs
    exact ⟨i, hfree i, hi⟩
  · intro _ d hd
    simp only [staged] at hd ⊢
    rw [endpoint_count_range free f hfree d n, if_pos hd]
    simp [SIZE_RANGE]
  · intro h
    simp only [staged] at h
    omega

theorem gather_default_created (T : Types) (te : Bool) (a n chunks : Nat)
    (sizes : List Nat) (hn : 2 ≤ n) :
    ∃ g, gather_plan_t.create_chunked T te a n [] chunks sizes = Except.ok g ∧
      g.valid = true ∧ g.num_steps = 1 ∧ g.num_chunks = 1 ∧
      g.transfer_sequences.length = n := by
  obtain ⟨rest, hr⟩ := range_map_cons n hn (fun src => [src, a])
  have hS : (if ([] : List (List Nat)).isEmpty then (List.range n).map (fun src => [src, a])
      else []) = [0, a] :: rest := by simpa using hr
  have hv := verify_default T te back front a "all sequences must have same target." n sizes
    (fun src => [src, a]) (fun _ => rfl) (fun _ => rfl) (fun _ => rfl)
  obtain ⟨g, h1, h2, _, h4, h5, h6, _, _⟩ :=
    gather_create_chunked_accepted T te a n [] chunks sizes hn [0, a] rest hS hv
  refine ⟨g, h1, h2, ?_, ?_, ?_⟩
  · rw [h4]
    exact derive_num_steps_two T
  · rw [h5]
    rfl
  · rw [h6]
    simp

theorem scatter_default_created (T : Types) (te : Bool) (a n chunks : Nat)
    (sizes : List Nat) (hn : 2 ≤ n) :
    ∃ g, scatter_plan_t.create_chunked T te a n [] chunks sizes = Except.ok g ∧
      g.valid = true ∧ g.num_steps = 1 ∧ g.num_chunks = 1 ∧
      g.transfer_sequences.length = n := by
  obtain ⟨rest, hr⟩ := range_map_cons n hn (fun trg => [a, trg])
  have hS : (if ([] : List (List Nat)).isEmpty then (List.range n).map (fun trg => [a, trg])
      else []) = [a, 0] :: rest := by simpa using hr
  have hv := verify_default T te front back a "all sequences must have same source." n sizes
    (fun trg => [a, trg]) (fun _ => rfl) (fun _ => rfl) (fun _ => rfl)
  obtain ⟨g, h1, h2, _, h4, h5, h6, _, _⟩ :=
    scatter_create_chunked_accepted T te a n [] chunks sizes hn [a, 0] rest hS hv
  refine ⟨g, h1, h2, ?_, ?_, ?_⟩
  · rw [h4]
    exact derive_num_steps_two T
  · rw [h5]
    rfl
  · rw [h6]
    simp

/-- C1 (default-plan completeness). For every `num_gpus ≥ 2` and every anchor device,
constructing a Gather plan (anchor = target) or a Scatter plan (anchor = source)
without explicit sequences, through either constructor and under either error policy,
returns a plan with `valid == true`, `num_steps == 1`, `num_chunks == 1` and exactly
`num_gpus` transfer sequences. -/
theorem default_plan_complete (T : Types) (throw_exceptions : Bool)
    (anchor num_gpus num_chunks : Nat) (transfer_sizes : List Nat) (h : 2 ≤ num_gpus) :
    (∃ g, gather_plan_t.create T throw_exceptions anchor num_gpus [] = Except.ok g ∧
      g.valid = true ∧ g.num_steps = 1 ∧ g.num_chunks = 1 ∧
      g.transfer_sequences.length = num_gpus) ∧
    (∃ g, gather_plan_t.create_chunked T throw_exceptions anchor num_gpus []
        num_chunks transfer_sizes = Except.ok g ∧
      g.valid = true ∧ g.num_steps = 1 ∧ g.num_chunks = 1 ∧
      g.transfer_sequences.length = num_gpus) ∧
    (∃ s, scatter_plan_t.create T throw_exceptions anchor num_gpus [] = Except.ok s ∧
      s.valid = true ∧ s.num_steps = 1 ∧ s.num_chunks = 1 ∧
      s.transfer_sequences.length = num_gpus) ∧
    (∃ s, scatter_plan_t.create_chunked T throw_exceptions anchor num_gpus []
        num_chunks transfer_sizes = Except.ok s ∧
      s.valid = true ∧ s.num_steps = 1 ∧ s.num_chunks = 1 ∧
      s.transfer_sequences.length = num_gpus) :=
  ⟨gather_default_created T throw_exceptions anchor num_gpus 1 [] h,
   gather_default_created T throw_exceptions anchor num_gpus num_chunks transfer_sizes h,
   scatter_default_created T throw_exceptions anchor num_gpus 1 [] h,
   scatter_default_created T throw_exceptions anchor num_gpus num_chunks transfer_sizes h⟩

/-- Witness of C1: four devices, target and source 3. -/
theorem default_plan_complete_witness :
    (∃ g, gather_plan_t.create ⟨UIntType.uint16_t, UIntType.uint16_t⟩ true 3 4 []
        = Except.ok g ∧
      g.valid = true ∧ g.num_steps = 1 ∧ g.num_chunks = 1 ∧
      g.transfer_sequences.length = 4) ∧
    (∃ s, scatter_plan_t.create ⟨UIntType.uint16_t, UIntType.uint16_t⟩ true 3 4 []
        = Except.ok s ∧
      s.valid = true ∧ s.num_steps = 1 ∧ s.num_chunks = 1 ∧
      s.transfer_sequences.length = 4) :=
  have h := default_plan_complete ⟨UIntType.uint16_t, UIntType.uint16_t⟩ true 3 4 1 []
    (by decide)
  ⟨h.1, h.2.2.1⟩

/-! ## Valid plans -/

/-- What holds of a Gather plan that a constructor returns with `valid == true`, for
`num_gpus ≥ 2`: the checks of `verify_plan`, read on the members of the plan. -/
theorem gather_valid_facts (T : Types) (te : Bool) (a n : Nat)
    (seqs : List (List Nat)) (chunks : Nat) (sizes : List Nat) (g : gather_plan_t)
    (hn : 2 ≤ n)
    (h : gather_plan_t.create_chunked T te a n seqs chunks sizes = Except.ok g)
    (hv : g.valid = true) :
    g.num_gpus = n ∧ g.target = a ∧ g.transfer_sizes = sizes ∧
    g.transfer_sequences
      = (if seqs.isEmpty then (List.range n).map (fun src => [src, a]) else seqs) ∧
    g.num_chunks = (if seqs.isEmpty then 1 else chunks) ∧
    1 ≤ g.num_steps ∧ g.num_steps < 2 ^ T.num_steps_t.bits ∧
    (∀ s ∈ g.transfer_sequences, s.length = num_steps_plus_one T g.num_steps) ∧
    (∀ s ∈ g.transfer_sequences, back s = some a) ∧
    (∀ s ∈ g.transfer_sequences, ∃ e, front s = some e ∧ e < n) ∧
    (g.num_chunks ≤ 1 →
      ∀ d < n, endpoint_count front d g.transfer_sequences % SIZE_RANGE = g.num_chunks) ∧
    (1 < g.num_chunks →
      g.transfer_sequences.length = g.transfer_sizes.length ∧
      ∀ d < n,
        exact_total front d g.transfer_sequences g.transfer_sizes % SIZE_RANGE
          = g.num_chunks) := by
  obtain ⟨first, rest, _, h1, h2, h3, h4, h5, h6, hver⟩ :=
    gather_create_chunked_ok T te a n seqs chunks sizes g hn h
  rw [hv] at hver
  have hb := verify_plan_body_true T te back front a _ _ hver
  simp only [staged] at hb
  rw [← h2, ← h3, ← h4, ← h5] at hb
  obtain ⟨b1, b2, b3, b4, b5, b6⟩ := hb
  refine ⟨h1, h6, h5, h4.symm ▸ rfl, h3.symm ▸ rfl, b1, ?_, b2, b3, b4, b5, b6⟩
  rw [h2]
  exact derive_num_steps_lt T _

/-- What holds of a Scatter plan that a constructor returns with `valid == true`, for
`num_gpus ≥ 2`: the checks of `verify_plan`, read on the members of the plan. -/
theorem scatter_valid_facts (T : Types) (te : Bool) (a n : Nat)
    (seqs : List (List Nat)) (chunks : Nat) (sizes : List Nat) (g : scatter_plan_t)
    (hn : 2 ≤ n)
    (h : scatter_plan_t.create_chunked T te a n seqs chunks sizes = Except.ok g)
    (hv : g.valid = true) :
    g.num_gpus = n ∧ g.source = a ∧ g.transfer_sizes = sizes ∧
    g.transfer_sequences
      = (if seqs.isEmpty then (List.range n).map (fun trg => [a, trg]) else seqs) ∧
    g.num_chunks = (if seqs.isEmpty then 1 else chunks) ∧
    1 ≤ g.num_steps ∧ g.num_steps < 2 ^ T.num_steps_t.bits ∧
    (∀ s ∈ g.transfer_sequences, s.length = num_steps_plus_one T g.num_steps) ∧
    (∀ s ∈ g.transfer_sequences, front s = some a) ∧
    (∀ s ∈ g.transfer_sequences, ∃ e, back s = some e ∧ e < n) ∧
    (g.num_chunks ≤ 1 →
      ∀ d < n, endpoint_count back d g.transfer_sequences % SIZE_RANGE = g.num_chunks) ∧
    (1 < g.num_chunks →
      g.transfer_sequences.length = g.transfer_sizes.length ∧
      ∀ d < n,
        exact_total back d g.transfer_sequences g.transfer_sizes % SIZE_RANGE
          = g.num_chunks) := by
  obtain ⟨first, rest, _, h1, h2, h3, h4, h5, h6, hver⟩ :=
    scatter_create_chunked_ok T te a n seqs chunks sizes g hn h
  rw [hv] at hver
  have hb := verify_plan_body_true T te front back a _ _ hver
  simp only [staged] at hb
  rw [← h2, ← h3, ← h4, ← h5] at hb
  obtain ⟨b1, b2, b3, b4, b5, b6⟩ := hb
  refine ⟨h1, h6, h5, h4.symm ▸ rfl, h3.symm ▸ rfl, b1, ?_, b2, b3, b4, b5, b6⟩
  rw [h2]
  exact derive_num_steps_lt T _

/-! ## Rejections of `verify_plan` -/

theorem front_defined (s : List Nat) (h : 1 ≤ s.length) : ∃ e, front s = some e := by
  cases s with
  | nil => simp at h
  | cons x xs => exact ⟨x, rfl⟩

theorem back_defined (s : List Nat) (h : 1 ≤ s.length) : ∃ e, back s = some e := by
  cases s with
  | nil => simp at h
  | cons x xs =>
    cases hb : back (x :: xs) with
    | none => simp [back] at hb
    | some e => exact ⟨e, rfl⟩

/-- The first check: `num_steps < 1` rejects as TooShortPlan. -/
theorem verify_short_reject (T : Types) (te : Bool) (fixed free : List Nat → Option Nat)
    (a : Nat) (what : String) (p : transfer_plan_t) (h1 : p.num_steps < 1) :
    verify_plan_body T te fixed free a what p
      = reject te "planned sequence must be at least of length 2." := by
  unfold verify_plan_body
  rw [if_pos h1]

/-- The third check: a fixed endpoint other than the anchor rejects with the endpoint
message. -/
theorem verify_endpoint_reject (T : Types) (te : Bool) (fixed free : List Nat → Option Nat)
    (a : Nat) (what : String) (p : transfer_plan_t) (h1 : 1 ≤ p.num_steps)
    (h2 : ∀ s ∈ p.transfer_sequences, s.length = num_steps_plus_one T p.num_steps)
    (hdef : ∀ s ∈ p.transfer_sequences, ∃ e, fixed s = some e)
    (hbad : ∃ s ∈ p.transfer_sequences, fixed s ≠ some a) :
    verify_plan_body T te fixed free a what p = reject te what := by
  unfold verify_plan_body
  have h1b : ¬ p.num_steps < 1 := by omega
  have h2b := (lengths_ok_iff _ _ _).mpr h2
  have h3 := endpoint_loop_reject te fixed a what _ hdef hbad
  simp only [h1b, h2b, h3, if_false, Bool.not_true, Bool.false_eq_true]

/-- The last check, one chunk: a device that is not the free endpoint of exactly
`num_chunks` sequences rejects as IncompletePlan. -/
theorem verify_incomplete_reject (T : Types) (te : Bool)
    (fixed free : List Nat → Option Nat) (a : Nat) (what : String) (p : transfer_plan_t)
    (h1 : 1 ≤ p.num_steps)
    (h2 : ∀ s ∈ p.transfer_sequences, s.length = num_steps_plus_one T p.num_steps)
    (h3 : ∀ s ∈ p.transfer_sequences, fixed s = some a)
    (h4 : ∀ s ∈ p.transfer_sequences, ∃ e, free s = some e ∧ e < p.num_gpus)
    (hch : p.num_chunks ≤ 1)
    (hbad : ∃ d < p.num_gpus,
      endpoint_count free d p.transfer_sequences % SIZE_RANGE ≠ p.num_chunks) :
    verify_plan_body T te fixed free a what p = reject te "transfer plan is incomplete." := by
  unfold verify_plan_body
  have h1b : ¬ p.num_steps < 1 := by omega
  have h2b := (lengths_ok_iff _ _ _).mpr h2
  have h3b := (endpoint_loop_none_iff te _ _ what _).mpr h3
  obtain ⟨c, hc⟩ := count_loop_defined free p.num_gpus _ h4
  have hget := (count_loop_zero free _ _ c hc).2
  have hok : complete_ok p.num_gpus p.num_chunks c = false := by
    cases hk : complete_ok p.num_gpus p.num_chunks c with
    | false => rfl
    | true =>
      obtain ⟨d, hd, hne⟩ := hbad
      have := (complete_ok_iff _ _ _).mp hk d hd
      rw [hget d] at this
      exact absurd this hne
  simp [h1b, h2b, h3b, hch, hc, hok]

theorem endpoint_count_le (free : List Nat → Option Nat) (d : Nat)
    (seqs : List (List Nat)) : endpoint_count free d seqs ≤ seqs.length :=
  List.countP_le_length _

theorem count_eq_one_of_mod (c len : Nat) (h1 : c ≤ len) (h2 : len < SIZE_RANGE)
    (h3 : c % SIZE_RANGE = 1) : c = 1 := by
  rw [Nat.mod_eq_of_lt (by omega)] at h3
  exact h3

/-- C3 as amended (completeness, one chunk). For `num_gpus ≥ 2` and under either error
policy: in every Gather or Scatter plan that a constructor returns with
`valid == true` and `num_chunks == 1` (sizes, if any were supplied, are not read), and
that holds fewer than 2^64 sequences (what `size()` of a vector can report), each device
`d` in `[0, num_gpus)` is the free endpoint (first element for Gather, last element for
Scatter) of exactly one transfer sequence. -/
theorem single_chunk_completeness (T : Types) (throw_exceptions : Bool)
    (anchor num_gpus : Nat) (transfer_sequences : List (List Nat)) (num_chunks : Nat)
    (transfer_sizes : List Nat) (h : 2 ≤ num_gpus) :
    (∀ g, gather_plan_t.create T throw_exceptions anchor num_gpus transfer_sequences
        = Except.ok g → g.valid = true → g.transfer_sequences.length < SIZE_RANGE →
      g.num_chunks = 1 ∧
      ∀ d < num_gpus, endpoint_count front d g.transfer_sequences = 1) ∧
    (∀ g, gather_plan_t.create_chunked T throw_exceptions anchor num_gpus transfer_sequences
        num_chunks transfer_sizes = Except.ok g → g.valid = true → g.num_chunks = 1 →
      g.transfer_sequences.length < SIZE_RANGE →
      ∀ d < num_gpus, endpoint_count front d g.transfer_sequences = 1) ∧
    (∀ p, scatter_plan_t.create T throw_exceptions anchor num_gpus transfer_sequences
        = Except.ok p → p.valid = true → p.transfer_sequences.length < SIZE_RANGE →
      p.num_chunks = 1 ∧
      ∀ d < num_gpus, endpoint_count back d p.transfer_sequences = 1) ∧
    (∀ p, scatter_plan_t.create_chunked T throw_exceptions anchor num_gpus transfer_sequences
        num_chunks transfer_sizes = Except.ok p → p.valid = true → p.num_chunks = 1 →
      p.transfer_sequences.length < SIZE_RANGE →
      ∀ d < num_gpus, endpoint_count back d p.transfer_sequences = 1) := by
  refine ⟨?_, ?_, ?_, ?_⟩
  · intro g hg hv hlen
    have f := gather_valid_facts T throw_exceptions anchor num_gpus transfer_sequences 1 []
      g h hg hv
    have hc : g.num_chunks = 1 := by rw [f.2.2.2.2.1]; split <;> rfl
    refine ⟨hc, fun d hd => ?_⟩
    have h5 := f.2.2.2.2.2.2.2.2.2.2.1 (by omega) d hd
    rw [hc] at h5
    exact count_eq_one_of_mod _ _ (endpoint_count_le _ _ _) hlen h5
  · intro g hg hv hc hlen d hd
    have f := gather_valid_facts T throw_exceptions anchor num_gpus transfer_sequences
      num_chunks transfer_sizes g h hg hv
    have h5 := f.2.2.2.2.2.2.2.2.2.2.1 (by omega) d hd
    rw [hc] at h5
    exact count_eq_one_of_mod _ _ (endpoint_count_le _ _ _) hlen h5
  · intro g hg hv hlen
    have f := scatter_valid_facts T throw_exceptions anchor num_gpus transfer_sequences 1 []
      g h hg hv
    have hc : g.num_chunks = 1 := by rw [f.2.2.2.2.1]; split <;> rfl
    refine ⟨hc, fun d hd => ?_⟩
    have h5 := f.2.2.2.2.2.2.2.2.2.2.1 (by omega) d hd
    rw [hc] at h5
    exact count_eq_one_of_mod _ _ (endpoint_count_le _ _ _) hlen h5
  · intro g hg hv hc hlen d hd
    have f := scatter_valid_facts T throw_exceptions anchor num_gpus transfer_sequences
      num_chunks transfer_sizes g h hg hv
    have h5 := f.2.2.2.2.2.2.2.2.2.2.1 (by omega) d hd
    rw [hc] at h5
    exact count_eq_one_of_mod _ _ (endpoint_count_le _ _ _) hlen h5

/-- Witness of C3 as amended: the Scatter plan of three devices with source 0 and the
sequences `[[0,2],[0,0],[0,1]]`. -/
theorem single_chunk_completeness_witness :
    ∃ p, scatter_plan_t.create ⟨UIntType.uint16_t, UIntType.uint16_t⟩ false 0 3
        [[0, 2], [0, 0], [0, 1]] = Except.ok p ∧ p.valid = true ∧
      p.transfer_sequences.length < SIZE_RANGE ∧ p.num_chunks = 1 ∧
      ∀ d < 3, endpoint_count back d p.transfer_sequences = 1 :=
  have hp : scatter_plan_t.create ⟨UIntType.uint16_t, UIntType.uint16_t⟩ false 0 3
      [[0, 2], [0, 0], [0, 1]]
      = Except.ok
        { num_gpus := 3, num_steps := 1, num_chunks := 1,
          transfer_sequences := [[0, 2], [0, 0], [0, 1]], transfer_sizes := [],
          synchronized := false, valid := true, source := 0 } := by decide
  have hl : ([[0, 2], [0, 0], [0, 1]] : List (List Nat)).length < SIZE_RANGE := by decide
  ⟨_, hp, rfl, hl,
    (single_chunk_completeness ⟨UIntType.uint16_t, UIntType.uint16_t⟩ false 0 3
      [[0, 2], [0, 0], [0, 1]] 1 [] (by decide)).2.2.1 _ hp rfl hl⟩

/-- Counterexample to C3 as stated: the Gather plan of one device, built without
sequences and without sizes, is returned with `valid == true`, `num_chunks == 1` and
no sequence, so device 0 of `[0, num_gpus)` is the free endpoint of no sequence. -/
theorem single_chunk_completeness_fails_for_one_gpu :
    ∃ g, gather_plan_t.create ⟨UIntType.uint16_t, UIntType.uint16_t⟩ true 0 1 []
        = Except.ok g ∧ g.valid = true ∧ g.num_chunks = 1 ∧ g.transfer_sizes = [] ∧
      ∃ d < g.num_gpus, endpoint_count front d g.transfer_sequences ≠ 1 :=
  ⟨_, rfl, rfl, rfl, rfl, 0, by decide, by decide⟩

/-- C4 as amended (completeness, explicit sizes). For `num_gpus ≥ 2` and under either
error policy: in every Gather or Scatter plan that the four-argument constructor
returns with `valid == true` and `num_chunks > 1`, for every device `d` in
`[0, num_gpus)` the exact sum of `transfer_sizes[i]` over the sequences `i` whose free
endpoint is `d` is congruent to `num_chunks` modulo 2^64, and it equals `num_chunks`
whenever that exact sum is below 2^64. -/
theorem weighted_completeness (T : Types) (throw_exceptions : Bool)
    (anchor num_gpus : Nat) (transfer_sequences : List (List Nat)) (num_chunks : Nat)
    (transfer_sizes : List Nat) (h : 2 ≤ num_gpus) :
    (∀ g, gather_plan_t.create_chunked T throw_exceptions anchor num_gpus transfer_sequences
        num_chunks transfer_sizes = Except.ok g → g.valid = true → 1 < g.num_chunks →
      ∀ d < num_gpus,
        exact_total front d g.transfer_sequences g.transfer_sizes % SIZE_RANGE
          = g.num_chunks ∧
        (exact_total front d g.transfer_sequences g.transfer_sizes < SIZE_RANGE →
          exact_total front d g.transfer_sequences g.transfer_sizes = g.num_chunks)) ∧
    (∀ p, scatter_plan_t.create_chunked T throw_exceptions anchor num_gpus transfer_sequences
        num_chunks transfer_sizes = Except.ok p → p.valid = true → 1 < p.num_chunks →
      ∀ d < num_gpus,
        exact_total back d p.transfer_sequences p.transfer_sizes % SIZE_RANGE
          = p.num_chunks ∧
        (exact_total back d p.transfer_sequences p.transfer_sizes < SIZE_RANGE →
          exact_total back d p.transfer_sequences p.transfer_sizes = p.num_chunks)) := by
  refine ⟨?_, ?_⟩
  · intro g hg hv hc d hd
    have f := gather_valid_facts T throw_exceptions anchor num_gpus transfer_sequences
      num_chunks transfer_sizes g h hg hv
    have h6 := (f.2.2.2.2.2.2.2.2.2.2.2 hc).2 d hd
    exact ⟨h6, fun hlt => by rw [Nat.mod_eq_of_lt hlt] at h6; exact h6⟩
  · intro g hg hv hc d hd
    have f := scatter_valid_facts T throw_exceptions anchor num_gpus transfer_sequences
      num_chunks transfer_sizes g h hg hv
    have h6 := (f.2.2.2.2.2.2.2.2.2.2.2 hc).2 d hd
    exact ⟨h6, fun hlt => by rw [Nat.mod_eq_of_lt hlt] at h6; exact h6⟩

/-- Witness of C4 as amended: the Gather plan of two devices with target 0, ten chunks,
the sequences `[[0,0],[1,0],[1,0]]` and the sizes `[10,6,4]`. -/
theorem weighted_completeness_witness :
    ∃ g, gather_plan_t.create_chunked ⟨UIntType.uint16_t, UIntType.uint16_t⟩ true 0 2
        [[0, 0], [1, 0], [1, 0]] 10 [10, 6, 4] = Except.ok g ∧ g.valid = true ∧
      1 < g.num_chunks ∧
      ∀ d < 2,
        exact_total front d g.transfer_sequences g.transfer_sizes % SIZE_RANGE
          = g.num_chunks ∧
        (exact_total front d g.transfer_sequences g.transfer_sizes < SIZE_RANGE →
          exact_total front d g.transfer_sequences g.transfer_sizes = g.num_chunks) :=
  have hg : gather_plan_t.create_chunked ⟨UIntType.uint16_t, UIntType.uint16_t⟩ true 0 2
      [[0, 0], [1, 0], [1, 0]] 10 [10, 6, 4]
      = Except.ok
        { num_gpus := 2, num_steps := 1, num_chunks := 10,
          transfer_sequences := [[0, 0], [1, 0], [1, 0]], transfer_sizes := [10, 6, 4],
          synchronized := false, valid := true, target := 0 } := by decide
  ⟨_, hg, rfl, by decide,
    (weighted_completeness ⟨UIntType.uint16_t, UIntType.uint16_t⟩ true 0 2
      [[0, 0], [1, 0], [1, 0]] 10 [10, 6, 4] (by decide)).1 _ hg rfl (by decide)⟩

/-- Counterexample to C4 as stated. (1) The Gather plan of two devices with target 0,
two chunks, the sequences `[[0,0],[1,0],[1,0]]` and the sizes `[2, 2^63+1, 2^63+1]` is
returned with `valid == true`, while the exact total of device 1 is `2^64 + 2`, not 2:
the accumulation in `size_t` wraps around. (2) With `num_gpus = 1` `verify_plan` is not
run: the plan built from `[[0,0]]`, two chunks and the sizes `[5]` is returned with
`valid == true` and the total of device 0 is 5. -/
theorem weighted_completeness_fails_exactly :
    (∃ g, gather_plan_t.create_chunked ⟨UIntType.uint16_t, UIntType.uint16_t⟩ true 0 2
        [[0, 0], [1, 0], [1, 0]] 2 [2, 9223372036854775809, 9223372036854775809]
        = Except.ok g ∧ g.valid = true ∧ 1 < g.num_chunks ∧
      (∀ w ∈ g.transfer_sizes, w < SIZE_RANGE) ∧
      exact_total front 1 g.transfer_sequences g.transfer_sizes = 18446744073709551618 ∧
      ∃ d < g.num_gpus,
        exact_total front d g.transfer_sequences g.transfer_sizes ≠ g.num_chunks) ∧
    (∃ g, gather_plan_t.create_chunked ⟨UIntType.uint16_t, UIntType.uint16_t⟩ true 0 1
        [[0, 0]] 2 [5] = Except.ok g ∧ g.valid = true ∧ 1 < g.num_chunks ∧
      ∃ d < g.num_gpus,
        exact_total front d g.transfer_sequences g.transfer_sizes ≠ g.num_chunks) := by
  have hg : gather_plan_t.create_chunked ⟨UIntType.uint16_t, UIntType.uint16_t⟩ true 0 2
      [[0, 0], [1, 0], [1, 0]] 2 [2, 9223372036854775809, 9223372036854775809]
      = Except.ok
        { num_gpus := 2, num_steps := 1, num_chunks := 2,
          transfer_sequences := [[0, 0], [1, 0], [1, 0]],
          transfer_sizes := [2, 9223372036854775809, 9223372036854775809],
          synchronized := false, valid := true, target := 0 } := by decide
  exact ⟨⟨_, hg, rfl, by decide, by decide, by decide, 1, by decide, by decide⟩,
    ⟨_, rfl, rfl, by decide, 0, by decide, by decide⟩⟩

/-- The derived `num_steps` and the length test, for sequences of a common length that
the type of `num_steps` can hold. -/
theorem staged_steps_of_common_length (T : Types) (n chunks : Nat) (sizes first : List Nat)
    (seqs : List (List Nat)) (L : Nat) (hL : 2 ≤ L) (hfit : L < 2 ^ T.num_steps_t.bits)
    (hfirst : first.length = L) (hlen : ∀ s ∈ seqs, s.length = L) :
    1 ≤ (staged T n seqs chunks sizes first).num_steps ∧
    ∀ s ∈ (staged T n seqs chunks sizes first).transfer_sequences,
      s.length = num_steps_plus_one T (staged T n seqs chunks sizes first).num_steps := by
  have hs : (staged T n seqs chunks sizes first).num_steps = L - 1 := by
    simp only [staged, hfirst]
    exact derive_num_steps_fit T L (by omega) hfit
  rw [hs]
  refine ⟨by omega, ?_⟩
  intro s hs2
  rw [num_steps_plus_one_fit T (L - 1) (by omega)]
  have := hlen s hs2
  omega

/-- Endpoint mismatch on the four-argument Gather constructor. -/
theorem gather_endpoint_mismatch (T : Types) (te : Bool) (a n : Nat)
    (seqs : List (List Nat)) (chunks : Nat) (sizes : List Nat) (L : Nat)
    (hn : 2 ≤ n) (hL : 2 ≤ L) (hfit : L < 2 ^ T.num_steps_t.bits)
    (hlen : ∀ s ∈ seqs, s.length = L) (hbad : ∃ s ∈ seqs, back s ≠ some a) :
    rejected (fun g : gather_plan_t => g.valid) te "all sequences must have same target."
      (gather_plan_t.create_chunked T te a n seqs chunks sizes) := by
  cases seqs with
  | nil => simp at hbad
  | cons first rest =>
    obtain ⟨h1, h2⟩ := staged_steps_of_common_length T n chunks sizes first (first :: rest) L
      hL hfit (hlen first (List.mem_cons_self _ _)) hlen
    have hv : gather_plan_t.verify_plan T te a (staged T n (first :: rest) chunks sizes first)
        = reject te "all sequences must have same target." := by
      unfold gather_plan_t.verify_plan
      apply verify_endpoint_reject _ _ _ _ _ _ _ h1 h2
      · intro s hs
        exact back_defined s (by have := hlen s hs; omega)
      · exact hbad
    exact gather_create_chunked_rejected T te a n (first :: rest) chunks sizes hn first rest
      rfl _ hv

/-- C5 (rejection on endpoint mismatch). For every Gather plan with `num_gpus ≥ 2`
whose supplied sequences all have the same length `L ≥ 2` and in which at least one
sequence's last element differs from the target, construction by either constructor is
rejected with "all sequences must have same target." (EndpointMismatch): fail-fast mode
raises it and silent mode returns `valid == false`, whether or not the plan is also
incomplete. The length `L` is one that a sequence can have: `L < 2^b`, `b` being the
width of the type of `num_steps`, which holds the hop count `L - 1`; for a `num_steps`
as wide as `size_t` this is the bound on `size()` of a vector. -/
theorem endpoint_mismatch_rejected (T : Types) (throw_exceptions : Bool)
    (target num_gpus : Nat) (transfer_sequences : List (List Nat)) (num_chunks : Nat)
    (transfer_sizes : List Nat) (L : Nat)
    (h : 2 ≤ num_gpus) (hL : 2 ≤ L) (hfit : L < 2 ^ T.num_steps_t.bits)
    (hlen : ∀ s ∈ transfer_sequences, s.length = L)
    (hbad : ∃ s ∈ transfer_sequences, back s ≠ some target) :
    rejected (fun g : gather_plan_t => g.valid) throw_exceptions
      "all sequences must have same target."
      (gather_plan_t.create T throw_exceptions target num_gpus transfer_sequences) ∧
    rejected (fun g : gather_plan_t => g.valid) throw_exceptions
      "all sequences must have same target."
      (gather_plan_t.create_chunked T throw_exceptions target num_gpus transfer_sequences
        num_chunks transfer_sizes) :=
  ⟨gather_endpoint_mismatch T throw_exceptions target num_gpus transfer_sequences 1 [] L
      h hL hfit hlen hbad,
    gather_endpoint_mismatch T throw_exceptions target num_gpus transfer_sequences
      num_chunks transfer_sizes L h hL hfit hlen hbad⟩

/-- Witness of C5: four devices, target 3, sequences `[[0,3],[1,3],[2,2]]`
(a plan that is incomplete as well): fail-fast construction raises the endpoint
message. -/
theorem endpoint_mismatch_rejected_witness :
    gather_plan_t.create ⟨UIntType.uint16_t, UIntType.uint16_t⟩ true 3 4
        [[0, 3], [1, 3], [2, 2]]
      = Except.error (Exn.invalid_argument "all sequences must have same target.") :=
  (endpoint_mismatch_rejected ⟨UIntType.uint16_t, UIntType.uint16_t⟩ true 3 4
    [[0, 3], [1, 3], [2, 2]] 1 [] 2 (by decide) (by decide) (by decide) (by decide)
    (by decide)).1.1 rfl

/-- A derived `num_steps` of 0 rejects a Gather construction as TooShortPlan. -/
theorem gather_too_short (T : Types) (te : Bool) (a n : Nat) (first : List Nat)
    (rest : List (List Nat)) (chunks : Nat) (sizes : List Nat) (hn : 2 ≤ n)
    (h0 : derive_num_steps T first.length < 1) :
    rejected (fun g : gather_plan_t => g.valid) te
      "planned sequence must be at least of length 2."
      (gather_plan_t.create_chunked T te a n (first :: rest) chunks sizes) := by
  have hv : gather_plan_t.verify_plan T te a (staged T n (first :: rest) chunks sizes first)
      = reject te "planned sequence must be at least of length 2." := by
    unfold gather_plan_t.verify_plan
    exact verify_short_reject _ _ _ _ _ _ _ h0
  exact gather_create_chunked_rejected T te a n (first :: rest) chunks sizes hn first rest
    rfl _ hv

/-- A derived `num_steps` of 0 rejects a Scatter construction as TooShortPlan. -/
theorem scatter_too_short (T : Types) (te : Bool) (a n : Nat) (first : List Nat)
    (rest : List (List Nat)) (chunks : Nat) (sizes : List Nat) (hn : 2 ≤ n)
    (h0 : derive_num_steps T first.length < 1) :
    rejected (fun g : scatter_plan_t => g.valid) te
      "planned sequence must be at least of length 2."
      (scatter_plan_t.create_chunked T te a n (first :: rest) chunks sizes) := by
  have hv : scatter_plan_t.verify_plan T te a (staged T n (first :: rest) chunks sizes first)
      = reject te "planned sequence must be at least of length 2." := by
    unfold scatter_plan_t.verify_plan
    exact verify_short_reject _ _ _ _ _ _ _ h0
  exact scatter_create_chunked_rejected T te a n (first :: rest) chunks sizes hn first rest
    rfl _ hv

/-- A first sequence of exactly one entry derives `num_steps == 0` and is rejected as
TooShortPlan, for Gather. -/
theorem gather_single_entry_first (T : Types) (te : Bool) (a n : Nat) (first : List Nat)
    (rest : List (List Nat)) (chunks : Nat) (sizes : List Nat) (hn : 2 ≤ n)
    (h1 : first.length = 1) :
    rejected (fun g : gather_plan_t => g.valid) te
      "planned sequence must be at least of length 2."
      (gather_plan_t.create_chunked T te a n (first :: rest) chunks sizes) :=
  gather_too_short T te a n first rest chunks sizes hn
    (by rw [h1, derive_num_steps_one]; exact Nat.zero_lt_one)

/-- A first sequence of exactly one entry derives `num_steps == 0` and is rejected as
TooShortPlan, for Scatter. -/
theorem scatter_single_entry_first (T : Types) (te : Bool) (a n : Nat) (first : List Nat)
    (rest : List (List Nat)) (chunks : Nat) (sizes : List Nat) (hn : 2 ≤ n)
    (h1 : first.length = 1) :
    rejected (fun p : scatter_plan_t => p.valid) te
      "planned sequence must be at least of length 2."
      (scatter_plan_t.create_chunked T te a n (first :: rest) chunks sizes) :=
  scatter_too_short T te a n first rest chunks sizes hn
    (by rw [h1, derive_num_steps_one]; exact Nat.zero_lt_one)

/-- Incompleteness with one chunk on the four-argument Scatter constructor. -/
theorem scatter_incomplete (T : Types) (te : Bool) (a n : Nat)
    (seqs : List (List Nat)) (sizes : List Nat) (L : Nat)
    (hn : 2 ≤ n) (hne : seqs ≠ []) (hcount : seqs.length < SIZE_RANGE)
    (hL : 2 ≤ L) (hfit : L < 2 ^ T.num_steps_t.bits)
    (hlen : ∀ s ∈ seqs, s.length = L) (hsrc : ∀ s ∈ seqs, front s = some a)
    (hdev : ∀ s ∈ seqs, ∃ e, back s = some e ∧ e < n)
    (hbad : ∃ d < n, endpoint_count back d seqs ≠ 1) :
    rejected (fun p : scatter_plan_t => p.valid) te "transfer plan is incomplete."
      (scatter_plan_t.create_chunked T te a n seqs 1 sizes) := by
  cases seqs with
  | nil => exact absurd rfl hne
  | cons first rest =>
    obtain ⟨h1, h2⟩ := staged_steps_of_common_length T n 1 sizes first (first :: rest) L
      hL hfit (hlen first (List.mem_cons_self _ _)) hlen
    have hv : scatter_plan_t.verify_plan T te a (staged T n (first :: rest) 1 sizes first)
        = reject te "transfer plan is incomplete." := by
      unfold scatter_plan_t.verify_plan
      apply verify_incomplete_reject _ _ _ _ _ _ _ h1 h2 hsrc hdev (Nat.le_refl 1)
      obtain ⟨d, hd, hne1⟩ := hbad
      refine ⟨d, hd, ?_⟩
      have hle := endpoint_count_le back d (first :: rest)
      show endpoint_count back d (first :: rest) % SIZE_RANGE ≠ 1
      rw [Nat.mod_eq_of_lt (by omega)]
      exact hne1
    exact scatter_create_chunked_rejected T te a n (first :: rest) 1 sizes hn first rest
      rfl _ hv

/-- C6 (rejection on incompleteness). For every Scatter plan with `num_gpus ≥ 2` and
`num_chunks == 1` (two-argument constructor, or four-argument constructor with
`num_chunks = 1` and any sizes) whose supplied sequences all have the same length
`L ≥ 2`, all start at the source and all end at devices in `[0, num_gpus)`: if some
device in `[0, num_gpus)` is not the last element of exactly one sequence, construction
is rejected with "transfer plan is incomplete." (IncompletePlan): fail-fast mode raises
it, silent mode returns `valid == false`. The plan is one with sequences (without any
the constructor loads the default plan) and its sizes are such as vectors have: fewer
than 2^64 sequences, and `L < 2^b`, `b` being the width of the type of `num_steps`,
which holds the hop count `L - 1`; for a `num_steps` as wide as `size_t` this is the
bound on `size()` of a vector. -/
theorem incomplete_scatter_rejected (T : Types) (throw_exceptions : Bool)
    (source num_gpus : Nat) (transfer_sequences : List (List Nat))
    (transfer_sizes : List Nat) (L : Nat)
    (h : 2 ≤ num_gpus) (hne : transfer_sequences ≠ [])
    (hcount : transfer_sequences.length < SIZE_RANGE)
    (hL : 2 ≤ L) (hfit : L < 2 ^ T.num_steps_t.bits)
    (hlen : ∀ s ∈ transfer_sequences, s.length = L)
    (hsrc : ∀ s ∈ transfer_sequences, front s = some source)
    (hdev : ∀ s ∈ transfer_sequences, ∃ e, back s = some e ∧ e < num_gpus)
    (hbad : ∃ d < num_gpus, endpoint_count back d transfer_sequences ≠ 1) :
    rejected (fun p : scatter_plan_t => p.valid) throw_exceptions
      "transfer plan is incomplete."
      (scatter_plan_t.create T throw_exceptions source num_gpus transfer_sequences) ∧
    rejected (fun p : scatter_plan_t => p.valid) throw_exceptions
      "transfer plan is incomplete."
      (scatter_plan_t.create_chunked T throw_exceptions source num_gpus transfer_sequences
        1 transfer_sizes) :=
  ⟨scatter_incomplete T throw_exceptions source num_gpus transfer_sequences [] L
      h hne hcount hL hfit hlen hsrc hdev hbad,
    scatter_incomplete T throw_exceptions source num_gpus transfer_sequences transfer_sizes L
      h hne hcount hL hfit hlen hsrc hdev hbad⟩

/-- Witness of C6: three devices, source 0, sequences `[[0,1],[0,1]]`:
fail-fast construction raises the incompleteness message. -/
theorem incomplete_scatter_rejected_witness :
    scatter_plan_t.create ⟨UIntType.uint16_t, UIntType.uint16_t⟩ true 0 3 [[0, 1], [0, 1]]
      = Except.error (Exn.invalid_argument "transfer plan is incomplete.") :=
  (incomplete_scatter_rejected ⟨UIntType.uint16_t, UIntType.uint16_t⟩ true 0 3
    [[0, 1], [0, 1]] [] 2 (by decide) (by decide) (by decide) (by decide) (by decide)
    (by decide) (by decide) (by decide) ⟨2, by decide, by decide⟩).1.1 rfl

/-- C7 as amended (weighted completeness on two devices). For a two-device Gather plan
(`num_gpus = 2`, target 0 or 1) with `num_chunks = 10` and sequences `[[0,T],[1,T]]`:
with sizes `[10,10]` construction returns `valid == true`; with sizes `[6,4]` and with
sizes `[6,3]` construction is rejected with "transfer plan is incomplete."
(IncompletePlan: raised in fail-fast mode, `valid == false` in silent mode), because the
total of each single device is compared with `num_chunks`. -/
theorem two_device_weighted_gather (T : Types) (throw_exceptions : Bool) (target : Fin 2) :
    (∃ g, gather_plan_t.create_chunked T throw_exceptions target.val 2
        [[0, target.val], [1, target.val]] 10 [10, 10] = Except.ok g ∧ g.valid = true) ∧
    rejected (fun g : gather_plan_t => g.valid) throw_exceptions
      "transfer plan is incomplete."
      (gather_plan_t.create_chunked T throw_exceptions target.val 2
        [[0, target.val], [1, target.val]] 10 [6, 4]) ∧
    rejected (fun g : gather_plan_t => g.valid) throw_exceptions
      "transfer plan is incomplete."
      (gather_plan_t.create_chunked T throw_exceptions target.val 2
        [[0, target.val], [1, target.val]] 10 [6, 3]) := by
  obtain ⟨g, s⟩ := T
  refine ⟨?_, ?_, ?_⟩
  · obtain ⟨p, h1, h2, _⟩ := gather_create_chunked_accepted ⟨g, s⟩ throw_exceptions target.val 2
      [[0, target.val], [1, target.val]] 10 [10, 10] (by decide) [0, target.val]
      [[1, target.val]] rfl
      (by cases g <;> cases s <;> cases throw_exceptions <;> fin_cases target <;> decide)
    exact ⟨p, h1, h2⟩
  · exact gather_create_chunked_rejected ⟨g, s⟩ throw_exceptions target.val 2
      [[0, target.val], [1, target.val]] 10 [6, 4] (by decide) [0, target.val]
      [[1, target.val]] rfl _
      (by cases g <;> cases s <;> cases throw_exceptions <;> fin_cases target <;> decide)
  · exact gather_create_chunked_rejected ⟨g, s⟩ throw_exceptions target.val 2
      [[0, target.val], [1, target.val]] 10 [6, 3] (by decide) [0, target.val]
      [[1, target.val]] rfl _
      (by cases g <;> cases s <;> cases throw_exceptions <;> fin_cases target <;> decide)

/-- Counterexample to C7 as stated: with target 0 and sizes `[6,4]` device 0 totals 6
and device 1 totals 4, neither equals `num_chunks = 10`; silent construction returns
`valid == false` and fail-fast construction raises "transfer plan is incomplete.". -/
theorem sizes_six_four_are_rejected :
    exact_total front 0 [[0, 0], [1, 0]] [6, 4] = 6 ∧
    exact_total front 1 [[0, 0], [1, 0]] [6, 4] = 4 ∧
    (∃ g, gather_plan_t.create_chunked ⟨UIntType.uint16_t, UIntType.uint16_t⟩ false 0 2
        [[0, 0], [1, 0]] 10 [6, 4] = Except.ok g ∧ g.valid = false) ∧
    gather_plan_t.create_chunked ⟨UIntType.uint16_t, UIntType.uint16_t⟩ true 0 2
        [[0, 0], [1, 0]] 10 [6, 4]
      = Except.error (Exn.invalid_argument "transfer plan is incomplete.") := by
  have hg : gather_plan_t.create_chunked ⟨UIntType.uint16_t, UIntType.uint16_t⟩ false 0 2
        [[0, 0], [1, 0]] 10 [6, 4]
      = Except.ok
        { num_gpus := 2, num_steps := 1, num_chunks := 10,
          transfer_sequences := [[0, 0], [1, 0]], transfer_sizes := [6, 4],
          synchronized := false, valid := false, target := 0 } := by decide
  exact ⟨by decide, by decide, ⟨_, hg, rfl⟩, by decide⟩

theorem mixed_lengths_bad (seqs : List (List Nat)) (v : Nat)
    (hmix : ∃ s1 ∈ seqs, ∃ s2 ∈ seqs, s1.length ≠ s2.length) :
    ∃ s ∈ seqs, s.length ≠ v := by
  obtain ⟨s1, h1, s2, h2, hne⟩ := hmix
  by_cases h : s1.length = v
  · exact ⟨s2, h2, fun h3 => hne (h.trans h3.symm)⟩
  · exact ⟨s1, h1, h⟩

/-- C9, the code at the failing input: a first sequence of length 0. For every width
of `num_steps`, `size() - 1` wraps around to the largest value of `size_t`, `num_steps`
becomes the largest value of its type and the test `num_steps < 1` does not fire:
fail-fast construction of the Gather or Scatter plan of two devices from the single
empty sequence raises "planned sequences must have same lengths." when `num_steps` is
narrower than 32 bits, and otherwise passes the length test (`num_steps + 1` wraps to 0)
and applies `back()`, resp. `front()`, to the empty sequence. In no case is
"planned sequence must be at least of length 2." raised. -/
theorem empty_first_sequence_outcome (T : Types) :
    gather_plan_t.create T true 0 2 [[]]
      = Except.error
        (if T.num_steps_t.bits < 32
          then Exn.invalid_argument "planned sequences must have same lengths."
          else Exn.undefined_behaviour) ∧
    scatter_plan_t.create T true 0 2 [[]]
      = Except.error
        (if T.num_steps_t.bits < 32
          then Exn.invalid_argument "planned sequences must have same lengths."
          else Exn.undefined_behaviour) ∧
    gather_plan_t.create T true 0 2 [[]]
      ≠ Except.error (Exn.invalid_argument "planned sequence must be at least of length 2.") ∧
    scatter_plan_t.create T true 0 2 [[]]
      ≠ Except.error
        (Exn.invalid_argument "planned sequence must be at least of length 2.") := by
  obtain ⟨g, s⟩ := T
  cases g <;> cases s <;> decide

/-- C10 as amended (size count). For `num_gpus ≥ 2` and under either error policy: in
every Gather or Scatter plan that the four-argument constructor returns with
`valid == true` and `num_chunks > 1`, the length of `transfer_sizes` equals the number
of transfer sequences. -/
theorem sizes_match_sequences (T : Types) (throw_exceptions : Bool)
    (anchor num_gpus : Nat) (transfer_sequences : List (List Nat)) (num_chunks : Nat)
    (transfer_sizes : List Nat) (h : 2 ≤ num_gpus) :
    (∀ g, gather_plan_t.create_chunked T throw_exceptions anchor num_gpus transfer_sequences
        num_chunks transfer_sizes = Except.ok g → g.valid = true → 1 < g.num_chunks →
      g.transfer_sizes.length = g.transfer_sequences.length) ∧
    (∀ p, scatter_plan_t.create_chunked T throw_exceptions anchor num_gpus transfer_sequences
        num_chunks transfer_sizes = Except.ok p → p.valid = true → 1 < p.num_chunks →
      p.transfer_sizes.length = p.transfer_sequences.length) := by
  refine ⟨?_, ?_⟩
  · intro g hg hv hc
    have f := gather_valid_facts T throw_exceptions anchor num_gpus transfer_sequences
      num_chunks transfer_sizes g h hg hv
    exact ((f.2.2.2.2.2.2.2.2.2.2.2 hc).1).symm
  · intro g hg hv hc
    have f := scatter_valid_facts T throw_exceptions anchor num_gpus transfer_sequences
      num_chunks transfer_sizes g h hg hv
    exact ((f.2.2.2.2.2.2.2.2.2.2.2 hc).1).symm

/-- Witness of C10 as amended: the Scatter plan of two devices with source 1, three
chunks, the sequences `[[1,0],[1,1]]` and the sizes `[3,3]`. -/
theorem sizes_match_sequences_witness :
    ∃ p, scatter_plan_t.create_chunked ⟨UIntType.uint16_t, UIntType.uint16_t⟩ false 1 2
        [[1, 0], [1, 1]] 3 [3, 3] = Except.ok p ∧ p.valid = true ∧ 1 < p.num_chunks ∧
      p.transfer_sizes.length = p.transfer_sequences.length :=
  have hp : scatter_plan_t.create_chunked ⟨UIntType.uint16_t, UIntType.uint16_t⟩ false 1 2
      [[1, 0], [1, 1]] 3 [3, 3]
      = Except.ok
        { num_gpus := 2, num_steps := 1, num_chunks := 3,
          transfer_sequences := [[1, 0], [1, 1]], transfer_sizes := [3, 3],
          synchronized := false, valid := true, source := 1 } := by decide
  ⟨_, hp, rfl, by decide,
    (sizes_match_sequences ⟨UIntType.uint16_t, UIntType.uint16_t⟩ false 1 2
      [[1, 0], [1, 1]] 3 [3, 3] (by decide)).2 _ hp rfl (by decide)⟩

/-- Counterexample to C10 as stated. (1) With `num_chunks = 1` the sizes are not read:
the Gather plan of two devices with target 0, the sequences `[[0,0],[1,0]]` and the
single size `[5]` is returned with `valid == true`. (2) With `num_gpus = 1`
`verify_plan` is not run: the plan built from `[[0,0]]`, two chunks and the sizes
`[1,2]` is returned with `valid == true`. -/
theorem sizes_need_not_match_sequences :
    (∃ g, gather_plan_t.create_chunked ⟨UIntType.uint16_t, UIntType.uint16_t⟩ true 0 2
        [[0, 0], [1, 0]] 1 [5] = Except.ok g ∧ g.valid = true ∧ g.transfer_sizes ≠ [] ∧
      g.transfer_sizes.length ≠ g.transfer_sequences.length) ∧
    (∃ g, gather_plan_t.create_chunked ⟨UIntType.uint16_t, UIntType.uint16_t⟩ true 0 1
        [[0, 0]] 2 [1, 2] = Except.ok g ∧ g.valid = true ∧ g.transfer_sizes ≠ [] ∧
      g.transfer_sizes.length ≠ g.transfer_sequences.length) := by
  have hg : gather_plan_t.create_chunked ⟨UIntType.uint16_t, UIntType.uint16_t⟩ true 0 2
      [[0, 0], [1, 0]] 1 [5]
      = Except.ok
        { num_gpus := 2, num_steps := 1, num_chunks := 1,
          transfer_sequences := [[0, 0], [1, 0]], transfer_sizes := [5],
          synchronized := false, valid := true, target := 0 } := by decide
  exact ⟨⟨_, hg, rfl, by decide, by decide⟩, ⟨_, rfl, rfl, by decide, by decide⟩⟩

/-! ## Default plan, trivial case, frame -/

theorem gather_default_sequences (T : Types) (te : Bool) (a n chunks : Nat)
    (sizes : List Nat) (hn : 2 ≤ n) :
    ∃ g, gather_plan_t.create_chunked T te a n [] chunks sizes = Except.ok g ∧
      g.transfer_sequences = (List.range n).map (fun src => [src, a]) ∧
      (∀ i < n, g.transfer_sequences[i]? = some [i, a]) ∧
      (a < n → [a, a] ∈ g.transfer_sequences) := by
  obtain ⟨g, hg, _⟩ := gather_default_created T te a n chunks sizes hn
  obtain ⟨_, _, _, _, _, _, h4, _⟩ := gather_create_chunked_ok T te a n [] chunks sizes g hn hg
  have hs : g.transfer_sequences = (List.range n).map (fun src => [src, a]) := by
    rw [h4]; rfl
  refine ⟨g, hg, hs, ?_, ?_⟩
  · intro i hi
    rw [hs]
    simp [List.getElem?_map, List.getElem?_range, hi]
  · intro ha
    rw [hs]
    exact List.mem_map.mpr ⟨a, List.mem_range.mpr ha, rfl⟩

theorem scatter_default_sequences (T : Types) (te : Bool) (a n chunks : Nat)
    (sizes : List Nat) (hn : 2 ≤ n) :
    ∃ g, scatter_plan_t.create_chunked T te a n [] chunks sizes = Except.ok g ∧
      g.transfer_sequences = (List.range n).map (fun trg => [a, trg]) ∧
      (∀ i < n, g.transfer_sequences[i]? = some [a, i]) := by
  obtain ⟨g, hg, _⟩ := scatter_default_created T te a n chunks sizes hn
  obtain ⟨_, _, _, _, _, _, h4, _⟩ := scatter_create_chunked_ok T te a n [] chunks sizes g hn hg
  have hs : g.transfer_sequences = (List.range n).map (fun trg => [a, trg]) := by
    rw [h4]; rfl
  refine ⟨g, hg, hs, ?_⟩
  intro i hi
  rw [hs]
  simp [List.getElem?_map, List.getElem?_range, hi]

/-- C12 (default sequences). For every `num_gpus ≥ 2` and every target, the sequence
list of the Gather plan constructed without explicit sequences is exactly
`[[0,target],[1,target],…,[num_gpus-1,target]]` in that order (entry `i` is
`[i,target]`), the self-sequence `[target,target]` included when `target < num_gpus`;
for every source, the sequence list of the default Scatter plan is exactly
`[[source,0],[source,1],…,[source,num_gpus-1]]`. Either constructor, either error
policy. -/
theorem default_plan_sequences (T : Types) (throw_exceptions : Bool)
    (anchor num_gpus num_chunks : Nat) (transfer_sizes : List Nat) (h : 2 ≤ num_gpus) :
    (∃ g, gather_plan_t.create T throw_exceptions anchor num_gpus [] = Except.ok g ∧
      g.transfer_sequences = (List.range num_gpus).map (fun src => [src, anchor]) ∧
      (∀ i < num_gpus, g.transfer_sequences[i]? = some [i, anchor]) ∧
      (anchor < num_gpus → [anchor, anchor] ∈ g.transfer_sequences)) ∧
    (∃ g, gather_plan_t.create_chunked T throw_exceptions anchor num_gpus []
        num_chunks transfer_sizes = Except.ok g ∧
      g.transfer_sequences = (List.range num_gpus).map (fun src => [src, anchor]) ∧
      (∀ i < num_gpus, g.transfer_sequences[i]? = some [i, anchor]) ∧
      (anchor < num_gpus → [anchor, anchor] ∈ g.transfer_sequences)) ∧
    (∃ p, scatter_plan_t.create T throw_exceptions anchor num_gpus [] = Except.ok p ∧
      p.transfer_sequences = (List.range num_gpus).map (fun trg => [anchor, trg]) ∧
      (∀ i < num_gpus, p.transfer_sequences[i]? = some [anchor, i])) ∧
    (∃ p, scatter_plan_t.create_chunked T throw_exceptions anchor num_gpus []
        num_chunks transfer_sizes = Except.ok p ∧
      p.transfer_sequences = (List.range num_gpus).map (fun trg => [anchor, trg]) ∧
      (∀ i < num_gpus, p.transfer_sequences[i]? = some [anchor, i])) :=
  ⟨gather_default_sequences T throw_exceptions anchor num_gpus 1 [] h,
   gather_default_sequences T throw_exceptions anchor num_gpus num_chunks transfer_sizes h,
   scatter_default_sequences T throw_exceptions anchor num_gpus 1 [] h,
   scatter_default_sequences T throw_exceptions anchor num_gpus num_chunks transfer_sizes h⟩

/-- Witness of C12: three devices, target and source 1. -/
theorem default_plan_sequences_witness :
    (∃ g, gather_plan_t.create ⟨UIntType.uint16_t, UIntType.uint16_t⟩ true 1 3 []
        = Except.ok g ∧ g.transfer_sequences = [[0, 1], [1, 1], [2, 1]]) ∧
    (∃ p, scatter_plan_t.create ⟨UIntType.uint16_t, UIntType.uint16_t⟩ true 1 3 []
        = Except.ok p ∧ p.transfer_sequences = [[1, 0], [1, 1], [1, 2]]) := by
  have h := default_plan_sequences ⟨UIntType.uint16_t, UIntType.uint16_t⟩ true 1 3 1 []
    (by decide)
  obtain ⟨⟨g, hg, hs, _⟩, _, ⟨p, hp, hps, _⟩, _⟩ := h
  exact ⟨⟨g, hg, by rw [hs]; decide⟩, ⟨p, hp, by rw [hps]; decide⟩⟩

/-- C13 (trivial case). For every `num_gpus < 2` and every anchor, constructing a Gather
or Scatter plan without explicit sequences, by either constructor and under either
error policy, returns a plan with no transfer sequences and `valid == true`: no
default plan is loaded and `verify_plan` is not run, the members are those that the
base constructor stored. -/
theorem trivial_plan (T : Types) (throw_exceptions : Bool) (anchor num_gpus num_chunks : Nat)
    (transfer_sizes : List Nat) (h : num_gpus < 2) :
    (∃ g, gather_plan_t.create T throw_exceptions anchor num_gpus [] = Except.ok g ∧
      g.transfer_sequences = [] ∧ g.valid = true ∧
      g.totransfer_plan_t = transfer_plan_t.base num_gpus []) ∧
    (∃ g, gather_plan_t.create_chunked T throw_exceptions anchor num_gpus []
        num_chunks transfer_sizes = Except.ok g ∧
      g.transfer_sequences = [] ∧ g.valid = true ∧
      g.totransfer_plan_t = transfer_plan_t.base_chunked num_gpus [] num_chunks transfer_sizes) ∧
    (∃ p, scatter_plan_t.create T throw_exceptions anchor num_gpus [] = Except.ok p ∧
      p.transfer_sequences = [] ∧ p.valid = true ∧
      p.totransfer_plan_t = transfer_plan_t.base num_gpus []) ∧
    (∃ p, scatter_plan_t.create_chunked T throw_exceptions anchor num_gpus []
        num_chunks transfer_sizes = Except.ok p ∧
      p.transfer_sequences = [] ∧ p.valid = true ∧
      p.totransfer_plan_t = transfer_plan_t.base_chunked num_gpus [] num_chunks transfer_sizes) := by
  have hn : ¬ num_gpus ≥ 2 := by omega
  refine ⟨⟨{ transfer_plan_t.base num_gpus [] with target := anchor }, ?_, rfl, rfl, rfl⟩,
    ⟨{ transfer_plan_t.base_chunked num_gpus [] num_chunks transfer_sizes with
        target := anchor }, ?_, rfl, rfl, rfl⟩,
    ⟨{ transfer_plan_t.base num_gpus [] with source := anchor }, ?_, rfl, rfl, rfl⟩,
    ⟨{ transfer_plan_t.base_chunked num_gpus [] num_chunks transfer_sizes with
        source := anchor }, ?_, rfl, rfl, rfl⟩⟩
  · simp only [gather_plan_t.create, gather_plan_t.initialise, transfer_plan_t.base, hn,
      if_false]
  · simp only [gather_plan_t.create_chunked, gather_plan_t.initialise,
      transfer_plan_t.base_chunked, hn, if_false]
  · simp only [scatter_plan_t.create, scatter_plan_t.initialise, transfer_plan_t.base, hn,
      if_false]
  · simp only [scatter_plan_t.create_chunked, scatter_plan_t.initialise,
      transfer_plan_t.base_chunked, hn, if_false]

/-- Witness of C13: one device. -/
theorem trivial_plan_witness :
    ∃ g, gather_plan_t.create ⟨UIntType.uint16_t, UIntType.uint16_t⟩ true 0 1 []
        = Except.ok g ∧ g.transfer_sequences = [] ∧ g.valid = true :=
  have h := (trivial_plan ⟨UIntType.uint16_t, UIntType.uint16_t⟩ true 0 1 1 []
    (by decide)).1
  h.elim fun g hg => ⟨g, hg.1, hg.2.1, hg.2.2.1⟩

theorem reject_ne_undefined (te : Bool) (what : String) :
    reject te what ≠ Except.error Exn.undefined_behaviour := by
  cases te <;> simp [reject]

/-- When every sequence has a fixed endpoint, the endpoint loop runs to its end or
rejects. -/
theorem endpoint_loop_defined (te : Bool) (fixed : List Nat → Option Nat) (a : Nat)
    (what : String) (seqs : List (List Nat)) (hdef : ∀ s ∈ seqs, ∃ e, fixed s = some e) :
    endpoint_loop te fixed a what seqs = none ∨
      endpoint_loop te fixed a what seqs = some (reject te what) := by
  by_cases hall : ∀ s ∈ seqs, fixed s = some a
  · exact Or.inl ((endpoint_loop_none_iff te fixed a what seqs).mpr hall)
  · right
    apply endpoint_loop_reject te fixed a what seqs hdef
    by_contra hcon
    exact hall (fun s hs => by_contra fun hne => hcon ⟨s, hs, hne⟩)

/-- With every fixed endpoint defined and every free endpoint a device of the plan,
`verify_plan` does not run into undefined behaviour. -/
theorem verify_plan_body_defined (T : Types) (te : Bool) (fixed free : List Nat → Option Nat)
    (a : Nat) (what : String) (p : transfer_plan_t)
    (hfixed : ∀ s ∈ p.transfer_sequences, ∃ e, fixed s = some e)
    (hfree : ∀ s ∈ p.transfer_sequences, ∃ e, free s = some e ∧ e < p.num_gpus) :
    verify_plan_body T te fixed free a what p ≠ Except.error Exn.undefined_behaviour := by
  unfold verify_plan_body
  split
  · exact reject_ne_undefined _ _
  split
  · exact reject_ne_undefined _ _
  rcases endpoint_loop_defined te fixed a what _ hfixed with hl | hl
  · rw [hl]
    simp only
    split
    · obtain ⟨c, hc⟩ := count_loop_defined free p.num_gpus _ hfree
      rw [hc]
      simp only
      split
      · simp
      · exact reject_ne_undefined _ _
    · split
      · exact reject_ne_undefined _ _
      · rename_i hlen
        obtain ⟨c, hc⟩ := size_loop_defined free p.transfer_sequences p.transfer_sizes
          (List.replicate p.num_gpus 0) (by simpa using hfree)
          (by simp only [ne_eq, Decidable.not_not] at hlen; omega)
        rw [hc]
        simp only
        split
        · simp
        · exact reject_ne_undefined _ _
  · rw [hl]
    exact reject_ne_undefined _ _

theorem gather_no_undefined (T : Types) (te : Bool) (a n : Nat) (seqs : List (List Nat))
    (chunks : Nat) (sizes : List Nat) (hn : 2 ≤ n) (hne : ∀ s ∈ seqs, s ≠ [])
    (hfree : ∀ s ∈ seqs, ∀ e, front s = some e → e < n) :
    gather_plan_t.create_chunked T te a n seqs chunks sizes
      ≠ Except.error Exn.undefined_behaviour := by
  obtain ⟨first, rest, hS, heq⟩ := gather_create_chunked_eq T te a n seqs chunks sizes hn
  have hmem : ∀ s ∈ (if seqs.isEmpty then (List.range n).map (fun src => [src, a]) else seqs),
      (∃ e, back s = some e) ∧ ∃ e, front s = some e ∧ e < n := by
    intro s hs
    cases seqs with
    | nil =>
      simp only [List.isEmpty_nil, if_true, List.mem_map, List.mem_range] at hs
      obtain ⟨i, hi, rfl⟩ := hs
      exact ⟨⟨a, rfl⟩, ⟨i, rfl, hi⟩⟩
    | cons f r =>
      simp only [List.isEmpty_cons, Bool.false_eq_true, if_false] at hs
      have hl : 1 ≤ s.length := by
        have := hne s hs
        cases s with
        | nil => exact absurd rfl this
        | cons x xs => simp
      obtain ⟨e, he⟩ := front_defined s hl
      exact ⟨back_defined s hl, ⟨e, he, hfree s hs e he⟩⟩
  have hv : gather_plan_t.verify_plan T te a
      (staged T n (if seqs.isEmpty then (List.range n).map (fun src => [src, a]) else seqs)
        (if seqs.isEmpty then 1 else chunks) sizes first)
      ≠ Except.error Exn.undefined_behaviour := by
    unfold gather_plan_t.verify_plan
    exact verify_plan_body_defined _ _ _ _ _ _ _ (fun s hs => (hmem s hs).1)
      (fun s hs => (hmem s hs).2)
  rw [heq]
  intro hc
  split at hc
  · cases hc
  · rename_i e he
    injection hc with hc
    subst hc
    exact hv he

theorem scatter_no_undefined (T : Types) (te : Bool) (a n : Nat) (seqs : List (List Nat))
    (chunks : Nat) (sizes : List Nat) (hn : 2 ≤ n) (hne : ∀ s ∈ seqs, s ≠ [])
    (hfree : ∀ s ∈ seqs, ∀ e, back s = some e → e < n) :
    scatter_plan_t.create_chunked T te a n seqs chunks sizes
      ≠ Except.error Exn.undefined_behaviour := by
  obtain ⟨first, rest, hS, heq⟩ := scatter_create_chunked_eq T te a n seqs chunks sizes hn
  have hmem : ∀ s ∈ (if seqs.isEmpty then (List.range n).map (fun trg => [a, trg]) else seqs),
      (∃ e, front s = some e) ∧ ∃ e, back s = some e ∧ e < n := by
    intro s hs
    cases seqs with
    | nil =>
      simp only [List.isEmpty_nil, if_true, List.mem_map, List.mem_range] at hs
      obtain ⟨i, hi, rfl⟩ := hs
      exact ⟨⟨a, rfl⟩, ⟨i, rfl, hi⟩⟩
    | cons f r =>
      simp only [List.isEmpty_cons, Bool.false_eq_true, if_false] at hs
      have hl : 1 ≤ s.length := by
        have := hne s hs
        cases s with
        | nil => exact absurd rfl this
        | cons x xs => simp
      obtain ⟨e, he⟩ := back_defined s hl
      exact ⟨front_defined s hl, ⟨e, he, hfree s hs e he⟩⟩
  have hv : scatter_plan_t.verify_plan T te a
      (staged T n (if seqs.isEmpty then (List.range n).map (fun trg => [a, trg]) else seqs)
        (if seqs.isEmpty then 1 else chunks) sizes first)
      ≠ Except.error Exn.undefined_behaviour := by
    unfold scatter_plan_t.verify_plan
    exact verify_plan_body_defined _ _ _ _ _ _ _ (fun s hs => (hmem s hs).1)
      (fun s hs => (hmem s hs).2)
  rw [heq]
  intro hc
  split at hc
  · cases hc
  · rename_i e he
    injection hc with hc
    subst hc
    exact hv he

/-- C17 (no undefined behaviour). For `num_gpus ≥ 2`, every supplied sequence non-empty
and every sequence's free endpoint (first element for Gather, last element for Scatter)
below `num_gpus`, construction by either constructor and under either error policy does
not end in the error branch of the embedding: `front()` and `back()` are applied to
non-empty sequences only, every index into `completeness` is below `num_gpus`, and
`transfer_sizes[i]` is read only for `i` below the length of `transfer_sizes`. -/
theorem construction_is_defined (T : Types) (throw_exceptions : Bool)
    (anchor num_gpus : Nat) (transfer_sequences : List (List Nat)) (num_chunks : Nat)
    (transfer_sizes : List Nat) (h : 2 ≤ num_gpus)
    (hne : ∀ s ∈ transfer_sequences, s ≠ []) :
    ((∀ s ∈ transfer_sequences, ∀ e, front s = some e → e < num_gpus) →
      gather_plan_t.create T throw_exceptions anchor num_gpus transfer_sequences
        ≠ Except.error Exn.undefined_behaviour ∧
      gather_plan_t.create_chunked T throw_exceptions anchor num_gpus transfer_sequences
        num_chunks transfer_sizes ≠ Except.error Exn.undefined_behaviour) ∧
    ((∀ s ∈ transfer_sequences, ∀ e, back s = some e → e < num_gpus) →
      scatter_plan_t.create T throw_exceptions anchor num_gpus transfer_sequences
        ≠ Except.error Exn.undefined_behaviour ∧
      scatter_plan_t.create_chunked T throw_exceptions anchor num_gpus transfer_sequences
        num_chunks transfer_sizes ≠ Except.error Exn.undefined_behaviour) :=
  ⟨fun hf =>
    ⟨gather_no_undefined T throw_exceptions anchor num_gpus transfer_sequences 1 [] h hne hf,
      gather_no_undefined T throw_exceptions anchor num_gpus transfer_sequences num_chunks
        transfer_sizes h hne hf⟩,
   fun hf =>
    ⟨scatter_no_undefined T throw_exceptions anchor num_gpus transfer_sequences 1 [] h hne hf,
      scatter_no_undefined T throw_exceptions anchor num_gpus transfer_sequences num_chunks
        transfer_sizes h hne hf⟩⟩

/-- Witness of C17: the Scatter plan of two devices with source 0, three chunks,
sequences `[[0,7,1],[0,9,0]]` and a single size is rejected, not undefined. -/
theorem construction_is_defined_witness :
    scatter_plan_t.create_chunked ⟨UIntType.uint16_t, UIntType.uint16_t⟩ true 0 2
        [[0, 7, 1], [0, 9, 0]] 3 [3] ≠ Except.error Exn.undefined_behaviour :=
  ((construction_is_defined ⟨UIntType.uint16_t, UIntType.uint16_t⟩ true 0 2
    [[0, 7, 1], [0, 9, 0]] 3 [3] (by decide) (by decide)).2 (by decide)).2

/-! ## The two error policies and the order of the checks -/

theorem lengths_ok_eq_not_any (T : Types) (num_steps : Nat) (seqs : List (List Nat)) :
    lengths_ok T num_steps seqs
      = !(seqs.any (fun s => decide (s.length ≠ num_steps_plus_one T num_steps))) := by
  unfold lengths_ok
  induction seqs with
  | nil => rfl
  | cons s rest ih =>
    simp only [List.all_cons, List.any_cons, ih]
    by_cases h : s.length = num_steps_plus_one T num_steps <;> simp [h]

/-- The three ways the endpoint loop can end, each the same under both error policies
and for every message. -/
theorem endpoint_loop_cases (fixed : List Nat → Option Nat) (a : Nat)
    (seqs : List (List Nat)) :
    ((∀ te what, endpoint_loop te fixed a what seqs = none) ∧
        seqs.any (fun s => decide (fixed s ≠ some a)) = false) ∨
      ((∀ te what, endpoint_loop te fixed a what seqs = some (reject te what)) ∧
        seqs.any (fun s => decide (fixed s ≠ some a)) = true) ∨
      (∀ te what, endpoint_loop te fixed a what seqs
        = some (Except.error Exn.undefined_behaviour)) := by
  induction seqs with
  | nil => exact Or.inl ⟨fun _ _ => rfl, rfl⟩
  | cons s rest ih =>
    cases hf : fixed s with
    | none =>
      right; right
      intro te what
      simp only [endpoint_loop, hf]
    | some e =>
      by_cases he : e = a
      · subst he
        rcases ih with ⟨h1, h2⟩ | ⟨h1, h2⟩ | h1
        · left
          refine ⟨fun te what => ?_, ?_⟩
          · simp only [endpoint_loop, hf, ne_eq, not_true_eq_false, if_false, h1 te what]
          · simp only [List.any_cons, h2, hf]
            simp
        · right; left
          refine ⟨fun te what => ?_, ?_⟩
          · simp only [endpoint_loop, hf, ne_eq, not_true_eq_false, if_false, h1 te what]
          · simp only [List.any_cons, h2, hf]
            simp
        · right; right
          intro te what
          simp only [endpoint_loop, hf, ne_eq, not_true_eq_false, if_false, h1 te what]
      · right; left
        refine ⟨fun te what => ?_, ?_⟩
        · simp only [endpoint_loop, hf, ne_eq, he, not_false_eq_true, if_true]
        · simp only [List.any_cons, hf]
          simp [he]

theorem complete_ok_eq_not_any (n chunks : Nat) (c : List Nat) (total : Nat → Nat)
    (hget : ∀ d, c.getD d 0 = total d % SIZE_RANGE) :
    complete_ok n chunks c
      = !((List.range n).any (fun d => decide (total d % SIZE_RANGE ≠ chunks))) := by
  unfold complete_ok
  generalize List.range n = l
  induction l with
  | nil => rfl
  | cons d rest ih =>
    simp only [List.all_cons, List.any_cons, ih, hget d]
    by_cases h : total d % SIZE_RANGE = chunks <;> simp [h]

/-- The outcome of `verify_plan` in terms of the first violated check: unless the call
runs into undefined behaviour, it accepts when no check is violated and rejects with the
message of the first violated check otherwise. -/
theorem verify_plan_body_first_violated (T : Types) (te : Bool)
    (fixed free : List Nat → Option Nat) (a : Nat) (what : String) (p : transfer_plan_t) :
    verify_plan_body T te fixed free a what p = Except.error Exn.undefined_behaviour ∨
    verify_plan_body T te fixed free a what p =
      match first_violated_check T fixed free a p with
      | none => Except.ok true
      | some f => reject te (f.what what) := by
  unfold verify_plan_body first_violated_check
  by_cases h1 : p.num_steps < 1
  · right
    simp only [h1, if_true, Failure.what]
  simp only [h1, if_false]
  rw [lengths_ok_eq_not_any]
  cases h2 : p.transfer_sequences.any
      (fun s => decide (s.length ≠ num_steps_plus_one T p.num_steps)) with
  | true =>
    right
    simp only [Bool.not_true, Bool.not_false, if_true, Failure.what]
  | false =>
    simp only [Bool.not_false, Bool.not_true, Bool.false_eq_true, if_false]
    rcases endpoint_loop_cases fixed a p.transfer_sequences with
      ⟨e1, e2⟩ | ⟨e1, e2⟩ | e1
    · simp only [e1 te what, e2, Bool.false_eq_true, if_false]
      by_cases hch : p.num_chunks ≤ 1
      · have hnot : ¬ (1 < p.num_chunks ∧
            p.transfer_sequences.length ≠ p.transfer_sizes.length) := fun h => by omega
        simp only [hch, if_true, hnot, if_false]
        cases hc : count_loop free p.transfer_sequences (List.replicate p.num_gpus 0) with
        | none => left; rfl
        | some c =>
          right
          have hget := (count_loop_zero free _ _ c hc).2
          have htot : ∀ d, device_total free d p = endpoint_count free d p.transfer_sequences :=
            fun d => by simp only [device_total, hch, if_true]
          simp only [htot]
          rw [complete_ok_eq_not_any p.num_gpus p.num_chunks c _ hget]
          cases (List.range p.num_gpus).any
            (fun d => decide (endpoint_count free d p.transfer_sequences % SIZE_RANGE
              ≠ p.num_chunks)) <;> simp [Failure.what]
      · simp only [hch, if_false]
        by_cases hlen : p.transfer_sequences.length = p.transfer_sizes.length
        · have hnot : ¬ (1 < p.num_chunks ∧
              p.transfer_sequences.length ≠ p.transfer_sizes.length) := fun h => h.2 hlen
          simp only [hlen, ne_eq, not_true_eq_false, if_false, and_false]
          cases hc : size_loop free p.transfer_sequences p.transfer_sizes
              (List.replicate p.num_gpus 0) with
          | none => left; rfl
          | some c =>
            right
            have hget := (size_loop_zero free _ _ _ c hc).2
            have htot : ∀ d, device_total free d p
                = exact_total free d p.transfer_sequences p.transfer_sizes :=
              fun d => by simp only [device_total, hch, if_false]
            simp only [htot]
            rw [complete_ok_eq_not_any p.num_gpus p.num_chunks c _ hget]
            cases (List.range p.num_gpus).any
              (fun d => decide (exact_total free d p.transfer_sequences p.transfer_sizes
                % SIZE_RANGE ≠ p.num_chunks)) <;> simp [Failure.what]
        · right
          have hyes : 1 < p.num_chunks ∧
              p.transfer_sequences.length ≠ p.transfer_sizes.length := ⟨by omega, hlen⟩
          simp only [hlen, ne_eq, not_false_eq_true, if_true, hyes, and_self, Failure.what]
    · right
      simp only [e1 te what, e2, if_true, Failure.what]
    · left
      simp only [e1 te what]

/-- The outcome of `verify_plan` is one of three, the same under both error policies and
whatever the message of the endpoint check: accepted, rejected with one failure of the
taxonomy, or undefined. -/
theorem verify_plan_body_modes (T : Types) (fixed free : List Nat → Option Nat) (a : Nat)
    (p : transfer_plan_t) :
    (∀ te what, verify_plan_body T te fixed free a what p = Except.ok true) ∨
    (∃ f : Failure, ∀ te what,
      verify_plan_body T te fixed free a what p = reject te (f.what what)) ∨
    (∀ te what, verify_plan_body T te fixed free a what p
      = Except.error Exn.undefined_behaviour) := by
  unfold verify_plan_body
  by_cases h1 : p.num_steps < 1
  · right; left
    exact ⟨Failure.TooShortPlan, fun te what => by simp only [h1, if_true, Failure.what]⟩
  simp only [h1, if_false]
  cases h2 : lengths_ok T p.num_steps p.transfer_sequences with
  | false =>
    right; left
    exact ⟨Failure.MalformedSequenceLength,
      fun te what => by simp only [Bool.not_false, if_true, Failure.what]⟩
  | true =>
    simp only [Bool.not_true, Bool.false_eq_true, if_false]
    rcases endpoint_loop_cases fixed a p.transfer_sequences with
      ⟨e1, _⟩ | ⟨e1, _⟩ | e1
    · simp only [e1]
      by_cases hch : p.num_chunks ≤ 1
      · simp only [hch, if_true]
        cases hc : count_loop free p.transfer_sequences (List.replicate p.num_gpus 0) with
        | none => right; right; exact fun _ _ => rfl
        | some c =>
          cases hk : complete_ok p.num_gpus p.num_chunks c with
          | true => left; intro te what; simp only [hk, if_true]
          | false =>
            right; left
            exact ⟨Failure.IncompletePlan,
              fun te what => by simp only [hk, Bool.false_eq_true, if_false, Failure.what]⟩
      · simp only [hch, if_false]
        by_cases hlen : p.transfer_sequences.length = p.transfer_sizes.length
        · simp only [hlen, ne_eq, not_true_eq_false, if_false]
          cases hc : size_loop free p.transfer_sequences p.transfer_sizes
              (List.replicate p.num_gpus 0) with
          | none => right; right; exact fun _ _ => rfl
          | some c =>
            cases hk : complete_ok p.num_gpus p.num_chunks c with
            | true => left; intro te what; simp only [hk, if_true]
            | false =>
              right; left
              exact ⟨Failure.IncompletePlan,
                fun te what => by
                  simp only [hk, Bool.false_eq_true, if_false, Failure.what]⟩
        · right; left
          exact ⟨Failure.SizeCountMismatch,
            fun te what => by
              simp only [hlen, ne_eq, not_false_eq_true, if_true, Failure.what]⟩
    · right; left
      exact ⟨Failure.EndpointMismatch, fun te what => by simp only [e1 te what, Failure.what]⟩
    · right; right
      intro te what
      simp only [e1 te what]

/-- The fail-fast `verify_plan` raises exactly when the silent one returns false, and
both return true, or both are undefined, on the same plans. -/
theorem verify_plan_body_agree (T : Types) (fixed free : List Nat → Option Nat) (a : Nat)
    (what : String) (p : transfer_plan_t) :
    ((∃ m, verify_plan_body T true fixed free a what p
        = Except.error (Exn.invalid_argument m)) ↔
      verify_plan_body T false fixed free a what p = Except.ok false) ∧
    (verify_plan_body T true fixed free a what p = Except.ok true ↔
      verify_plan_body T false fixed free a what p = Except.ok true) ∧
    (verify_plan_body T true fixed free a what p = Except.error Exn.undefined_behaviour ↔
      verify_plan_body T false fixed free a what p = Except.error Exn.undefined_behaviour) := by
  rcases verify_plan_body_modes T fixed free a p with h | ⟨f, h⟩ | h
  · rw [h true what, h false what]
    simp
  · rw [h true what, h false what]
    simp [reject]
  · rw [h true what, h false what]
    simp

/-- When the fail-fast `verify_plan` raises, the message is that of the first violated
check; when it returns true, no check is violated. -/
theorem verify_plan_body_raises (T : Types) (fixed free : List Nat → Option Nat) (a : Nat)
    (what : String) (p : transfer_plan_t) :
    (∀ m, verify_plan_body T true fixed free a what p
        = Except.error (Exn.invalid_argument m) →
      ∃ f, first_violated_check T fixed free a p = some f ∧ m = f.what what) ∧
    (verify_plan_body T true fixed free a what p = Except.ok true →
      first_violated_check T fixed free a p = none) := by
  rcases verify_plan_body_first_violated T true fixed free a what p with h | h
  · rw [h]
    exact ⟨fun m hm => (by cases hm), fun hm => (by cases hm)⟩
  · rw [h]
    cases first_violated_check T fixed free a p with
    | none => exact ⟨fun m hm => (by cases hm), fun _ => rfl⟩
    | some f =>
      refine ⟨fun m hm => ⟨f, rfl, ?_⟩, fun hm => ?_⟩
      · simp only [reject, if_true] at hm
        injection hm with hm
        injection hm with hm
        exact hm.symm
      · simp [reject] at hm

/-- C11 as amended (the two error policies agree). For every plan handed to
`verify_plan` (every anchor, `num_gpus`, sequences, `num_chunks`, sizes and `num_steps`),
for Gather and for Scatter: the fail-fast `verify_plan` raises if and only if the silent
one returns false, it returns true exactly when the silent one returns true, and the two
are undefined on the same plans; when it raises, the message raised is that of the first
check that fails among the checks of the code, in their order: `num_steps < 1`; a
sequence whose size differs from `num_steps+1` as the code computes it; endpoint
mismatch; size-count mismatch, a check made only when `num_chunks > 1`; incompleteness,
the total of a device being held in a `size_t` counter. -/
theorem error_policies_agree (T : Types) (anchor : Nat) (p : transfer_plan_t) :
    (((∃ m, gather_plan_t.verify_plan T true anchor p
          = Except.error (Exn.invalid_argument m)) ↔
        gather_plan_t.verify_plan T false anchor p = Except.ok false) ∧
      (gather_plan_t.verify_plan T true anchor p = Except.ok true ↔
        gather_plan_t.verify_plan T false anchor p = Except.ok true) ∧
      (gather_plan_t.verify_plan T true anchor p = Except.error Exn.undefined_behaviour ↔
        gather_plan_t.verify_plan T false anchor p
          = Except.error Exn.undefined_behaviour) ∧
      (∀ m, gather_plan_t.verify_plan T true anchor p
          = Except.error (Exn.invalid_argument m) →
        ∃ f, first_violated_check T back front anchor p = some f ∧
          m = f.what "all sequences must have same target.") ∧
      (gather_plan_t.verify_plan T true anchor p = Except.ok true →
        first_violated_check T back front anchor p = none)) ∧
    (((∃ m, scatter_plan_t.verify_plan T true anchor p
          = Except.error (Exn.invalid_argument m)) ↔
        scatter_plan_t.verify_plan T false anchor p = Except.ok false) ∧
      (scatter_plan_t.verify_plan T true anchor p = Except.ok true ↔
        scatter_plan_t.verify_plan T false anchor p = Except.ok true) ∧
      (scatter_plan_t.verify_plan T true anchor p = Except.error Exn.undefined_behaviour ↔
        scatter_plan_t.verify_plan T false anchor p
          = Except.error Exn.undefined_behaviour) ∧
      (∀ m, scatter_plan_t.verify_plan T true anchor p
          = Except.error (Exn.invalid_argument m) →
        ∃ f, first_violated_check T front back anchor p = some f ∧
          m = f.what "all sequences must have same source.") ∧
      (scatter_plan_t.verify_plan T true anchor p = Except.ok true →
        first_violated_check T front back anchor p = none)) := by
  unfold gather_plan_t.verify_plan scatter_plan_t.verify_plan
  have g1 := verify_plan_body_agree T back front anchor
    "all sequences must have same target." p
  have g2 := verify_plan_body_raises T back front anchor
    "all sequences must have same target." p
  have s1 := verify_plan_body_agree T front back anchor
    "all sequences must have same source." p
  have s2 := verify_plan_body_raises T front back anchor
    "all sequences must have same source." p
  exact ⟨⟨g1.1, g1.2.1, g1.2.2, g2.1, g2.2⟩, ⟨s1.1, s1.2.1, s1.2.2, s2.1, s2.2⟩⟩

/-- Where the code and the spec name the same first failure: when `num_steps+1` does not
wrap around, sizes are supplied exactly for more than one chunk, and the total of every
device is a value of `size_t`. -/
theorem first_violated_check_eq_spec (T : Types) (fixed free : List Nat → Option Nat)
    (anchor : Nat) (p : transfer_plan_t)
    (hs : num_steps_plus_one T p.num_steps = p.num_steps + 1)
    (hz : p.num_chunks ≤ 1 ↔ p.transfer_sizes = [])
    (ht : ∀ d < p.num_gpus, device_total free d p < SIZE_RANGE) :
    first_violated_check T fixed free anchor p
      = spec_first_violated_check fixed free anchor p := by
  unfold first_violated_check spec_first_violated_check
  rw [hs]
  have h4 : (1 < p.num_chunks ∧ p.transfer_sequences.length ≠ p.transfer_sizes.length)
      ↔ (p.transfer_sizes ≠ [] ∧ p.transfer_sequences.length ≠ p.transfer_sizes.length) := by
    constructor
    · rintro ⟨h1, h2⟩
      exact ⟨fun h0 => by have := hz.mpr h0; omega, h2⟩
    · rintro ⟨h1, h2⟩
      refine ⟨?_, h2⟩
      by_contra hle
      exact h1 (hz.mp (by omega))
  have h5 : (List.range p.num_gpus).any
        (fun d => decide (device_total free d p % SIZE_RANGE ≠ p.num_chunks))
      = (List.range p.num_gpus).any
        (fun d => decide (device_total free d p ≠ p.num_chunks)) := by
    rw [Bool.eq_iff_iff, List.any_eq_true, List.any_eq_true]
    constructor
    · rintro ⟨d, hd, hne⟩
      refine ⟨d, hd, ?_⟩
      rw [Nat.mod_eq_of_lt (ht d (List.mem_range.mp hd))] at hne
      exact hne
    · rintro ⟨d, hd, hne⟩
      refine ⟨d, hd, ?_⟩
      rw [Nat.mod_eq_of_lt (ht d (List.mem_range.mp hd))]
      exact hne
  rw [h5]
  simp only [h4]


/-- At every width of the integer types, the Gather plan of two devices with target 0,
one chunk, the sequences `[[0,0],[0,0]]` and the single size 5 is rejected as incomplete,
and the number of sizes is not compared with the number of sequences. -/
theorem size_count_unchecked_for_one_chunk (T : Types) :
    gather_plan_t.create_chunked T true 0 2 [[0, 0], [0, 0]] 1 [5]
      = Except.error (Exn.invalid_argument "transfer plan is incomplete.") ∧
    gather_plan_t.verify_plan T true 0 (staged T 2 [[0, 0], [0, 0]] 1 [5] [0, 0])
      = Except.error (Exn.invalid_argument "transfer plan is incomplete.") ∧
    gather_plan_t.verify_plan T false 0 (staged T 2 [[0, 0], [0, 0]] 1 [5] [0, 0])
      = Except.ok false ∧
    first_violated_check T back front 0 (staged T 2 [[0, 0], [0, 0]] 1 [5] [0, 0])
      = some Failure.IncompletePlan ∧
    spec_first_violated_check back front 0 (staged T 2 [[0, 0], [0, 0]] 1 [5] [0, 0])
      = some Failure.SizeCountMismatch := by
  obtain ⟨g, s⟩ := T
  cases g <;> cases s <;> decide

/-- Counterexample to C11 as stated, here for a 64-bit `num_steps` (it is the same at
every width): for the Gather plan of two devices with target 0, one chunk, the sequences
`[[0,0],[0,0]]` and the single size 5, the first violated check in the order of the claim
is the size count (one size, two sequences), yet fail-fast `verify_plan` and the
constructor raise "transfer plan is incomplete.", the message of the check after it. -/
theorem size_count_mismatch_is_not_raised :
    spec_first_violated_check back front 0
        (staged ⟨UIntType.uint16_t, UIntType.uint64_t⟩ 2 [[0, 0], [0, 0]] 1 [5] [0, 0])
      = some Failure.SizeCountMismatch ∧
    gather_plan_t.verify_plan ⟨UIntType.uint16_t, UIntType.uint64_t⟩ true 0
        (staged ⟨UIntType.uint16_t, UIntType.uint64_t⟩ 2 [[0, 0], [0, 0]] 1 [5] [0, 0])
      = Except.error (Exn.invalid_argument "transfer plan is incomplete.") ∧
    gather_plan_t.create_chunked ⟨UIntType.uint16_t, UIntType.uint64_t⟩ true 0 2
        [[0, 0], [0, 0]] 1 [5]
      = Except.error (Exn.invalid_argument "transfer plan is incomplete.") ∧
    Failure.SizeCountMismatch.what "all sequences must have same target."
      ≠ "transfer plan is incomplete." := by
  have h := size_count_unchecked_for_one_chunk ⟨UIntType.uint16_t, UIntType.uint64_t⟩
  exact ⟨h.2.2.2.2, h.2.1, h.1, by decide⟩

/-! ## Sequences that agree in length and endpoints -/

theorem lengths_ok_congr (T : Types) (ns : Nat) (R : List Nat → List Nat → Prop)
    (hR : ∀ s s2, R s s2 → s.length = s2.length) (seqs seqs2 : List (List Nat))
    (h : List.Forall₂ R seqs seqs2) : lengths_ok T ns seqs = lengths_ok T ns seqs2 := by
  unfold lengths_ok
  induction h with
  | nil => rfl
  | cons hab _ ih => simp only [List.all_cons, ih, hR _ _ hab]

theorem endpoint_loop_congr (te : Bool) (fixed fixed2 : List Nat → Option Nat) (a : Nat)
    (what : String) (R : List Nat → List Nat → Prop)
    (hR : ∀ s s2, R s s2 → fixed s = fixed2 s2) (seqs seqs2 : List (List Nat))
    (h : List.Forall₂ R seqs seqs2) :
    endpoint_loop te fixed a what seqs = endpoint_loop te fixed2 a what seqs2 := by
  induction h with
  | nil => rfl
  | cons hab _ ih => simp only [endpoint_loop, ih, hR _ _ hab]

theorem count_loop_congr (free free2 : List Nat → Option Nat)
    (R : List Nat → List Nat → Prop) (hR : ∀ s s2, R s s2 → free s = free2 s2)
    (seqs seqs2 : List (List Nat)) (h : List.Forall₂ R seqs seqs2) :
    ∀ c, count_loop free seqs c = count_loop free2 seqs2 c := by
  induction h with
  | nil => intro c; rfl
  | cons hab _ ih =>
    intro c
    simp only [count_loop, hR _ _ hab]
    cases free2 _ with
    | none => rfl
    | some e =>
      simp only
      cases add_at c e 1 with
      | none => rfl
      | some c1 => exact ih c1

theorem size_loop_congr (free free2 : List Nat → Option Nat)
    (R : List Nat → List Nat → Prop) (hR : ∀ s s2, R s s2 → free s = free2 s2)
    (seqs seqs2 : List (List Nat)) (h : List.Forall₂ R seqs seqs2) :
    ∀ sizes c, size_loop free seqs sizes c = size_loop free2 seqs2 sizes c := by
  induction h with
  | nil => intro sizes c; simp [size_loop]
  | cons hab _ ih =>
    intro sizes c
    cases sizes with
    | nil => simp [size_loop]
    | cons w ws =>
      simp only [size_loop, hR _ _ hab]
      cases free2 _ with
      | none => rfl
      | some e =>
        simp only
        cases add_at c e w with
        | none => rfl
        | some c1 => exact ih ws c1

/-- `verify_plan` reads of a sequence its length, its fixed endpoint and its free
endpoint only. -/
theorem verify_plan_body_congr (T : Types) (te : Bool)
    (fixed free fixed2 free2 : List Nat → Option Nat) (a : Nat) (what : String)
    (p p2 : transfer_plan_t)
    (hseq : List.Forall₂
      (fun s s2 => s.length = s2.length ∧ fixed s = fixed2 s2 ∧ free s = free2 s2)
      p.transfer_sequences p2.transfer_sequences)
    (h1 : p.num_steps = p2.num_steps) (h2 : p.num_gpus = p2.num_gpus)
    (h3 : p.num_chunks = p2.num_chunks) (h4 : p.transfer_sizes = p2.transfer_sizes) :
    verify_plan_body T te fixed free a what p
      = verify_plan_body T te fixed2 free2 a what p2 := by
  unfold verify_plan_body
  dsimp only
  rw [lengths_ok_congr T p.num_steps _ (fun _ _ h => h.1) _ _ hseq,
    endpoint_loop_congr te fixed fixed2 a what _ (fun _ _ h => h.2.1) _ _ hseq,
    count_loop_congr free free2 _ (fun _ _ h => h.2.2) _ _ hseq,
    size_loop_congr free free2 _ (fun _ _ h => h.2.2) _ _ hseq,
    hseq.length_eq, h1, h2, h3, h4]

theorem forall2_map_reverse (seqs : List (List Nat)) :
    List.Forall₂
      (fun s s2 => s.length = s2.length ∧ front s = back s2 ∧ back s = front s2)
      seqs (seqs.map List.reverse) := by
  induction seqs with
  | nil => exact List.Forall₂.nil
  | cons s rest ih =>
    refine List.Forall₂.cons ⟨?_, ?_, ?_⟩ ih
    · simp
    · simp [front, back]
    · simp [front, back]

/-- Replacing the message of the endpoint check replaces it in the outcome. -/
theorem verify_plan_body_rename (T : Types) (te : Bool) (fixed free : List Nat → Option Nat)
    (a : Nat) (old new : String) (p : transfer_plan_t)
    (hold : ∀ f, f ≠ Failure.EndpointMismatch → f.what old ≠ old) :
    verify_plan_body T te fixed free a new p
      = rename_message old new (verify_plan_body T te fixed free a old p) := by
  rcases verify_plan_body_modes T fixed free a p with h | ⟨f, h⟩ | h
  · rw [h te new, h te old]; rfl
  · rw [h te new, h te old]
    cases te with
    | false => rfl
    | true =>
      simp only [reject, if_true, rename_message]
      by_cases hf : f = Failure.EndpointMismatch
      · subst hf
        simp [Failure.what]
      · rw [if_neg (hold f hf)]
        cases f <;> first | rfl | exact absurd rfl hf
  · rw [h te new, h te old]; rfl

/-- C16 (Gather and Scatter mirror each other). For every anchor and every plan
(sequences empty or not, any `num_gpus`, `num_chunks`, sizes and `num_steps`), under
either error policy: the Scatter `verify_plan` with source = anchor returns on the plan
what the Gather `verify_plan` with target = anchor returns on the plan with every
sequence reversed, the same verdict and the same failing check, the message of the
endpoint check naming the source instead of the target; and the default Scatter plan is
the default Gather plan with every sequence reversed. -/
theorem scatter_mirrors_gather (T : Types) (throw_exceptions : Bool) (anchor : Nat)
    (p : transfer_plan_t) :
    scatter_plan_t.verify_plan T throw_exceptions anchor p
      = rename_message "all sequences must have same target."
          "all sequences must have same source."
          (gather_plan_t.verify_plan T throw_exceptions anchor (reversed p)) ∧
    verdict (fun b : Bool => b) (scatter_plan_t.verify_plan T throw_exceptions anchor p)
      = verdict (fun b : Bool => b)
          (gather_plan_t.verify_plan T throw_exceptions anchor (reversed p)) ∧
    scatter_plan_t.load_default_plan anchor p
      = reversed (gather_plan_t.load_default_plan anchor p) := by
  have hcongr : verify_plan_body T throw_exceptions front back anchor
      "all sequences must have same target." p
      = verify_plan_body T throw_exceptions back front anchor
          "all sequences must have same target." (reversed p) :=
    verify_plan_body_congr T throw_exceptions front back back front anchor _ p (reversed p)
      (forall2_map_reverse p.transfer_sequences) rfl rfl rfl rfl
  have hren : scatter_plan_t.verify_plan T throw_exceptions anchor p
      = rename_message "all sequences must have same target."
          "all sequences must have same source."
          (gather_plan_t.verify_plan T throw_exceptions anchor (reversed p)) := by
    unfold scatter_plan_t.verify_plan gather_plan_t.verify_plan
    rw [← hcongr]
    exact verify_plan_body_rename T throw_exceptions front back anchor _ _ p
      (fun f hf => by cases f <;> first | exact absurd rfl hf | decide)
  refine ⟨hren, ?_, ?_⟩
  · rw [hren]
    cases gather_plan_t.verify_plan T throw_exceptions anchor (reversed p) with
    | ok b => rfl
    | error e => cases e <;> rfl
  · simp [scatter_plan_t.load_default_plan, gather_plan_t.load_default_plan, reversed]

/-- The verdict of a Gather construction with `num_gpus ≥ 2` is the verdict of
`verify_plan` on the staged plan. -/
theorem gather_verdict (T : Types) (te : Bool) (a n : Nat) (seqs : List (List Nat))
    (chunks : Nat) (sizes : List Nat) (hn : 2 ≤ n) :
    ∃ first rest,
      (if seqs.isEmpty then (List.range n).map (fun src => [src, a]) else seqs)
        = first :: rest ∧
      verdict (fun g : gather_plan_t => g.valid)
          (gather_plan_t.create_chunked T te a n seqs chunks sizes)
        = verdict (fun b : Bool => b)
          (gather_plan_t.verify_plan T te a
            (staged T n (if seqs.isEmpty then (List.range n).map (fun src => [src, a]) else seqs)
              (if seqs.isEmpty then 1 else chunks) sizes first)) := by
  obtain ⟨first, rest, hS, heq⟩ := gather_create_chunked_eq T te a n seqs chunks sizes hn
  refine ⟨first, rest, hS, ?_⟩
  rw [heq]
  generalize gather_plan_t.verify_plan T te a _ = r
  cases r with
  | ok v => rfl
  | error e => cases e <;> rfl

/-- The verdict of a Gather construction with `num_gpus < 2` is `true`. -/
theorem gather_verdict_small (T : Types) (te : Bool) (a n : Nat) (seqs : List (List Nat))
    (chunks : Nat) (sizes : List Nat) (hn : n < 2) :
    verdict (fun g : gather_plan_t => g.valid)
      (gather_plan_t.create_chunked T te a n seqs chunks sizes) = some true := by
  have hn2 : ¬ n ≥ 2 := by omega
  simp only [gather_plan_t.create_chunked, gather_plan_t.initialise,
    transfer_plan_t.base_chunked, hn2, if_false, verdict]

theorem gather_same_ends (T : Types) (te : Bool) (a n : Nat) (seqs seqs2 : List (List Nat))
    (chunks : Nat) (sizes : List Nat) (h : List.Forall₂ same_ends seqs seqs2) :
    verdict (fun g : gather_plan_t => g.valid)
        (gather_plan_t.create_chunked T te a n seqs chunks sizes)
      = verdict (fun g : gather_plan_t => g.valid)
        (gather_plan_t.create_chunked T te a n seqs2 chunks sizes) := by
  by_cases hn : 2 ≤ n
  · obtain ⟨f, r, hS, hv⟩ := gather_verdict T te a n seqs chunks sizes hn
    obtain ⟨f2, r2, hS2, hv2⟩ := gather_verdict T te a n seqs2 chunks sizes hn
    rw [hv, hv2]
    cases h with
    | nil =>
      have hf : f = f2 := by
        rw [hS] at hS2
        injection hS2 with h1 _
      rw [hf]
    | cons hab htl =>
      simp only [List.isEmpty_cons, Bool.false_eq_true, if_false] at hS hS2 ⊢
      injection hS with e1 e2
      injection hS2 with e3 e4
      subst e1 e3
      unfold gather_plan_t.verify_plan
      congr 1
      apply verify_plan_body_congr
      · exact List.Forall₂.cons ⟨hab.1, hab.2.2, hab.2.1⟩
          (htl.imp (fun _ _ hx => ⟨hx.1, hx.2.2, hx.2.1⟩))
      · simp only [staged, hab.1]
      · rfl
      · rfl
      · rfl
  · rw [gather_verdict_small T te a n seqs chunks sizes (by omega),
      gather_verdict_small T te a n seqs2 chunks sizes (by omega)]

/-- The verdict of a Scatter construction with `num_gpus ≥ 2` is the verdict of
`verify_plan` on the staged plan. -/
theorem scatter_verdict (T : Types) (te : Bool) (a n : Nat) (seqs : List (List Nat))
    (chunks : Nat) (sizes : List Nat) (hn : 2 ≤ n) :
    ∃ first rest,
      (if seqs.isEmpty then (List.range n).map (fun trg => [a, trg]) else seqs)
        = first :: rest ∧
      verdict (fun g : scatter_plan_t => g.valid)
          (scatter_plan_t.create_chunked T te a n seqs chunks sizes)
        = verdict (fun b : Bool => b)
          (scatter_plan_t.verify_plan T te a
            (staged T n (if seqs.isEmpty then (List.range n).map (fun trg => [a, trg]) else seqs)
              (if seqs.isEmpty then 1 else chunks) sizes first)) := by
  obtain ⟨first, rest, hS, heq⟩ := scatter_create_chunked_eq T te a n seqs chunks sizes hn
  refine ⟨first, rest, hS, ?_⟩
  rw [heq]
  generalize scatter_plan_t.verify_plan T te a _ = r
  cases r with
  | ok v => rfl
  | error e => cases e <;> rfl

/-- The verdict of a Scatter construction with `num_gpus < 2` is `true`. -/
theorem scatter_verdict_small (T : Types) (te : Bool) (a n : Nat) (seqs : List (List Nat))
    (chunks : Nat) (sizes : List Nat) (hn : n < 2) :
    verdict (fun g : scatter_plan_t => g.valid)
      (scatter_plan_t.create_chunked T te a n seqs chunks sizes) = some true := by
  have hn2 : ¬ n ≥ 2 := by omega
  simp only [scatter_plan_t.create_chunked, scatter_plan_t.initialise,
    transfer_plan_t.base_chunked, hn2, if_false, verdict]

theorem scatter_same_ends (T : Types) (te : Bool) (a n : Nat) (seqs seqs2 : List (List Nat))
    (chunks : Nat) (sizes : List Nat) (h : List.Forall₂ same_ends seqs seqs2) :
    verdict (fun g : scatter_plan_t => g.valid)
        (scatter_plan_t.create_chunked T te a n seqs chunks sizes)
      = verdict (fun g : scatter_plan_t => g.valid)
        (scatter_plan_t.create_chunked T te a n seqs2 chunks sizes) := by
  by_cases hn : 2 ≤ n
  · obtain ⟨f, r, hS, hv⟩ := scatter_verdict T te a n seqs chunks sizes hn
    obtain ⟨f2, r2, hS2, hv2⟩ := scatter_verdict T te a n seqs2 chunks sizes hn
    rw [hv, hv2]
    cases h with
    | nil =>
      have hf : f = f2 := by
        rw [hS] at hS2
        injection hS2 with h1 _
      rw [hf]
    | cons hab htl =>
      simp only [List.isEmpty_cons, Bool.false_eq_true, if_false] at hS hS2 ⊢
      injection hS with e1 e2
      injection hS2 with e3 e4
      subst e1 e3
      unfold scatter_plan_t.verify_plan
      congr 1
      apply verify_plan_body_congr
      · exact List.Forall₂.cons ⟨hab.1, hab.2.1, hab.2.2⟩
          (htl.imp (fun _ _ hx => ⟨hx.1, hx.2.1, hx.2.2⟩))
      · simp only [staged, hab.1]
      · rfl
      · rfl
      · rfl
  · rw [scatter_verdict_small T te a n seqs chunks sizes (by omega),
      scatter_verdict_small T te a n seqs2 chunks sizes (by omega)]

/-- C18 (interior hops are ignored). For any two Gather plans, or two Scatter plans,
with the same anchor, `num_gpus`, `num_chunks` and sizes and the same number of
sequences, whose `i`-th sequences have equal length, equal first element and equal last
element for every `i`, construction by either constructor and under either error policy
gives the same verdict: the same flag `valid`, a raise for a raise, undefined for
undefined. -/
theorem interior_hops_ignored (T : Types) (throw_exceptions : Bool) (anchor num_gpus : Nat)
    (transfer_sequences transfer_sequences2 : List (List Nat)) (num_chunks : Nat)
    (transfer_sizes : List Nat)
    (h : List.Forall₂ same_ends transfer_sequences transfer_sequences2) :
    verdict (fun g : gather_plan_t => g.valid)
        (gather_plan_t.create T throw_exceptions anchor num_gpus transfer_sequences)
      = verdict (fun g : gather_plan_t => g.valid)
        (gather_plan_t.create T throw_exceptions anchor num_gpus transfer_sequences2) ∧
    verdict (fun g : gather_plan_t => g.valid)
        (gather_plan_t.create_chunked T throw_exceptions anchor num_gpus transfer_sequences
          num_chunks transfer_sizes)
      = verdict (fun g : gather_plan_t => g.valid)
        (gather_plan_t.create_chunked T throw_exceptions anchor num_gpus transfer_sequences2
          num_chunks transfer_sizes) ∧
    verdict (fun p : scatter_plan_t => p.valid)
        (scatter_plan_t.create T throw_exceptions anchor num_gpus transfer_sequences)
      = verdict (fun p : scatter_plan_t => p.valid)
        (scatter_plan_t.create T throw_exceptions anchor num_gpus transfer_sequences2) ∧
    verdict (fun p : scatter_plan_t => p.valid)
        (scatter_plan_t.create_chunked T throw_exceptions anchor num_gpus transfer_sequences
          num_chunks transfer_sizes)
      = verdict (fun p : scatter_plan_t => p.valid)
        (scatter_plan_t.create_chunked T throw_exceptions anchor num_gpus transfer_sequences2
          num_chunks transfer_sizes) := by
  refine ⟨?_, gather_same_ends T throw_exceptions anchor num_gpus _ _ num_chunks
    transfer_sizes h, ?_, scatter_same_ends T throw_exceptions anchor num_gpus _ _ num_chunks
    transfer_sizes h⟩
  · rw [gather_create_eq, gather_create_eq]
    exact gather_same_ends T throw_exceptions anchor num_gpus _ _ 1 [] h
  · rw [scatter_create_eq, scatter_create_eq]
    exact scatter_same_ends T throw_exceptions anchor num_gpus _ _ 1 [] h

/-- Witness of C18: with two devices and target 0, the two-hop plans
`[[0,1,0],[1,1,0]]` and `[[0,77,0],[1,99,0]]` are both valid, although 77 and 99 are no
devices of the plan. -/
theorem interior_hops_ignored_witness :
    List.Forall₂ same_ends [[0, 1, 0], [1, 1, 0]] [[0, 77, 0], [1, 99, 0]] ∧
    verdict (fun g : gather_plan_t => g.valid)
        (gather_plan_t.create ⟨UIntType.uint16_t, UIntType.uint16_t⟩ true 0 2
          [[0, 77, 0], [1, 99, 0]]) = some true := by
  have hR : List.Forall₂ same_ends [[0, 1, 0], [1, 1, 0]] [[0, 77, 0], [1, 99, 0]] :=
    List.Forall₂.cons ⟨rfl, rfl, rfl⟩ (List.Forall₂.cons ⟨rfl, rfl, rfl⟩ List.Forall₂.nil)
  refine ⟨hR, ?_⟩
  rw [← (interior_hops_ignored ⟨UIntType.uint16_t, UIntType.uint16_t⟩ true 0 2
    [[0, 1, 0], [1, 1, 0]] [[0, 77, 0], [1, 99, 0]] 1 [] hR).1]
  decide

/-! ## Order of the sequences -/

theorem verdict_reject (te : Bool) (what : String) :
    verdict (fun b : Bool => b) (reject te what) = some false := by
  cases te <;> rfl

theorem any_perm {α : Type} (f : α → Bool) (l l2 : List α) (h : l.Perm l2) :
    l.any f = l2.any f := by
  rw [Bool.eq_iff_iff, List.any_eq_true, List.any_eq_true]
  exact ⟨fun ⟨x, hx, hf⟩ => ⟨x, h.mem_iff.mp hx, hf⟩,
    fun ⟨x, hx, hf⟩ => ⟨x, h.mem_iff.mpr hx, hf⟩⟩

theorem any_free_in_range_false (free : List Nat → Option Nat) (n : Nat)
    (seqs : List (List Nat)) :
    seqs.any (fun s => !(free_in_range free n s)) = false ↔
      ∀ s ∈ seqs, ∃ e, free s = some e ∧ e < n := by
  rw [List.any_eq_false]
  constructor
  · intro h s hs
    have := h s hs
    unfold free_in_range at this
    cases hf : free s with
    | none => simp [hf] at this
    | some e =>
      simp only [hf, Bool.not_eq_true', decide_eq_false_iff_not, not_not,
        Bool.not_eq_true, Bool.not_eq_false'] at this
      exact ⟨e, rfl, by simpa using this⟩
  · intro h s hs
    obtain ⟨e, he, hlt⟩ := h s hs
    simp [free_in_range, he, hlt]

/-- The verdict of `verify_plan` is the order-free verdict, for accessors that are
undefined on the empty sequence only. -/
theorem verdict_eq_order_free (T : Types) (te : Bool) (fixed free : List Nat → Option Nat)
    (a : Nat) (what : String) (p : transfer_plan_t)
    (hfix : ∀ s, fixed s = none ↔ s = []) :
    verdict (fun b : Bool => b) (verify_plan_body T te fixed free a what p)
      = order_free_verdict T fixed free a p := by
  unfold verify_plan_body order_free_verdict
  by_cases h1 : p.num_steps < 1
  · simp only [h1, if_true, verdict_reject]
  simp only [h1, if_false]
  rw [lengths_ok_eq_not_any]
  cases h2 : p.transfer_sequences.any
      (fun s => decide (s.length ≠ num_steps_plus_one T p.num_steps)) with
  | true => simp only [Bool.not_true, Bool.not_false, if_true, verdict_reject]
  | false =>
    simp only [Bool.not_false, Bool.not_true, Bool.false_eq_true, if_false]
    have hlen : ∀ s ∈ p.transfer_sequences, s.length = num_steps_plus_one T p.num_steps := by
      intro s hs
      have := List.any_eq_false.mp h2 s hs
      simpa using this
    cases h3 : p.transfer_sequences.any (fun s => decide (fixed s = none)) with
    | true =>
      simp only [if_true]
      obtain ⟨s, hs, hnone⟩ := List.any_eq_true.mp h3
      have hs0 : s = [] := (hfix s).mp (by simpa using hnone)
      have hk : num_steps_plus_one T p.num_steps = 0 := by
        rw [← hlen s hs, hs0]; rfl
      cases hseq : p.transfer_sequences with
      | nil => rw [hseq] at hs; cases hs
      | cons s0 rest =>
        have h0 : s0.length = 0 := by
          rw [← hk]
          exact hlen s0 (by rw [hseq]; exact List.mem_cons_self _ _)
        have h00 : fixed s0 = none := (hfix s0).mpr (List.length_eq_zero.mp h0)
        simp only [endpoint_loop, h00, verdict]
    | false =>
      simp only [Bool.false_eq_true, if_false]
      have hdef : ∀ s ∈ p.transfer_sequences, ∃ e, fixed s = some e := by
        intro s hs
        have := List.any_eq_false.mp h3 s hs
        cases hf : fixed s with
        | none => simp [hf] at this
        | some e => exact ⟨e, rfl⟩
      rcases endpoint_loop_cases fixed a p.transfer_sequences with
        ⟨e1, e2⟩ | ⟨e1, e2⟩ | e1
      · simp only [e1 te what, e2, Bool.false_eq_true, if_false]
        by_cases hch : p.num_chunks ≤ 1
        · have hnot : ¬ (1 < p.num_chunks ∧
              p.transfer_sequences.length ≠ p.transfer_sizes.length) := fun h => by omega
          simp only [hch, if_true, hnot, if_false]
          cases hc : count_loop free p.transfer_sequences (List.replicate p.num_gpus 0) with
          | none =>
            have hany : p.transfer_sequences.any (fun s => !(free_in_range free p.num_gpus s))
                = true := by
              cases hq : p.transfer_sequences.any
                  (fun s => !(free_in_range free p.num_gpus s)) with
              | true => rfl
              | false =>
                obtain ⟨c, hc2⟩ := count_loop_defined free p.num_gpus _
                  ((any_free_in_range_false free _ _).mp hq)
                rw [hc] at hc2
                cases hc2
            simp only [hany, if_true, verdict]
          | some c =>
            obtain ⟨hok, hget⟩ := count_loop_zero free _ _ c hc
            have hany := (any_free_in_range_false free _ _).mpr hok
            have htot : ∀ d, device_total free d p
                = endpoint_count free d p.transfer_sequences :=
              fun d => by simp only [device_total, hch, if_true]
            simp only [hany, Bool.false_eq_true, if_false, htot]
            rw [complete_ok_eq_not_any p.num_gpus p.num_chunks c _ hget]
            cases (List.range p.num_gpus).any
              (fun d => decide (endpoint_count free d p.transfer_sequences % SIZE_RANGE
                ≠ p.num_chunks)) <;> cases te <;> simp [verdict, reject]
        · simp only [hch, if_false]
          by_cases hl : p.transfer_sequences.length = p.transfer_sizes.length
          · simp only [hl, ne_eq, not_true_eq_false, if_false, and_false]
            cases hc : size_loop free p.transfer_sequences p.transfer_sizes
                (List.replicate p.num_gpus 0) with
            | none =>
              have hany : p.transfer_sequences.any
                  (fun s => !(free_in_range free p.num_gpus s)) = true := by
                cases hq : p.transfer_sequences.any
                    (fun s => !(free_in_range free p.num_gpus s)) with
                | true => rfl
                | false =>
                  obtain ⟨c, hc2⟩ := size_loop_defined free p.transfer_sequences
                    p.transfer_sizes (List.replicate p.num_gpus 0)
                    (by simpa using (any_free_in_range_false free _ _).mp hq) (by omega)
                  rw [hc] at hc2
                  cases hc2
              simp only [hany, if_true, verdict]
            | some c =>
              obtain ⟨hok, hget⟩ := size_loop_zero free _ _ _ c hc
              have hany := (any_free_in_range_false free _ _).mpr hok
              have htot : ∀ d, device_total free d p
                  = exact_total free d p.transfer_sequences p.transfer_sizes :=
                fun d => by simp only [device_total, hch, if_false]
              simp only [hany, Bool.false_eq_true, if_false, htot]
              rw [complete_ok_eq_not_any p.num_gpus p.num_chunks c _ hget]
              cases (List.range p.num_gpus).any
                (fun d => decide (exact_total free d p.transfer_sequences p.transfer_sizes
                  % SIZE_RANGE ≠ p.num_chunks)) <;> cases te <;> simp [verdict, reject]
          · have hyes : 1 < p.num_chunks ∧
                p.transfer_sequences.length ≠ p.transfer_sizes.length := ⟨by omega, hl⟩
            simp only [hl, ne_eq, not_false_eq_true, if_true, hyes, and_self,
              verdict_reject]
      · simp only [e1 te what, e2, if_true, verdict_reject]
      · rcases endpoint_loop_defined te fixed a what _ hdef with hd | hd
        · rw [e1 te what] at hd; cases hd
        · rw [e1 te what] at hd
          injection hd with hd
          exact absurd hd.symm (reject_ne_undefined te what)

theorem front_none_iff (s : List Nat) : front s = none ↔ s = [] := by
  cases s <;> simp [front]

theorem back_none_iff (s : List Nat) : back s = none ↔ s = [] := by
  cases s <;> simp [back]

theorem device_total_perm (free : List Nat → Option Nat) (d : Nat) (p p2 : transfer_plan_t)
    (hc : p2.num_chunks = p.num_chunks)
    (hperm : p.transfer_sequences.Perm p2.transfer_sequences)
    (hzip : 1 < p.num_chunks →
      (p.transfer_sequences.zip p.transfer_sizes).Perm
        (p2.transfer_sequences.zip p2.transfer_sizes)) :
    device_total free d p = device_total free d p2 := by
  unfold device_total
  rw [hc]
  by_cases h : p.num_chunks ≤ 1
  · simp only [h, if_true, endpoint_count]
    exact hperm.countP_eq _
  · simp only [h, if_false, exact_total]
    exact (((hzip (by omega)).filter _).map _).sum_eq

/-- The order-free verdict does not depend on the order of the sequences, when the
sizes (if they are used) are permuted along. -/
theorem order_free_verdict_perm (T : Types) (fixed free : List Nat → Option Nat) (a : Nat)
    (p p2 : transfer_plan_t)
    (hg : p2.num_gpus = p.num_gpus) (hs : p2.num_steps = p.num_steps)
    (hc : p2.num_chunks = p.num_chunks)
    (hperm : p.transfer_sequences.Perm p2.transfer_sequences)
    (hlen : p2.transfer_sizes.length = p.transfer_sizes.length)
    (hzip : 1 < p.num_chunks → p.transfer_sequences.length = p.transfer_sizes.length →
      (p.transfer_sequences.zip p.transfer_sizes).Perm
        (p2.transfer_sequences.zip p2.transfer_sizes)) :
    order_free_verdict T fixed free a p = order_free_verdict T fixed free a p2 := by
  unfold order_free_verdict
  rw [hg, hs, hc, hlen, ← any_perm _ _ _ hperm, ← any_perm _ _ _ hperm,
    ← any_perm _ _ _ hperm, ← any_perm _ _ _ hperm, ← hperm.length_eq]
  by_cases h1 : p.num_steps < 1
  · simp only [h1, if_true]
  simp only [h1, if_false]
  split
  · rfl
  split
  · rfl
  split
  · rfl
  by_cases h5 : 1 < p.num_chunks ∧ p.transfer_sequences.length ≠ p.transfer_sizes.length
  · rw [if_pos h5, if_pos h5]
  rw [if_neg h5, if_neg h5]
  split
  · rfl
  have hz : 1 < p.num_chunks →
      (p.transfer_sequences.zip p.transfer_sizes).Perm
        (p2.transfer_sequences.zip p2.transfer_sizes) := by
    intro hlt
    apply hzip hlt
    by_contra hne
    exact h5 ⟨hlt, hne⟩
  have ht : ∀ d, device_total free d p2 = device_total free d p :=
    fun d => (device_total_perm free d p p2 hc hperm hz).symm
  simp only [ht]

theorem order_free_verdict_mixed (T : Types) (fixed free : List Nat → Option Nat) (a : Nat)
    (p : transfer_plan_t)
    (hmix : ∃ s1 ∈ p.transfer_sequences, ∃ s2 ∈ p.transfer_sequences,
      s1.length ≠ s2.length) :
    order_free_verdict T fixed free a p = some false := by
  unfold order_free_verdict
  by_cases h1 : p.num_steps < 1
  · simp only [h1, if_true]
  simp only [h1, if_false]
  obtain ⟨s, hs, hne⟩ := mixed_lengths_bad p.transfer_sequences
    (num_steps_plus_one T p.num_steps) hmix
  have hany : p.transfer_sequences.any
      (fun s => decide (s.length ≠ num_steps_plus_one T p.num_steps)) = true :=
    List.any_eq_true.mpr ⟨s, hs, by simpa using hne⟩
  simp only [hany, if_true]

/-- The verdict of `verify_plan` on the plan that a constructor stages does not depend on
the order of the sequences, although `num_steps` is derived from the first of them. -/
theorem staged_verdict_perm (T : Types) (te : Bool) (fixed free : List Nat → Option Nat)
    (a : Nat) (what : String) (n chunks : Nat)
    (first first2 : List Nat) (rest rest2 : List (List Nat)) (sizes sizes2 : List Nat)
    (hfix : ∀ s, fixed s = none ↔ s = [])
    (hperm : (first :: rest).Perm (first2 :: rest2))
    (hlen : sizes2.length = sizes.length)
    (hzip : 1 < chunks → (first :: rest).length = sizes.length →
      ((first :: rest).zip sizes).Perm ((first2 :: rest2).zip sizes2)) :
    verdict (fun b : Bool => b)
        (verify_plan_body T te fixed free a what
          (staged T n (first :: rest) chunks sizes first))
      = verdict (fun b : Bool => b)
        (verify_plan_body T te fixed free a what
          (staged T n (first2 :: rest2) chunks sizes2 first2)) := by
  rw [verdict_eq_order_free T te fixed free a what _ hfix,
    verdict_eq_order_free T te fixed free a what _ hfix]
  by_cases hu : ∀ s ∈ first :: rest, s.length = first.length
  · have h2 : first2.length = first.length :=
      hu first2 (hperm.mem_iff.mpr (List.mem_cons_self _ _))
    exact order_free_verdict_perm T fixed free a _ _ rfl
      (by simp only [staged, h2]) rfl hperm hlen hzip
  · have hmix : ∃ s1 ∈ first :: rest, ∃ s2 ∈ first :: rest, s1.length ≠ s2.length := by
      by_contra hno
      apply hu
      intro s hs
      by_contra hne
      exact hno ⟨s, hs, first, List.mem_cons_self _ _, hne⟩
    have hmix2 : ∃ s1 ∈ first2 :: rest2, ∃ s2 ∈ first2 :: rest2,
        s1.length ≠ s2.length := by
      obtain ⟨s1, h1, s2, h2, hne⟩ := hmix
      exact ⟨s1, hperm.mem_iff.mp h1, s2, hperm.mem_iff.mp h2, hne⟩
    rw [order_free_verdict_mixed T fixed free a _ hmix,
      order_free_verdict_mixed T fixed free a _ hmix2]

theorem gather_order (T : Types) (te : Bool) (a n : Nat) (seqs seqs2 : List (List Nat))
    (chunks : Nat) (sizes sizes2 : List Nat)
    (hperm : seqs.Perm seqs2) (hlen : sizes2.length = sizes.length)
    (hzip : seqs.length = sizes.length → (seqs.zip sizes).Perm (seqs2.zip sizes2)) :
    verdict (fun g : gather_plan_t => g.valid)
        (gather_plan_t.create_chunked T te a n seqs chunks sizes)
      = verdict (fun g : gather_plan_t => g.valid)
        (gather_plan_t.create_chunked T te a n seqs2 chunks sizes2) := by
  by_cases hn : 2 ≤ n
  · obtain ⟨f, r, hS, hv⟩ := gather_verdict T te a n seqs chunks sizes hn
    obtain ⟨f2, r2, hS2, hv2⟩ := gather_verdict T te a n seqs2 chunks sizes2 hn
    rw [hv, hv2, hS, hS2]
    unfold gather_plan_t.verify_plan
    have he : seqs2.isEmpty = seqs.isEmpty := by
      cases seqs with
      | nil => rw [List.Perm.nil_eq hperm]
      | cons x xs =>
        cases seqs2 with
        | nil => exact absurd hperm.symm.nil_eq (by simp)
        | cons y ys => rfl
    rw [he]
    cases hemp : seqs.isEmpty with
    | true =>
      rw [he, hemp] at hS2
      rw [hemp] at hS
      simp only [if_true] at hS hS2
      apply staged_verdict_perm T te back front a _ n 1 f f2 r r2 sizes sizes2
        back_none_iff
      · rw [← hS, ← hS2]
      · exact hlen
      · intro h; omega
    | false =>
      rw [he, hemp] at hS2
      rw [hemp] at hS
      simp only [Bool.false_eq_true, if_false] at hS hS2
      apply staged_verdict_perm T te back front a _ n chunks f f2 r r2 sizes sizes2
        back_none_iff
      · rw [← hS, ← hS2]; exact hperm
      · exact hlen
      · intro _ h
        rw [← hS, ← hS2]
        rw [← hS] at h
        exact hzip h
  · rw [gather_verdict_small T te a n seqs chunks sizes (by omega),
      gather_verdict_small T te a n seqs2 chunks sizes2 (by omega)]

theorem scatter_order (T : Types) (te : Bool) (a n : Nat) (seqs seqs2 : List (List Nat))
    (chunks : Nat) (sizes sizes2 : List Nat)
    (hperm : seqs.Perm seqs2) (hlen : sizes2.length = sizes.length)
    (hzip : seqs.length = sizes.length → (seqs.zip sizes).Perm (seqs2.zip sizes2)) :
    verdict (fun p : scatter_plan_t => p.valid)
        (scatter_plan_t.create_chunked T te a n seqs chunks sizes)
      = verdict (fun p : scatter_plan_t => p.valid)
        (scatter_plan_t.create_chunked T te a n seqs2 chunks sizes2) := by
  by_cases hn : 2 ≤ n
  · obtain ⟨f, r, hS, hv⟩ := scatter_verdict T te a n seqs chunks sizes hn
    obtain ⟨f2, r2, hS2, hv2⟩ := scatter_verdict T te a n seqs2 chunks sizes2 hn
    rw [hv, hv2, hS, hS2]
    unfold scatter_plan_t.verify_plan
    have he : seqs2.isEmpty = seqs.isEmpty := by
      cases seqs with
      | nil => rw [List.Perm.nil_eq hperm]
      | cons x xs =>
        cases seqs2 with
        | nil => exact absurd hperm.symm.nil_eq (by simp)
        | cons y ys => rfl
    rw [he]
    cases hemp : seqs.isEmpty with
    | true =>
      rw [he, hemp] at hS2
      rw [hemp] at hS
      simp only [if_true] at hS hS2
      apply staged_verdict_perm T te front back a _ n 1 f f2 r r2 sizes sizes2
        front_none_iff
      · rw [← hS, ← hS2]
      · exact hlen
      · intro h; omega
    | false =>
      rw [he, hemp] at hS2
      rw [hemp] at hS
      simp only [Bool.false_eq_true, if_false] at hS hS2
      apply staged_verdict_perm T te front back a _ n chunks f f2 r r2 sizes sizes2
        front_none_iff
      · rw [← hS, ← hS2]; exact hperm
      · exact hlen
      · intro _ h
        rw [← hS, ← hS2]
        rw [← hS] at h
        exact hzip h
  · rw [scatter_verdict_small T te a n seqs chunks sizes (by omega),
      scatter_verdict_small T te a n seqs2 chunks sizes2 (by omega)]


/-- C14 (order independence). For every Gather or Scatter plan, by either constructor and
under either error policy: when the transfer sequences are permuted, the sizes keep their
number and, where there are as many sizes as sequences, the pairs of a sequence and its
size are permuted along, construction gives the same verdict as for the original order:
the same flag `valid`, a raise for a raise, undefined for undefined. (The message of a
raise may differ, since `num_steps` is derived from the first sequence.) -/
theorem order_independence (T : Types) (throw_exceptions : Bool) (anchor num_gpus : Nat)
    (transfer_sequences transfer_sequences2 : List (List Nat)) (num_chunks : Nat)
    (transfer_sizes transfer_sizes2 : List Nat)
    (hperm : transfer_sequences.Perm transfer_sequences2)
    (hlen : transfer_sizes2.length = transfer_sizes.length)
    (hzip : transfer_sequences.length = transfer_sizes.length →
      (transfer_sequences.zip transfer_sizes).Perm
        (transfer_sequences2.zip transfer_sizes2)) :
    verdict (fun g : gather_plan_t => g.valid)
        (gather_plan_t.create T throw_exceptions anchor num_gpus transfer_sequences)
      = verdict (fun g : gather_plan_t => g.valid)
        (gather_plan_t.create T throw_exceptions anchor num_gpus transfer_sequences2) ∧
    verdict (fun g : gather_plan_t => g.valid)
        (gather_plan_t.create_chunked T throw_exceptions anchor num_gpus transfer_sequences
          num_chunks transfer_sizes)
      = verdict (fun g : gather_plan_t => g.valid)
        (gather_plan_t.create_chunked T throw_exceptions anchor num_gpus transfer_sequences2
          num_chunks transfer_sizes2) ∧
    verdict (fun p : scatter_plan_t => p.valid)
        (scatter_plan_t.create T throw_exceptions anchor num_gpus transfer_sequences)
      = verdict (fun p : scatter_plan_t => p.valid)
        (scatter_plan_t.create T throw_exceptions anchor num_gpus transfer_sequences2) ∧
    verdict (fun p : scatter_plan_t => p.valid)
        (scatter_plan_t.create_chunked T throw_exceptions anchor num_gpus transfer_sequences
          num_chunks transfer_sizes)
      = verdict (fun p : scatter_plan_t => p.valid)
        (scatter_plan_t.create_chunked T throw_exceptions anchor num_gpus transfer_sequences2
          num_chunks transfer_sizes2) := by
  refine ⟨?_, gather_order T throw_exceptions anchor num_gpus _ _ num_chunks
    transfer_sizes transfer_sizes2 hperm hlen hzip, ?_,
    scatter_order T throw_exceptions anchor num_gpus _ _ num_chunks
    transfer_sizes transfer_sizes2 hperm hlen hzip⟩
  · rw [gather_create_eq, gather_create_eq]
    exact gather_order T throw_exceptions anchor num_gpus _ _ 1 [] [] hperm rfl
      (fun h => by
        have h0 : transfer_sequences = [] := List.length_eq_zero.mp h
        subst h0
        rw [List.Perm.nil_eq hperm])
  · rw [scatter_create_eq, scatter_create_eq]
    exact scatter_order T throw_exceptions anchor num_gpus _ _ 1 [] [] hperm rfl
      (fun h => by
        have h0 : transfer_sequences = [] := List.length_eq_zero.mp h
        subst h0
        rw [List.Perm.nil_eq hperm])

/-- Witness of C14: the weighted Gather plan `[[0,1],[1,1],[1,1]]` with sizes `[3,1,2]`
on two devices with three chunks is valid, and so is the rotated plan
`[[1,1],[0,1],[1,1]]` with sizes `[2,3,1]`. -/
theorem order_independence_witness :
    [[0, 1], [1, 1], [1, 1]].Perm [[1, 1], [0, 1], [1, 1]] ∧
    verdict (fun g : gather_plan_t => g.valid)
        (gather_plan_t.create_chunked ⟨UIntType.uint16_t, UIntType.uint16_t⟩ true 1 2
          [[1, 1], [0, 1], [1, 1]] 3 [2, 3, 1]) = some true := by
  have hp : [[0, 1], [1, 1], [1, 1]].Perm [[1, 1], [0, 1], [1, 1]] := by decide
  have hz : ([[0, 1], [1, 1], [1, 1]].zip [3, 1, 2]).Perm
      ([[1, 1], [0, 1], [1, 1]].zip [2, 3, 1]) := by decide
  refine ⟨hp, ?_⟩
  rw [← (order_independence ⟨UIntType.uint16_t, UIntType.uint16_t⟩ true 1 2
    [[0, 1], [1, 1], [1, 1]] [[1, 1], [0, 1], [1, 1]] 3 [3, 1, 2] [2, 3, 1] hp rfl
    (fun _ => hz)).2.1]
  decide

/-! ## The free endpoints of a valid plan of one chunk -/

theorem map_free_eq (free : List Nat → Option Nat) (seqs : List (List Nat))
    (hr : ∀ s ∈ seqs, ∃ e, free s = some e) :
    seqs.map free = (seqs.filterMap free).map some := by
  induction seqs with
  | nil => rfl
  | cons s rest ih =>
    obtain ⟨e, he⟩ := hr s (List.mem_cons_self _ _)
    have ih2 := ih (fun x hx => hr x (List.mem_cons_of_mem _ hx))
    simp only [List.map_cons, List.filterMap_cons, he, ih2]

theorem count_filterMap_free (free : List Nat → Option Nat) (d : Nat)
    (seqs : List (List Nat)) :
    (seqs.filterMap free).count d = endpoint_count free d seqs := by
  unfold endpoint_count
  induction seqs with
  | nil => rfl
  | cons s rest ih =>
    cases he : free s with
    | none =>
      simp only [List.filterMap_cons, he, List.countP_cons, ih]
      simp
    | some e =>
      simp only [List.filterMap_cons, he, List.count_cons, List.countP_cons, ih]
      by_cases hd : e = d
      · simp [hd]
      · have hd2 : ¬ (some e = some d) := fun h => hd (Option.some.inj h)
        simp [hd, hd2]

/-- When every free endpoint is a device and every device is the free endpoint of
exactly one sequence, the free endpoints in order are a permutation of the devices. -/
theorem free_endpoints_perm (free : List Nat → Option Nat) (n : Nat)
    (seqs : List (List Nat))
    (hr : ∀ s ∈ seqs, ∃ e, free s = some e ∧ e < n)
    (hc : ∀ d < n, endpoint_count free d seqs = 1) :
    seqs.length = n ∧
    ∃ E : List Nat, seqs.map free = E.map some ∧ E.Perm (List.range n) := by
  have hm := map_free_eq free seqs (fun s hs => (hr s hs).imp (fun _ h => h.1))
  have hp : (seqs.filterMap free).Perm (List.range n) := by
    rw [List.perm_iff_count]
    intro d
    rw [count_filterMap_free]
    by_cases hd : d < n
    · rw [hc d hd]
      exact (List.count_eq_one_of_mem (List.nodup_range n) (List.mem_range.mpr hd)).symm
    · rw [List.count_eq_zero_of_not_mem (fun h => hd (List.mem_range.mp h))]
      unfold endpoint_count
      rw [List.countP_eq_zero]
      intro s hs
      obtain ⟨e, he, hlt⟩ := hr s hs
      simp only [he, decide_eq_true_eq, Option.some.injEq]
      omega
  refine ⟨?_, _, hm, hp⟩
  have h1 : (seqs.map free).length = ((seqs.filterMap free).map some).length := by rw [hm]
  rw [List.length_map, List.length_map, hp.length_eq, List.length_range] at h1
  exact h1

/-- C19 (the free endpoints are a permutation). For `num_gpus ≥ 2` and under either
error policy: in every Gather or Scatter plan that a constructor returns with
`valid == true` and `num_chunks == 1`, and that holds fewer than 2^64 sequences (what
`size()` of a vector can report), the number of transfer sequences is exactly
`num_gpus`, every sequence has a free endpoint (first element for Gather, last element
for Scatter), and the free endpoints of the sequences, in order, form a permutation of
`0 .. num_gpus - 1`. That every free endpoint is below `num_gpus` holds of every plan
that a constructor returns with `num_gpus ≥ 2`: construction is undefined otherwise. -/
theorem free_endpoints_permutation (T : Types) (throw_exceptions : Bool)
    (anchor num_gpus : Nat) (transfer_sequences : List (List Nat)) (num_chunks : Nat)
    (transfer_sizes : List Nat) (h : 2 ≤ num_gpus) :
    (∀ g, gather_plan_t.create T throw_exceptions anchor num_gpus transfer_sequences
        = Except.ok g → g.valid = true → g.transfer_sequences.length < SIZE_RANGE →
      g.num_chunks = 1 ∧ g.transfer_sequences.length = num_gpus ∧
      ∃ E : List Nat, g.transfer_sequences.map front = E.map some ∧
        E.Perm (List.range num_gpus)) ∧
    (∀ g, gather_plan_t.create_chunked T throw_exceptions anchor num_gpus transfer_sequences
        num_chunks transfer_sizes = Except.ok g → g.valid = true → g.num_chunks = 1 →
      g.transfer_sequences.length < SIZE_RANGE →
      g.transfer_sequences.length = num_gpus ∧
      ∃ E : List Nat, g.transfer_sequences.map front = E.map some ∧
        E.Perm (List.range num_gpus)) ∧
    (∀ p, scatter_plan_t.create T throw_exceptions anchor num_gpus transfer_sequences
        = Except.ok p → p.valid = true → p.transfer_sequences.length < SIZE_RANGE →
      p.num_chunks = 1 ∧ p.transfer_sequences.length = num_gpus ∧
      ∃ E : List Nat, p.transfer_sequences.map back = E.map some ∧
        E.Perm (List.range num_gpus)) ∧
    (∀ p, scatter_plan_t.create_chunked T throw_exceptions anchor num_gpus transfer_sequences
        num_chunks transfer_sizes = Except.ok p → p.valid = true → p.num_chunks = 1 →
      p.transfer_sequences.length < SIZE_RANGE →
      p.transfer_sequences.length = num_gpus ∧
      ∃ E : List Nat, p.transfer_sequences.map back = E.map some ∧
        E.Perm (List.range num_gpus)) := by
  refine ⟨?_, ?_, ?_, ?_⟩
  · intro g hg hv hlen
    have f := gather_valid_facts T throw_exceptions anchor num_gpus transfer_sequences 1 []
      g h hg hv
    have hc : g.num_chunks = 1 := by rw [f.2.2.2.2.1]; split <;> rfl
    refine ⟨hc, free_endpoints_perm front num_gpus _ f.2.2.2.2.2.2.2.2.2.1 (fun d hd => ?_)⟩
    have h5 := f.2.2.2.2.2.2.2.2.2.2.1 (by omega) d hd
    rw [hc] at h5
    exact count_eq_one_of_mod _ _ (endpoint_count_le _ _ _) hlen h5
  · intro g hg hv hc hlen
    have f := gather_valid_facts T throw_exceptions anchor num_gpus transfer_sequences
      num_chunks transfer_sizes g h hg hv
    refine free_endpoints_perm front num_gpus _ f.2.2.2.2.2.2.2.2.2.1 (fun d hd => ?_)
    have h5 := f.2.2.2.2.2.2.2.2.2.2.1 (by omega) d hd
    rw [hc] at h5
    exact count_eq_one_of_mod _ _ (endpoint_count_le _ _ _) hlen h5
  · intro g hg hv hlen
    have f := scatter_valid_facts T throw_exceptions anchor num_gpus transfer_sequences 1 []
      g h hg hv
    have hc : g.num_chunks = 1 := by rw [f.2.2.2.2.1]; split <;> rfl
    refine ⟨hc, free_endpoints_perm back num_gpus _ f.2.2.2.2.2.2.2.2.2.1 (fun d hd => ?_)⟩
    have h5 := f.2.2.2.2.2.2.2.2.2.2.1 (by omega) d hd
    rw [hc] at h5
    exact count_eq_one_of_mod _ _ (endpoint_count_le _ _ _) hlen h5
  · intro g hg hv hc hlen
    have f := scatter_valid_facts T throw_exceptions anchor num_gpus transfer_sequences
      num_chunks transfer_sizes g h hg hv
    refine free_endpoints_perm back num_gpus _ f.2.2.2.2.2.2.2.2.2.1 (fun d hd => ?_)
    have h5 := f.2.2.2.2.2.2.2.2.2.2.1 (by omega) d hd
    rw [hc] at h5
    exact count_eq_one_of_mod _ _ (endpoint_count_le _ _ _) hlen h5

/-- Witness of C19: the Scatter plan of three devices with source 0 and the sequences
`[[0,2],[0,0],[0,1]]` has three sequences, and their last elements 2, 0, 1 are a
permutation of 0, 1, 2. -/
theorem free_endpoints_permutation_witness :
    ∃ p, scatter_plan_t.create ⟨UIntType.uint16_t, UIntType.uint16_t⟩ false 0 3
        [[0, 2], [0, 0], [0, 1]] = Except.ok p ∧ p.valid = true ∧
      p.transfer_sequences.length < SIZE_RANGE ∧ p.num_chunks = 1 ∧
      p.transfer_sequences.length = 3 ∧
      ∃ E : List Nat, p.transfer_sequences.map back = E.map some ∧
        E.Perm (List.range 3) :=
  have hp : scatter_plan_t.create ⟨UIntType.uint16_t, UIntType.uint16_t⟩ false 0 3
      [[0, 2], [0, 0], [0, 1]]
      = Except.ok
        { num_gpus := 3, num_steps := 1, num_chunks := 1,
          transfer_sequences := [[0, 2], [0, 0], [0, 1]], transfer_sizes := [],
          synchronized := false, valid := true, source := 0 } := by decide
  have hl : ([[0, 2], [0, 0], [0, 1]] : List (List Nat)).length < SIZE_RANGE := by decide
  ⟨_, hp, rfl, hl,
    (free_endpoints_permutation ⟨UIntType.uint16_t, UIntType.uint16_t⟩ false 0 3
      [[0, 2], [0, 0], [0, 1]] 1 [] (by decide)).2.2.1 _ hp rfl hl⟩

/-! ## The helper `trim_plan` -/

/-- The scan with a target that is set: it runs over the entries equal to the target
and stops at the first other entry. -/
theorem trim_scan_target (M t : Nat) (ht : t ≠ M) (r : List Nat) :
    (trim_scan M r t = none ∧ ∃ k, r = List.replicate k t) ∨
    (∃ k x rest, x ≠ t ∧ r = List.replicate k t ++ x :: rest ∧
      trim_scan M r t = some (rest.length + 2)) := by
  induction r with
  | nil => exact Or.inl ⟨rfl, 0, rfl⟩
  | cons y r ih =>
    by_cases hy : t = y
    · subst hy
      have hstep : trim_scan M (t :: r) t = trim_scan M r t := by
        simp only [trim_scan, ht, if_false, ne_eq, not_true_eq_false]
      rcases ih with ⟨h1, k, hk⟩ | ⟨k, x, rest, hx, hr, hs⟩
      · exact Or.inl ⟨hstep.trans h1, k + 1, by rw [hk, List.replicate_succ]⟩
      · exact Or.inr ⟨k + 1, x, rest, hx, by rw [hr, List.replicate_succ]; rfl,
          hstep.trans hs⟩
    · refine Or.inr ⟨0, y, r, fun h => hy h.symm, rfl, ?_⟩
      simp only [trim_scan, ht, if_false, ne_eq, hy, not_false_eq_true, if_true]

/-- The scan from the back of a sequence: it runs over the sentinels, takes the first
other entry as target, runs over the entries equal to it and stops at the first other
entry. -/
theorem trim_scan_sentinel (M : Nat) (r : List Nat) :
    (trim_scan M r M = none ∧
      ∃ m k t, t ≠ M ∧ r = List.replicate m M ++ List.replicate k t) ∨
    (∃ m k t x rest, t ≠ M ∧ x ≠ t ∧
      r = List.replicate m M ++ (List.replicate (k + 1) t ++ x :: rest) ∧
      trim_scan M r M = some (rest.length + 2)) := by
  induction r with
  | nil => exact Or.inl ⟨rfl, 0, 0, M + 1, by omega, rfl⟩
  | cons y r ih =>
    have hstep : trim_scan M (y :: r) M = trim_scan M r y := by
      simp only [trim_scan, if_true]
    by_cases hy : y = M
    · subst hy
      rcases ih with ⟨h1, m, k, t, ht, hr⟩ | ⟨m, k, t, x, rest, ht, hx, hr, hs⟩
      · exact Or.inl ⟨hstep.trans h1, m + 1, k, t, ht, by rw [hr, List.replicate_succ]; rfl⟩
      · exact Or.inr ⟨m + 1, k, t, x, rest, ht, hx, by rw [hr, List.replicate_succ]; rfl,
          hstep.trans hs⟩
    · rcases trim_scan_target M y hy r with ⟨h1, k, hk⟩ | ⟨k, x, rest, hx, hr, hs⟩
      · exact Or.inl ⟨hstep.trans h1, 0, k + 1, y, hy, by rw [hk, List.replicate_succ]; rfl⟩
      · exact Or.inr ⟨0, k, y, x, rest, hy, hx, by rw [hr, List.replicate_succ]; rfl,
          hstep.trans hs⟩

theorem resize_take (pre rest : List Nat) :
    resize (pre ++ rest) pre.length = pre := by
  unfold resize
  rw [List.take_left, List.length_append]
  have h : pre.length - (pre.length + rest.length) = 0 := by omega
  rw [h]
  simp

/-- A sequence that ends in two different entries, the last of them no sentinel, is
left as it is. -/
theorem trim_sequence_trimmed (T : Types) (pre : List Nat) (x t : Nat)
    (hx : x ≠ t) (ht : t ≠ gpu_id_sentinel T) :
    trim_sequence T (pre ++ [x, t]) = pre ++ [x, t] := by
  unfold trim_sequence
  have hr : (pre ++ [x, t]).reverse = t :: x :: pre.reverse := by simp
  have hx2 : ¬ t = x := fun h => hx h.symm
  rw [hr]
  simp only [trim_scan, if_true, ht, if_false, ne_eq, hx2, not_false_eq_true]
  have hl : pre.reverse.length + 1 + 1 = (pre ++ [x, t]).length := by simp
  rw [hl]
  have := resize_take (pre ++ [x, t]) []
  rw [List.append_nil] at this
  exact this

/-- What `trim_plan` does to a sequence. Either the sequence is some number of copies
of one identifier followed by some number of sentinels, and is left as it is; or it is
`pre ++ [x, t]` followed by copies of `t` and then sentinels, with `x ≠ t` and `t` no
sentinel, and is cut down to `pre ++ [x, t]`. -/
theorem trim_sequence_cases (T : Types) (s : List Nat) :
    (trim_sequence T s = s ∧
      ∃ k m t, t ≠ gpu_id_sentinel T ∧
        s = List.replicate k t ++ List.replicate m (gpu_id_sentinel T)) ∨
    (∃ pre x t k m, x ≠ t ∧ t ≠ gpu_id_sentinel T ∧
      s = (pre ++ [x, t]) ++ (List.replicate k t ++ List.replicate m (gpu_id_sentinel T)) ∧
      trim_sequence T s = pre ++ [x, t]) := by
  have hs : s = s.reverse.reverse := (List.reverse_reverse s).symm
  rcases trim_scan_sentinel (gpu_id_sentinel T) s.reverse with
    ⟨h1, m, k, t, ht, hr⟩ | ⟨m, k, t, x, rest, ht, hx, hr, hsc⟩
  · left
    refine ⟨by simp only [trim_sequence, h1], k, m, t, ht, ?_⟩
    rw [hs, hr]
    simp
  · right
    have hform : s = (rest.reverse ++ [x, t]) ++
        (List.replicate k t ++ List.replicate m (gpu_id_sentinel T)) := by
      rw [hs, hr]
      simp [List.replicate_succ']
    refine ⟨rest.reverse, x, t, k, m, hx, ht, hform, ?_⟩
    unfold trim_sequence
    rw [hsc]
    simp only
    have hl : rest.length + 2 = (rest.reverse ++ [x, t]).length := by simp
    rw [hl]
    conv_lhs => rw [hform]
    exact resize_take _ _

theorem trim_sequence_idem (T : Types) (s : List Nat) :
    trim_sequence T (trim_sequence T s) = trim_sequence T s := by
  rcases trim_sequence_cases T s with ⟨h, _⟩ | ⟨pre, x, t, k, m, hx, ht, _, h⟩
  · rw [h, h]
  · rw [h]
    exact trim_sequence_trimmed T pre x t hx ht

theorem trim_sequence_initial (T : Types) (s : List Nat) :
    ∃ rest, s = trim_sequence T s ++ rest := by
  rcases trim_sequence_cases T s with ⟨h, _⟩ | ⟨pre, x, t, k, m, hx, ht, hs, h⟩
  · exact ⟨[], by rw [h, List.append_nil]⟩
  · exact ⟨_, by rw [h]; exact hs⟩

/-- What the disabled helper `trim_plan` does, as the code has it. `trim_plan` replaces
every transfer sequence by its trimmed form and leaves the other members as they are, and
applying it twice gives the same plan as applying it once. For every sequence `s`: the
trimmed form is an initial segment of `s` (never longer), and trimming it again changes
nothing. When `s` is `pre ++ [x, t]` followed by copies of `t` and then by sentinels,
with `x ≠ t` and `t` no sentinel, the result is `pre ++ [x, t]`. Every other sequence is
some number of copies of one identifier followed by some number of sentinels; on these
the loop runs to its end without a call of `resize` and the sequence stays as it is. -/
theorem trim_plan_effect (T : Types) (p : transfer_plan_t) :
    trim_plan T (trim_plan T p) = trim_plan T p ∧
    trim_plan T p = { p with transfer_sequences := p.transfer_sequences.map (trim_sequence T) } ∧
    ∀ s : List Nat,
      (∃ rest, s = trim_sequence T s ++ rest) ∧
      (trim_sequence T s).length ≤ s.length ∧
      trim_sequence T (trim_sequence T s) = trim_sequence T s ∧
      ((trim_sequence T s = s ∧
          ∃ k m t, t ≠ gpu_id_sentinel T ∧
            s = List.replicate k t ++ List.replicate m (gpu_id_sentinel T)) ∨
        (∃ pre x t k m, x ≠ t ∧ t ≠ gpu_id_sentinel T ∧
          s = (pre ++ [x, t]) ++
            (List.replicate k t ++ List.replicate m (gpu_id_sentinel T)) ∧
          trim_sequence T s = pre ++ [x, t])) := by
  refine ⟨?_, rfl, fun s => ⟨trim_sequence_initial T s, ?_, trim_sequence_idem T s,
    trim_sequence_cases T s⟩⟩
  · simp only [trim_plan, List.map_map]
    congr 1
    apply List.map_congr_left
    intro s _
    exact trim_sequence_idem T s
  · obtain ⟨rest, h⟩ := trim_sequence_initial T s
    conv_rhs => rw [h]
    rw [List.length_append]
    omega

/-- C20, the code at the failing inputs, for every width of `gpu_id_t`. The comments of
`trim_plan` announce "trim trailing -1" and "trim trailing items == target", but a
sequence made of copies of one identifier followed by sentinels is left as it is: the
loop calls `resize` only when it meets an entry that differs from the target it picked
up, and here it meets none. `[1, 1, -1, -1]` keeps its trailing sentinels, `[0, -1]` its
sentinel, `[3, 3, 3]` and the self-sequence `[1, 1]` of the default Gather plan with
target 1 their duplicates; `-1` is `gpu_id_t(-1)`. With an entry that differs,
`[0, 1, 1, -1]` is trimmed to `[0, 1]`. -/
theorem trim_plan_keeps_trailing_hops (T : Types) :
    trim_sequence T [1, 1, gpu_id_sentinel T, gpu_id_sentinel T]
      = [1, 1, gpu_id_sentinel T, gpu_id_sentinel T] ∧
    trim_sequence T [0, gpu_id_sentinel T] = [0, gpu_id_sentinel T] ∧
    trim_sequence T [3, 3, 3] = [3, 3, 3] ∧
    (trim_plan T (gather_plan_t.load_default_plan 1
      (transfer_plan_t.base 2 []))).transfer_sequences = [[0, 1], [1, 1]] ∧
    trim_sequence T [0, 1, 1, gpu_id_sentinel T] = [0, 1] := by
  obtain ⟨g, s⟩ := T
  cases g <;> cases s <;> decide

end gossip
